import Mathlib

/-!
HireSphere backend: the match-scoring core of `src/utils/aiProcessor.js`.

A shallow embedding of the `AIProcessor` scoring functions.

Modelling conventions.
* A JavaScript string is the list of its UTF-16 code units (`JsString`).
* `toLowerCase` / `toUpperCase` are modelled on the ASCII letters; every other
  code unit is left unchanged.  Statements that depend on case mapping are
  stated for ASCII labels.
* JavaScript numbers are modelled as exact rationals.  IEEE-754 rounding is
  modelled where a result is compared for equality, in the sum of the weights of
  `validateConfiguration` (`roundDouble`, `jsAdd`); elsewhere the arithmetic is
  exact, and the statements on scores are ranges and values that the rounding
  of a double operation does not change.
* A call that raises a JavaScript `TypeError` evaluates to `none`.
-/

namespace HireSphere

/-! ## Strings -/

/-- JavaScript string: its sequence of UTF-16 code units. -/
abbrev JsString := List Nat

/-- String literal as a `JsString`. -/
def lit (s : String) : JsString := s.toList.map Char.toNat

/-- Lower-case image of one code unit (`A`..`Z` to `a`..`z`). -/
def lowerUnit (c : Nat) : Nat := if 65 ≤ c ∧ c ≤ 90 then c + 32 else c

/-- Upper-case image of one code unit (`a`..`z` to `A`..`Z`). -/
def upperUnit (c : Nat) : Nat := if 97 ≤ c ∧ c ≤ 122 then c - 32 else c

/-- Embedding of `String.prototype.toLowerCase` on ASCII text: the letters `A`..`Z`
are mapped, every other code unit is kept, so a cased letter outside ASCII is
not folded as JavaScript folds it. -/
def toLowerCase (s : JsString) : JsString := s.map lowerUnit

/-- Embedding of `String.prototype.toUpperCase` on ASCII text: the letters `a`..`z`
are mapped, every other code unit is kept. -/
def toUpperCase (s : JsString) : JsString := s.map upperUnit

/-! ## `levenshteinDistance` (aiProcessor.js 209-231) -/

/-- Assignment `a[j] = v` on a JavaScript array of numbers.  Writing at the
current length appends; the loops below never write further out, so the
padding branch is not exercised. -/
def arraySet (a : List Nat) (j v : Nat) : List Nat :=
  if j < a.length then a.set j v else a ++ List.replicate (j - a.length) 0 ++ [v]

/-- Assignment `matrix[i] = row`. -/
def rowSet (m : List (List Nat)) (i : Nat) (row : List Nat) : List (List Nat) :=
  if i < m.length then m.set i row else m ++ List.replicate (i - m.length) [] ++ [row]

/-- Read `matrix[i][j]`. -/
def cell (m : List (List Nat)) (i j : Nat) : Nat := (m.getD i []).getD j 0

/-- Assignment `matrix[i][j] = v`. -/
def cellSet (m : List (List Nat)) (i j v : Nat) : List (List Nat) :=
  m.set i (arraySet (m.getD i []) j v)

/-- First loop: `for (i = 0; i <= str2.length; i++) matrix[i] = [i]`. -/
def initRows (n2 : Nat) : List (List Nat) :=
  (List.range (n2 + 1)).foldl (fun m i => rowSet m i [i]) []

/-- Second loop: `for (j = 0; j <= str1.length; j++) matrix[0][j] = j`. -/
def initFirstRow (m : List (List Nat)) (n1 : Nat) : List (List Nat) :=
  (List.range (n1 + 1)).foldl (fun m j => cellSet m 0 j j) m

/-- Body of the inner loop at `(i, j)`. -/
def fillCell (str1 str2 : JsString) (i : Nat) (m : List (List Nat)) (j : Nat) :
    List (List Nat) :=
  if str2[i - 1]? = str1[j - 1]? then
    cellSet m i j (cell m (i - 1) (j - 1))
  else
    cellSet m i j
      (min (cell m (i - 1) (j - 1) + 1) (min (cell m i (j - 1) + 1) (cell m (i - 1) j + 1)))

/-- Inner loop: `for (j = 1; j <= str1.length; j++)`. -/
def fillRow (str1 str2 : JsString) (m : List (List Nat)) (i : Nat) : List (List Nat) :=
  (List.range' 1 str1.length).foldl (fillCell str1 str2 i) m

/-- Outer loop: `for (i = 1; i <= str2.length; i++)`. -/
def fillMatrix (str1 str2 : JsString) (m : List (List Nat)) : List (List Nat) :=
  (List.range' 1 str2.length).foldl (fillRow str1 str2) m

/-- Embedding of `AIProcessor.levenshteinDistance(str1, str2)`. -/
def levenshteinDistance (str1 str2 : JsString) : Nat :=
  cell (fillMatrix str1 str2 (initFirstRow (initRows str2.length) str1.length))
    str2.length str1.length

/-- One row of the recursion of `editDistance`: the first string is `a :: s`,
and `r` gives the distances from `s`. -/
def editDistanceRow (a : Nat) (s : JsString) (r : JsString → Nat) : JsString → Nat
  | [] => s.length + 1
  | b :: t =>
    if a = b then r t
    else 1 + min (r (b :: t)) (min (editDistanceRow a s r t) (r t))

/-- Classic Levenshtein edit distance, by recursion on the two strings: the
distance to or from the empty string is the length of the other string; equal
first characters cost nothing; otherwise one edit (a deletion, an insertion or
a substitution) plus the cheapest remainder.  The equations are
`editDistance_nil_left`, `editDistance_nil_right` and `editDistance_cons_cons`. -/
def editDistance : JsString → JsString → Nat
  | [] => fun t => t.length
  | a :: s => editDistanceRow a s (editDistance s)

/-- One single-character edit: an insertion, a deletion or a substitution at any
position of the string. -/
inductive EditStep : JsString → JsString → Prop where
  | insert (p q : JsString) (x : Nat) : EditStep (p ++ q) (p ++ x :: q)
  | delete (p q : JsString) (x : Nat) : EditStep (p ++ x :: q) (p ++ q)
  | substitute (p q : JsString) (x y : Nat) : EditStep (p ++ x :: q) (p ++ y :: q)

/-- Relation `EditsIn k s t`: some sequence of `k` single-character edits turns `s` into
`t`. -/
inductive EditsIn : Nat → JsString → JsString → Prop where
  | done (s : JsString) : EditsIn 0 s s
  | step {k : Nat} {s u t : JsString} : EditStep s u → EditsIn k u t → EditsIn (k + 1) s t

/-- Cost of substituting `b` for `a`. -/
def subCost (a b : Nat) : Nat := if a = b then 0 else 1

/-- One row of the recursion of `lev`. -/
def levRow (a : Nat) (s : JsString) (r : JsString → Nat) : JsString → Nat
  | [] => s.length + 1
  | b :: t => min (r (b :: t) + 1) (min (levRow a s r t + 1) (r t + subCost a b))

/-- Edit distance in its uniform form: always the minimum over deletion,
insertion and substitution (a substitution of equal characters is free). -/
def lev : JsString → JsString → Nat
  | [] => fun t => t.length
  | a :: s => levRow a s (lev s)

/-- Distance between the length-`i` prefix of `str2` and the length-`j` prefix of
`str1`, read from their last characters backwards: the value the loops store in
`matrix[i][j]`. -/
def prefixDistance (str1 str2 : JsString) (i j : Nat) : Nat :=
  editDistance (str2.take i).reverse (str1.take j).reverse

/-- Row `i` of the finished matrix. -/
def fullRow (str1 str2 : JsString) (i : Nat) : List Nat :=
  (List.range (str1.length + 1)).map (prefixDistance str1 str2 i)

/-- Row `i` of the matrix while the inner loop has filled columns `0..j`. -/
def partialRow (str1 str2 : JsString) (i j : Nat) : List Nat :=
  (List.range (j + 1)).map (prefixDistance str1 str2 i)

/-- Loop invariant of the outer loop after row `i` has been filled. -/
def MatrixInv (str1 str2 : JsString) (i : Nat) (m : List (List Nat)) : Prop :=
  m.length = str2.length + 1 ∧
  (∀ r, r ≤ i → m[r]? = some (fullRow str1 str2 r)) ∧
  (∀ r, i < r → r ≤ str2.length → m[r]? = some [r])

/-! ## JavaScript values, objects and array callbacks -/

/-- The JavaScript values a skill entry can be. -/
inductive JsVal where
  | undefined
  | null
  | num (x : ℚ)
  | str (s : JsString)
  | obj
  deriving DecidableEq

/-- One entry of an education array: a falsy entry (skipped), a string, an
object with the fields `degree`, `fieldOfStudy`, `institution` (each given by
its `String(...)` form, `none` when absent), or another truthy value (ignored). -/
inductive EducationEntry where
  | falsy
  | text (s : JsString)
  | record (degree fieldOfStudy institution : Option JsString)
  | other

/-- The shapes of `candidate.education` that `getEducationLevel` tells apart: a
string, an object, an array of entries, or another truthy value given by its
`String(...)` form. -/
inductive Education where
  | text (s : JsString)
  | record (degree fieldOfStudy institution : Option JsString)
  | list (entries : List EducationEntry)
  | other (shown : JsString)

/-- Candidate object as read by the scoring functions (`none`: field absent). -/
structure Candidate where
  skills : Option (List JsVal)
  experience : Option ℚ
  education : Option Education
  currentCompany : Option JsString

/-- Job object as read by the scoring functions (`none`: field absent). -/
structure Job where
  requiredSkills : Option (List JsVal)
  experience : Option ℚ
  title : Option JsString

/-- Embedding of `Array.prototype.some` with a callback that may throw. -/
def jsSome {α : Type} (p : α → Option Bool) : List α → Option Bool
  | [] => some false
  | x :: xs =>
    match p x with
    | none => none
    | some true => some true
    | some false => jsSome p xs

/-- Embedding of `Array.prototype.filter(...).length` with a callback that may throw. -/
def jsCount {α : Type} (p : α → Option Bool) : List α → Option Nat
  | [] => some 0
  | x :: xs =>
    match p x with
    | none => none
    | some b =>
      match jsCount p xs with
      | none => none
      | some n => some (if b then n + 1 else n)

/-- The mapping `arr.map((s) => s.toLowerCase())`: a `TypeError` on any entry that is not a
string. -/
def lowerAll : List JsVal → Option (List JsString)
  | [] => some []
  | JsVal.str s :: xs =>
    match lowerAll xs with
    | none => none
    | some ys => some (toLowerCase s :: ys)
  | _ :: _ => none

/-! ## `isSkillMatch` (aiProcessor.js 152-195) -/

/-- Result of the property read `skillMappings[key]` on the object literal. -/
inductive Lookup where
  /-- own property: the synonym array -/
  | array (xs : List JsString)
  /-- no such property: `undefined` -/
  | missing
  /-- property inherited from `Object.prototype`: a function or object that has
  no `includes` method -/
  | inherited
  deriving DecidableEq

/-- The `skillMappings` object literal. -/
def skillMappingsTable : List (JsString × List JsString) :=
  [ (lit "javascript",
      [lit "js", lit "ecmascript", lit "node.js", lit "nodejs", lit "react", lit "vue",
       lit "angular"]),
    (lit "python",
      [lit "django", lit "flask", lit "pandas", lit "numpy", lit "tensorflow", lit "pytorch"]),
    (lit "java", [lit "spring", lit "hibernate", lit "maven", lit "gradle"]),
    (lit "aws",
      [lit "amazon web services", lit "ec2", lit "s3", lit "lambda", lit "cloudformation"]),
    (lit "react", [lit "react.js", lit "jsx", lit "redux", lit "next.js"]),
    (lit "node.js", [lit "nodejs", lit "express", lit "npm", lit "javascript"]),
    (lit "sql", [lit "mysql", lit "postgresql", lit "oracle", lit "database", lit "rdbms"]),
    (lit "docker", [lit "kubernetes", lit "containerization", lit "k8s"]),
    (lit "git", [lit "github", lit "gitlab", lit "version control", lit "svn"]) ]

/-- Property names that every object literal inherits from `Object.prototype`. -/
def objectPrototypeKeys : List JsString :=
  [ lit "constructor", lit "__defineGetter__", lit "__defineSetter__", lit "hasOwnProperty",
    lit "__lookupGetter__", lit "__lookupSetter__", lit "isPrototypeOf",
    lit "propertyIsEnumerable", lit "toString", lit "valueOf", lit "__proto__",
    lit "toLocaleString" ]

/-- Property read `skillMappings[key]`. -/
def skillMappings (key : JsString) : Lookup :=
  match skillMappingsTable.lookup key with
  | some xs => Lookup.array xs
  | none => if objectPrototypeKeys.contains key then Lookup.inherited else Lookup.missing

/-- Expression `skillMappings[key]?.includes(x)`: `undefined` (falsy) when the
property is missing, a `TypeError` when the property is inherited and has no
`includes`. -/
def optionalIncludes (l : Lookup) (x : JsString) : Option Bool :=
  match l with
  | Lookup.array xs => some (xs.contains x)
  | Lookup.missing => some false
  | Lookup.inherited => none

/-- Embedding of `AIProcessor.calculateStringSimilarity(str1, str2)`. -/
def calculateStringSimilarity (str1 str2 : JsString) : ℚ :=
  let longer := if str1.length > str2.length then str1 else str2
  let shorter := if str1.length > str2.length then str2 else str1
  if longer.length = 0 then 1
  else ((longer.length : ℚ) - (levenshteinDistance longer shorter : ℚ)) / (longer.length : ℚ)

/-- Embedding of `AIProcessor.isSkillMatch(candidateSkill, jobSkill)`; `none` is a thrown
`TypeError`. -/
def isSkillMatch (candidateSkill jobSkill : JsVal) : Option Bool :=
  match candidateSkill, jobSkill with
  | JsVal.str c, JsVal.str j =>
    if c = [] ∨ j = [] then some false
    else if c = j then some true
    else
      match optionalIncludes (skillMappings (toLowerCase j)) (toLowerCase c) with
      | none => none
      | some true => some true
      | some false =>
        match optionalIncludes (skillMappings (toLowerCase c)) (toLowerCase j) with
        | none => none
        | some true => some true
        | some false =>
          some (decide (calculateStringSimilarity (toLowerCase c) (toLowerCase j) > 4 / 5))
  | _, _ => some false

/-- The test `calculateStringSimilarity(a, b) > 0.8` on natural numbers. -/
def similarityAbove (a b : JsString) : Bool :=
  decide (a.length = 0 ∧ b.length = 0 ∨ 5 * editDistance a b < max a.length b.length)

/-- The function `isSkillMatch` on two strings with the similarity test carried out on
natural numbers (`isSkillMatch_str` proves the two equal). -/
def isSkillMatchStr (c j : JsString) : Option Bool :=
  if c = [] ∨ j = [] then some false
  else if c = j then some true
  else
    match optionalIncludes (skillMappings (toLowerCase j)) (toLowerCase c) with
    | none => none
    | some true => some true
    | some false =>
      match optionalIncludes (skillMappings (toLowerCase c)) (toLowerCase j) with
      | none => none
      | some true => some true
      | some false => some (similarityAbove (toLowerCase c) (toLowerCase j))

/-! ## `calculateTechnicalMatch` (aiProcessor.js 120-149) -/

/-- Number of job skills of a bucket matched by some candidate skill. -/
def bucketMatches (candidateSkillsLower bucketLower : List JsString) : Option Nat :=
  jsCount (fun skill =>
    jsSome (fun candidateSkill => isSkillMatch (JsVal.str candidateSkill) (JsVal.str skill))
      candidateSkillsLower) bucketLower

/-- Embedding of `AIProcessor.calculateTechnicalMatch`; `none` is a thrown `TypeError`. -/
def calculateTechnicalMatch (candidateSkills jobRequiredSkills jobNiceToHaveSkills : List JsVal) :
    Option ℚ :=
  match lowerAll candidateSkills with
  | none => none
  | some candidateSkillsLower =>
    match lowerAll jobRequiredSkills with
    | none => none
    | some requiredLower =>
      match lowerAll jobNiceToHaveSkills with
      | none => none
      | some niceToHaveLower =>
        match bucketMatches candidateSkillsLower requiredLower with
        | none => none
        | some requiredMatches =>
          match bucketMatches candidateSkillsLower niceToHaveLower with
          | none => none
          | some niceMatches =>
            let requiredScore : ℚ :=
              (requiredMatches : ℚ) / ((max requiredLower.length 1 : Nat) : ℚ) * 70
            let niceScore : ℚ :=
              (niceMatches : ℚ) / ((max niceToHaveLower.length 1 : Nat) : ℚ) * 30
            some (min (requiredScore + niceScore) 100)

/-! ## `calculateExperienceMatch` (aiProcessor.js 234-252) -/

/-- Truthiness of an optional string: present and not empty. -/
def truthyStr : Option JsString → Bool
  | none => false
  | some s => decide (s ≠ [])

/-- Embedding of `AIProcessor.calculateExperienceMatch(candidate, job)`. -/
def calculateExperienceMatch (candidate : Option Candidate) (job : Option Job) : ℚ :=
  match candidate.bind (fun c => c.experience), job.bind (fun j => j.experience) with
  | some candidateExp, some requiredExp =>
    if candidateExp = 0 ∨ requiredExp = 0 then 50
    else if candidateExp ≥ requiredExp then
      let overQualification := min ((candidateExp - requiredExp) / requiredExp) (1 / 2)
      min 100 (80 + overQualification * 20)
    else
      let underQualification := (requiredExp - candidateExp) / requiredExp
      max 0 (100 - underQualification * 50)
  | _, _ => 50

/-! ## `calculateCulturalFit`, `getEducationLevel`, `getJobLevel` (aiProcessor.js 255-392) -/

/-- Test whether `s` starts with `w`. -/
def startsWith : JsString → JsString → Bool
  | _, [] => true
  | [], _ :: _ => false
  | c :: s, d :: w => c == d && startsWith s w

/-- Embedding of `String.prototype.includes`. -/
def includes : JsString → JsString → Bool
  | [], w => startsWith [] w
  | c :: s, w => startsWith (c :: s) w || includes s w

/-- Word characters of a regular expression: `[A-Za-z0-9_]`. -/
def isWordUnit (c : Nat) : Bool :=
  (48 ≤ c && c ≤ 57) || (65 ≤ c && c ≤ 90) || c == 95 || (97 ≤ c && c ≤ 122)

/-- Word character test on an optional neighbour (no neighbour at either end). -/
def isWordSide : Option Nat → Bool
  | none => false
  | some c => isWordUnit c

/-- Regular-expression assertion `\b` between two neighbouring positions. -/
def wordBoundary (before after : Option Nat) : Bool :=
  isWordSide before != isWordSide after

/-- Match of `\bw\b` at the start of `rest`, where `before` is the preceding
character. -/
def wordAt (w : JsString) (before : Option Nat) (rest : JsString) : Bool :=
  startsWith rest w && wordBoundary before (rest.head?) &&
    wordBoundary ((before :: rest.map some).getD w.length none) ((rest.drop w.length).head?)

/-- Scan for a match of `\bw\b` in the remainder `rest`. -/
def wordScan (w : JsString) : Option Nat → JsString → Bool
  | before, [] => wordAt w before []
  | before, c :: rest => wordAt w before (c :: rest) || wordScan w (some c) rest

/-- Regular-expression test `s.match(/\bw\b/)`. -/
def matchesWord (s w : JsString) : Bool := wordScan w none s

/-- The `levels` object of `getEducationLevel`, in insertion order. -/
def educationLevels : List (JsString × Nat) :=
  [ (lit "high school", 1), (lit "associate", 2), (lit "bachelor", 3), (lit "master", 4),
    (lit "phd", 5), (lit "doctorate", 5) ]

/-- The abbreviation heuristics of `getEducationLevel`, in order: the words of
each regular expression and the level it returns. -/
def educationHeuristics : List (List JsString × Nat) :=
  [ ([lit "phd", lit "doctorate"], 5),
    ([lit "master", lit "masters", lit "msc", lit "ma", lit "ms"], 4),
    ([lit "bachelor", lit "bc", lit "bsc", lit "ba", lit "bsc"], 3),
    ([lit "associate", lit "assoc", lit "aa"], 2),
    ([lit "high school", lit "hs"], 1) ]

/-- Truthiness of `candidate.education`: every value but the empty string. -/
def educationTruthy : Education → Bool
  | Education.text s => decide (s ≠ [])
  | _ => true

/-- The strings pushed for an object: each truthy field, in the order `degree`,
`fieldOfStudy`, `institution`. -/
def recordTexts (degree fieldOfStudy institution : Option JsString) : List JsString :=
  [degree, fieldOfStudy, institution].filterMap
    (fun field => match field with
      | some s => if s ≠ [] then some s else none
      | none => none)

/-- The strings pushed for one entry of an education array. -/
def entryTexts : EducationEntry → List JsString
  | EducationEntry.falsy => []
  | EducationEntry.text s => if s ≠ [] then [s] else []
  | EducationEntry.record d f i => recordTexts d f i
  | EducationEntry.other => []

/-- The array `texts` that `getEducationLevel` collects from a truthy argument. -/
def educationTexts : Education → List JsString
  | Education.text s => [s]
  | Education.record d f i => recordTexts d f i
  | Education.list entries => entries.flatMap entryTexts
  | Education.other shown => [shown]

/-- Embedding of `Array.prototype.join(" ")` on strings. -/
def joinSpace : List JsString → JsString
  | [] => []
  | [s] => s
  | s :: t :: rest => s ++ 32 :: joinSpace (t :: rest)

/-- The level found in the lower-cased `combined` text: the first key of `levels`
it includes, else the first abbreviation heuristic that matches, else 3. -/
def levelOfCombined (combined : JsString) : Nat :=
  match educationLevels.find? (fun kv => includes combined kv.1) with
  | some kv => kv.2
  | none =>
    match educationHeuristics.find? (fun h => h.1.any (matchesWord combined)) with
    | some h => h.2
    | none => 3

/-- Embedding of `AIProcessor.getEducationLevel(education)`. -/
def getEducationLevel (education : Education) : Nat :=
  if educationTruthy education then
    levelOfCombined (toLowerCase (joinSpace (educationTexts education)))
  else 3

/-- Embedding of `AIProcessor.getJobLevel(jobTitle)`. -/
def getJobLevel (jobTitle : JsString) : Nat :=
  let titleLower := toLowerCase jobTitle
  if includes titleLower (lit "senior") || includes titleLower (lit "lead") ||
      includes titleLower (lit "principal") then 4
  else if includes titleLower (lit "mid") || includes titleLower (lit "intermediate") then 3
  else if includes titleLower (lit "junior") || includes titleLower (lit "entry") then 2
  else 3

/-- Embedding of `AIProcessor.calculateCulturalFit(candidate, job)`. -/
def calculateCulturalFit (candidate : Option Candidate) (job : Option Job) : ℚ :=
  let score : ℚ :=
    match candidate.bind (fun c => c.education), job.bind (fun j => j.title) with
    | some education, some title =>
      if educationTruthy education = false ∨ title = [] then 50
      else
        let educationLevel : ℤ := getEducationLevel education
        let jobLevel : ℤ := getJobLevel title
        if |educationLevel - jobLevel| ≤ 1 then 50 + 20
        else if |educationLevel - jobLevel| > 2 then 50 - 20
        else 50
    | _, _ => 50
  max 0 (min 100 score)

/-! ## `calculateSuccessProbability` (aiProcessor.js 276-316) -/

/-- White space removed by `String.prototype.trim`. -/
def isWhiteSpace (c : Nat) : Bool :=
  (9 ≤ c && c ≤ 13) || c == 32 || c == 160 || c == 5760 || (8192 ≤ c && c ≤ 8202) ||
    c == 8232 || c == 8233 || c == 8239 || c == 8287 || c == 12288 || c == 65279

/-- Embedding of `String.prototype.trim`. -/
def trim (s : JsString) : JsString :=
  ((s.dropWhile isWhiteSpace).reverse.dropWhile isWhiteSpace).reverse

/-- The list `candidate.skills.filter((skill) => skill && typeof skill === "string" &&
skill.trim()).map((skill) => skill.trim())`. -/
def validSkills : List JsVal → List JsString
  | [] => []
  | JsVal.str s :: xs => if s ≠ [] ∧ trim s ≠ [] then trim s :: validSkills xs else validSkills xs
  | _ :: xs => validSkills xs

/-- Factor 1 of `calculateSuccessProbability`: the change of the probability
from skill alignment. -/
def skillAlignment (candidate : Option Candidate) (job : Option Job) : Option ℚ :=
  match candidate.bind (fun c => c.skills), job.bind (fun j => j.requiredSkills) with
  | some skills, some requiredSkills =>
    let validCandidateSkills := validSkills skills
    if validCandidateSkills.length > 0 then
      match jsCount (fun skill =>
          jsSome (fun reqSkill => isSkillMatch (JsVal.str skill) reqSkill) requiredSkills)
          validCandidateSkills with
      | none => none
      | some matched =>
        let skillMatch : ℚ := (matched : ℚ) / ((max requiredSkills.length 1 : Nat) : ℚ)
        some ((skillMatch - 1 / 2) * 30)
    else some 0
  | _, _ => some 0

/-- Factor 2 of `calculateSuccessProbability`: the change of the probability
from experience alignment. -/
def experienceAlignment (candidate : Option Candidate) (job : Option Job) : ℚ :=
  match candidate.bind (fun c => c.experience), job.bind (fun j => j.experience) with
  | some candidateExp, some jobExp =>
    if candidateExp = 0 ∨ jobExp = 0 then 0
    else
      let expRatio := candidateExp / max jobExp 1
      if expRatio ≥ 1 then 20
      else if expRatio ≥ 7 / 10 then 10
      else -10
  | _, _ => 0

/-- Factor 3 of `calculateSuccessProbability`: the change of the probability
from a current company. -/
def companyStability (candidate : Option Candidate) : ℚ :=
  if truthyStr (candidate.bind (fun c => c.currentCompany)) then 10 else 0

/-- Embedding of `AIProcessor.calculateSuccessProbability(candidate, job)`; `none` is a
thrown `TypeError`. -/
def calculateSuccessProbability (candidate : Option Candidate) (job : Option Job) : Option ℚ :=
  match skillAlignment candidate job with
  | none => none
  | some shift =>
    let probability : ℚ :=
      50 + shift + experienceAlignment candidate job + companyStability candidate
    some (max 0 (min 100 probability))

/-! ## `calculateMatchScore` (aiProcessor.js 86-117) -/

/-- Embedding of `Math.round`: the nearest integer, halves rounded up. -/
def mathRound (x : ℚ) : ℤ := ⌊x + 1 / 2⌋

/-- Embedding of `AIProcessor.calculateMatchScore`; `none` is a thrown `TypeError`.
The weighted sum is taken over exact rationals, without the rounding of each
double operation, so where the exact sum is half an integer the code may return
the integer below. -/
def calculateMatchScore (candidateSkills jobRequiredSkills jobNiceToHaveSkills : List JsVal)
    (candidate : Option Candidate) (job : Option Job) : Option ℤ :=
  match calculateTechnicalMatch candidateSkills jobRequiredSkills jobNiceToHaveSkills with
  | none => none
  | some technicalScore =>
    let experienceScore := calculateExperienceMatch candidate job
    let culturalScore := calculateCulturalFit candidate job
    match calculateSuccessProbability candidate job with
    | none => none
    | some successScore =>
      let totalScore : ℚ :=
        0 + technicalScore * (1 / 2) + experienceScore * (1 / 5) + culturalScore * (3 / 20) +
          successScore * (3 / 20)
      some (min (mathRound totalScore) 100)

/-! ## `analyzeBias` and its helpers (aiProcessor.js 395-735) -/

/-- One entry of the `biasCategories` object. -/
structure BiasCategory where
  name : JsString
  terms : List JsString
  weight : ℤ
  suggestions : List JsString
  deriving DecidableEq

/-- The `biasCategories` object literal, in insertion order. -/
def biasCategories : List BiasCategory :=
  [ { name := lit "gender",
      terms := [lit "he", lit "she", lit "him", lit "her", lit "his", lit "hers", lit "male",
        lit "female", lit "man", lit "woman", lit "guy", lit "gal", lit "boy", lit "girl"],
      weight := 3,
      suggestions := [lit "Use \"they\" or \"person\" instead",
        lit "Focus on skills and experience"] },
    { name := lit "age",
      terms := [lit "young", lit "old", lit "recent graduate", lit "fresh", lit "energetic",
        lit "mature", lit "seasoned", lit "junior", lit "senior", lit "youthful"],
      weight := 2,
      suggestions := [lit "Focus on experience level rather than age",
        lit "Use \"experienced\" instead of age descriptors"] },
    { name := lit "familial",
      terms := [lit "family", lit "parent", lit "mother", lit "father", lit "wife",
        lit "husband", lit "married", lit "single", lit "kids", lit "children"],
      weight := 4,
      suggestions := [lit "Avoid questions about family status",
        lit "Focus on work availability and commitment"] },
    { name := lit "cultural",
      terms := [lit "ethnic", lit "race", lit "religion", lit "nationality", lit "accent",
        lit "immigrant", lit "foreigner", lit "native"],
      weight := 5,
      suggestions := [lit "Focus on skills and qualifications",
        lit "Emphasize diversity and inclusion"] },
    { name := lit "socioeconomic",
      terms := [lit "wealthy", lit "poor", lit "rich", lit "affluent", lit "privileged",
        lit "disadvantaged", lit "elite", lit "working class"],
      weight := 3,
      suggestions := [lit "Focus on skills and potential",
        lit "Emphasize growth opportunities"] },
    { name := lit "ableist",
      terms := [lit "disabled", lit "handicapped", lit "wheelchair", lit "deaf", lit "blind",
        lit "chronic", lit "illness", lit "condition"],
      weight := 4,
      suggestions := [lit "Focus on essential job functions",
        lit "Emphasize reasonable accommodations"] },
    { name := lit "exclusive",
      terms := [lit "rockstar", lit "ninja", lit "guru", lit "wizard", lit "superhero",
        lit "unicorn", lit "magical", lit "genius"],
      weight := 2,
      suggestions := [lit "Use professional language",
        lit "Focus on specific skills and achievements"] } ]

/-- One entry of `foundBiases`. -/
structure BiasFinding where
  category : JsString
  term : JsString
  count : Nat
  weight : ℤ
  totalDeduction : ℤ
  suggestions : List JsString
  deriving DecidableEq

/-- Left-to-right scan of a global regular expression `\bw\b`: `skip` characters
of the last match are still to be passed over, `before` is the preceding
character.  Counts the matches in `rest` (for a non-empty word `w`). -/
def countMatchesFrom (w : JsString) : Nat → Option Nat → JsString → Nat
  | _, _, [] => 0
  | skip + 1, _, c :: rest => countMatchesFrom w skip (some c) rest
  | 0, before, c :: rest =>
    if wordAt w before (c :: rest) then 1 + countMatchesFrom w (w.length - 1) (some c) rest
    else countMatchesFrom w 0 (some c) rest

/-- Number of matches of `text.match(new RegExp("\\b" + term + "\\b", "gi"))`, 0
when the result is `null`.  The `i` flag folds the ASCII letters only, and `\b`
does not depend on letter case, so the matches are those of the lower-case term
in the lower-cased text. -/
def matchCount (term text : JsString) : Nat :=
  countMatchesFrom (toLowerCase term) 0 none (toLowerCase text)

/-- Body of `config.terms.forEach`: the state is `(biasScore, foundBiases)`. -/
def scanTerm (text : JsString) (config : BiasCategory) (st : ℤ × List BiasFinding)
    (term : JsString) : ℤ × List BiasFinding :=
  let hits := matchCount term text
  if hits > 0 then
    let deduction := config.weight * (hits : ℤ)
    (st.1 - deduction,
      st.2 ++ [{ category := config.name, term := term, count := hits,
                 weight := config.weight, totalDeduction := deduction,
                 suggestions := config.suggestions }])
  else st

/-- Body of `Object.entries(biasCategories).forEach`. -/
def scanCategory (text : JsString) (st : ℤ × List BiasFinding) (config : BiasCategory) :
    ℤ × List BiasFinding :=
  config.terms.foldl (scanTerm text config) st

/-- The pair `(biasScore, foundBiases)` after the two nested loops. -/
def scanBiases (text : JsString) : ℤ × List BiasFinding :=
  biasCategories.foldl (scanCategory text) (100, [])

/-- Number of maximal runs of characters satisfying `p`; `inRun` tells whether
the preceding character was one. -/
def countRuns (p : Nat → Bool) : Bool → JsString → Nat
  | _, [] => 0
  | inRun, c :: rest =>
    if p c then (if inRun then 0 else 1) + countRuns p true rest
    else countRuns p false rest

/-- Embedding of `text.split(/[...]+/).length` for a class of characters `p`: one
piece more than there are separator runs. -/
def splitLength (p : Nat → Bool) (text : JsString) : Nat := countRuns p false text + 1

/-- The character class `[.!?]`. -/
def isSentenceEnd (c : Nat) : Bool := c == 46 || c == 33 || c == 63

/-- Embedding of `AIProcessor.calculateReadability(text)`. -/
def calculateReadability (text : JsString) : ℤ :=
  let sentences := splitLength isSentenceEnd text
  let words := splitLength isWhiteSpace text
  let avgWordsPerSentence : ℚ := (words : ℚ) / (sentences : ℚ)
  let score : ℤ := 100
  let score1 : ℤ := if avgWordsPerSentence > 20 then score - 20 else score
  let score2 : ℤ := if avgWordsPerSentence > 25 then score1 - 20 else score1
  max 0 (min 100 score2)

/-- The `positiveWords` array of `analyzeTone`. -/
def positiveWords : List JsString :=
  [lit "excited", lit "opportunity", lit "growth", lit "innovative", lit "dynamic",
    lit "collaborative"]

/-- The `negativeWords` array of `analyzeTone`. -/
def negativeWords : List JsString :=
  [lit "demanding", lit "challenging", lit "difficult", lit "stressful", lit "competitive",
    lit "intense"]

/-- Embedding of `AIProcessor.analyzeTone(text)`. -/
def analyzeTone (text : JsString) : JsString :=
  let textLower := toLowerCase text
  let positiveCount := (positiveWords.filter (fun word => includes textLower word)).length
  let negativeCount := (negativeWords.filter (fun word => includes textLower word)).length
  if positiveCount > negativeCount then lit "positive"
  else if negativeCount > positiveCount then lit "challenging"
  else lit "neutral"

/-- One entry of `patterns`. -/
structure LanguagePattern where
  type : JsString
  term : JsString
  impact : ℤ
  deriving DecidableEq

/-- The result of `analyzeLanguagePatterns`. -/
structure LanguageAnalysis where
  modernScore : ℤ
  patterns : List LanguagePattern
  readability : ℤ
  tone : JsString
  deriving DecidableEq

/-- The array `modernIndicators.inclusive`. -/
def inclusiveIndicators : List JsString :=
  [lit "they/them", lit "team player", lit "collaborative", lit "diverse", lit "inclusive",
    lit "equity"]

/-- The array `modernIndicators.outdated`. -/
def outdatedIndicators : List JsString :=
  [lit "he/him", lit "rockstar", lit "ninja", lit "guru", lit "workaholic",
    lit "passionate about"]

/-- Body of the two `forEach` loops of `analyzeLanguagePatterns`: the state is
`(modernScore, patterns)`. -/
def scanIndicator (text : JsString) (type : JsString) (impact : ℤ)
    (st : ℤ × List LanguagePattern) (term : JsString) : ℤ × List LanguagePattern :=
  if includes (toLowerCase text) (toLowerCase term) then
    (st.1 + impact, st.2 ++ [{ type := type, term := term, impact := impact }])
  else st

/-- Embedding of `AIProcessor.analyzeLanguagePatterns(text)`. -/
def analyzeLanguagePatterns (text : JsString) : LanguageAnalysis :=
  let st1 := inclusiveIndicators.foldl (scanIndicator text (lit "inclusive") 5) (50, [])
  let st2 := outdatedIndicators.foldl (scanIndicator text (lit "outdated") (-3)) st1
  { modernScore := max 0 (min 100 st2.1),
    patterns := st2.2,
    readability := calculateReadability text,
    tone := analyzeTone text }

/-- The `diversityTerms` array of `calculateDiversityScore`. -/
def diversityTerms : List JsString :=
  [lit "diverse", lit "inclusion", lit "equity", lit "belonging", lit "multicultural",
    lit "diversity"]

/-- Embedding of `AIProcessor.calculateDiversityScore(text, foundBiases)`. -/
def calculateDiversityScore (text : JsString) (foundBiases : List BiasFinding) : ℤ :=
  let score : ℤ := 100 - (foundBiases.length : ℤ) * 5
  let score1 : ℤ := diversityTerms.foldl
    (fun sc term => if includes (toLowerCase text) term then sc + 3 else sc) score
  max 0 (min 100 score1)

/-- Embedding of `[...new Set(items)]`: the first occurrence of every string, in
order. -/
def jsUnique : List JsString → List JsString
  | [] => []
  | x :: xs => x :: (jsUnique xs).filter (fun y => decide (y ≠ x))

/-- The array `recommendations` of `generateRecommendations` before duplicates
are removed. -/
def allRecommendations (foundBiases : List BiasFinding) (languageAnalysis : LanguageAnalysis) :
    List JsString :=
  let r1 := foundBiases.foldl (fun acc bias => acc ++ bias.suggestions) []
  let r2 :=
    if languageAnalysis.modernScore < 60 then
      r1 ++ [lit "Consider updating language to be more modern and inclusive",
        lit "Replace outdated terms with contemporary equivalents"]
    else r1
  if languageAnalysis.readability < 60 then
    r2 ++ [lit "Simplify complex sentences for better readability",
      lit "Use shorter paragraphs and clearer language"]
  else r2

/-- Embedding of `AIProcessor.generateRecommendations(foundBiases, languageAnalysis)`. -/
def generateRecommendations (foundBiases : List BiasFinding)
    (languageAnalysis : LanguageAnalysis) : List JsString :=
  (jsUnique (allRecommendations foundBiases languageAnalysis)).take 5

/-- The `compliance` block of the result of `analyzeBias`. -/
structure Compliance where
  eeocCompliant : Bool
  diversityFriendly : Bool
  modernLanguage : Bool
  deriving DecidableEq

/-- The result of `analyzeBias`. -/
structure BiasAnalysis where
  biasScore : ℤ
  diversityScore : ℤ
  foundBiases : List BiasFinding
  languageAnalysis : LanguageAnalysis
  genderNeutral : Bool
  inclusiveLanguage : Bool
  riskLevel : JsString
  recommendations : List JsString
  compliance : Compliance
  deriving DecidableEq

/-- The `riskLevel` expression of `analyzeBias`, on the score before flooring. -/
def riskLevelOf (biasScore : ℤ) : JsString :=
  if biasScore ≥ 80 then lit "Low Risk"
  else if biasScore ≥ 60 then lit "Medium Risk"
  else if biasScore ≥ 40 then lit "High Risk"
  else lit "Critical Risk"

/-- The body of `analyzeBias` for a string argument. -/
def analyzeBiasText (text : JsString) : BiasAnalysis :=
  let st := scanBiases text
  let biasScore := st.1
  let foundBiases := st.2
  let languageAnalysis := analyzeLanguagePatterns text
  let diversityScore := calculateDiversityScore text foundBiases
  { biasScore := max biasScore 0,
    diversityScore := diversityScore,
    foundBiases := foundBiases,
    languageAnalysis := languageAnalysis,
    genderNeutral := !foundBiases.any (fun bias => decide (bias.category = lit "gender")),
    inclusiveLanguage := decide (foundBiases.length = 0),
    riskLevel := riskLevelOf biasScore,
    recommendations := generateRecommendations foundBiases languageAnalysis,
    compliance :=
      { eeocCompliant := decide (biasScore ≥ 70),
        diversityFriendly := decide (diversityScore ≥ 70),
        modernLanguage := decide (languageAnalysis.modernScore ≥ 70) } }

/-- Embedding of `AIProcessor.analyzeBias(text)`; `none` is the `TypeError` raised
by `text.toLowerCase()` when `text` is not a string. -/
def analyzeBias (text : JsVal) : Option BiasAnalysis :=
  match text with
  | JsVal.str s => some (analyzeBiasText s)
  | _ => none

/-- Position of the first occurrence of `x` in `l` (the length of `l` when there
is none). -/
def firstIndex (x : JsString) : List JsString → Nat
  | [] => 0
  | a :: l => if a = x then 0 else firstIndex x l + 1

/-- Number of positions of `s` at which an occurrence of `w` starts. -/
def countOccurrences (w : JsString) : JsString → Nat
  | [] => 0
  | c :: s => (if startsWith (c :: s) w then 1 else 0) + countOccurrences w s

/-- The five-word vocabulary that the specification names for the diversity
bonus. -/
def specVocabulary : List JsString :=
  [lit "diverse", lit "inclusion", lit "equity", lit "belonging", lit "multicultural"]

/-- The diversity score as the specification words it: 100, minus 5 per finding,
plus 3 per occurrence of a term of `specVocabulary`, clamped to `[0, 100]`. -/
def specDiversityScore (text : JsString) (foundBiases : List BiasFinding) : ℤ :=
  max 0 (min 100 (100 - 5 * (foundBiases.length : ℤ) +
    3 * ((specVocabulary.map (fun term => countOccurrences term (toLowerCase text))).sum : ℤ)))

/-! ## `HealthThresholds` (models/HealthThresholds.js) and `getStatusFromScore` -/

/-- The `weights` sub-object of a thresholds record. -/
structure Weights where
  candidateVolume : ℚ
  applicationRate : ℚ
  timeToFill : ℚ
  diversityRatio : ℚ

/-- The numeric fields of a `HealthThresholds` document. -/
structure HealthThresholds where
  minCandidatesPerJob : ℚ
  criticalCandidatesPerJob : ℚ
  minWeeklyApplications : ℚ
  criticalWeeklyApplications : ℚ
  maxTimeToFill : ℚ
  criticalTimeToFill : ℚ
  minDiversityRatio : ℚ
  criticalDiversityRatio : ℚ
  healthyScoreMin : ℚ
  warningScoreMin : ℚ
  weights : Weights

/-- The numeric part of `healthThresholdsSchema.statics.getDefaults()`. -/
def getDefaults : HealthThresholds :=
  { minCandidatesPerJob := 10, criticalCandidatesPerJob := 5,
    minWeeklyApplications := 20, criticalWeeklyApplications := 10,
    maxTimeToFill := 30, criticalTimeToFill := 60,
    minDiversityRatio := 1 / 5, criticalDiversityRatio := 1 / 10,
    healthyScoreMin := 80, warningScoreMin := 60,
    weights := { candidateVolume := 40, applicationRate := 30, timeToFill := 20,
                 diversityRatio := 10 } }

/-- Rounding of a number to the nearest integer, a tie going to the even one. -/
def roundHalfEven (x : ℚ) : ℤ :=
  let f := ⌊x⌋
  if x - f < 1 / 2 then f
  else if x - f > 1 / 2 then f + 1
  else if f % 2 = 0 then f else f + 1

/-- The binary exponent used to round `x` to a double: the `e` with
`2 ^ e ≤ |x| < 2 ^ (e + 1)`, and `-1022` in the subnormal range. -/
def binaryExponent (x : ℚ) : ℤ := max (Int.log 2 |x|) (-1022)

/-- Rounding of a number to the nearest IEEE 754 double (53 significant bits,
ties to even), the result of an arithmetic operation on JavaScript numbers;
overflow to `Infinity` is left out. -/
def roundDouble (x : ℚ) : ℚ :=
  let ulp : ℚ := 2 ^ (binaryExponent x - 52)
  (roundHalfEven (x / ulp) : ℚ) * ulp

/-- Embedding of `a + b` on JavaScript numbers: the exact sum rounded to a double. -/
def jsAdd (a b : ℚ) : ℚ := roundDouble (a + b)

/-- The sum `Object.values(this.weights).reduce((sum, weight) => sum + weight, 0)`,
added from the left in double precision. -/
def totalWeight (w : Weights) : ℚ :=
  [w.candidateVolume, w.applicationRate, w.timeToFill, w.diversityRatio].foldl
    (fun sum weight => jsAdd sum weight) 0

/-- Embedding of `healthThresholdsSchema.methods.validateConfiguration`.  The
conversion of a number to text inside the template string is the parameter
`numberToString`. -/
def validateConfiguration (numberToString : ℚ → JsString) (t : HealthThresholds) :
    List JsString :=
  let errors0 : List JsString := []
  let errors1 :=
    if totalWeight t.weights ≠ 100 then
      errors0 ++ [lit "Metric weights must sum to 100, currently sum to " ++
        numberToString (totalWeight t.weights)]
    else errors0
  let errors2 :=
    if t.warningScoreMin ≥ t.healthyScoreMin then
      errors1 ++ [lit "Warning score minimum must be less than healthy score minimum"]
    else errors1
  if t.criticalDiversityRatio ≥ t.minDiversityRatio then
    errors2 ++ [lit "Critical diversity ratio must be less than minimum diversity ratio"]
  else errors2

/-- Embedding of `PipelineHealthCalculator.getStatusFromScore(score, thresholds)`. -/
def getStatusFromScore (score : ℚ) (thresholds : HealthThresholds) : JsString :=
  if score ≥ thresholds.healthyScoreMin then lit "healthy"
  else if score ≥ thresholds.warningScoreMin then lit "warning"
  else lit "critical"

/-! ## `PipelineHealthCalculator` (utils/pipelineHealthCalculator.js) -/

/-- A candidate of the snapshot, as read by the calculator. -/
structure SnapshotCandidate where
  name : JsString

/-- A job of the snapshot: `_id.toString()`, `status` and `createdAt` in
milliseconds. -/
structure SnapshotJob where
  id : JsString
  status : JsString
  createdAt : ℤ

/-- An application of the snapshot: `job.toString()`, `status` and `updatedAt` in
milliseconds. -/
structure SnapshotApplication where
  job : JsString
  status : JsString
  updatedAt : ℤ

/-- The four sub-scores `metrics`. -/
structure HealthMetrics where
  candidateVolumeHealth : ℚ
  applicationRateHealth : ℚ
  timeToFillHealth : ℚ
  diversityHealth : ℚ

/-- Embedding of `PipelineHealthCalculator.calculateCandidateVolumeHealth`. -/
def calculateCandidateVolumeHealth (candidates : List SnapshotCandidate)
    (jobs : List SnapshotJob) (thresholds : HealthThresholds) : ℤ :=
  let openJobs := (jobs.filter (fun job => decide (job.status = lit "open"))).length
  if openJobs = 0 then 100
  else
    let candidatesPerJob : ℚ := (candidates.length : ℚ) / (openJobs : ℚ)
    let targetCandidatesPerJob := thresholds.minCandidatesPerJob
    let health := min 100 (candidatesPerJob / targetCandidatesPerJob * 100)
    mathRound health

/-- Embedding of `PipelineHealthCalculator.calculateApplicationRateHealth`. -/
def calculateApplicationRateHealth (recentApplications : List SnapshotApplication)
    (thresholds : HealthThresholds) : ℤ :=
  let weeklyApplications : ℚ := (recentApplications.length : ℚ)
  let targetWeeklyApplications := thresholds.minWeeklyApplications
  let health := min 100 (weeklyApplications / targetWeeklyApplications * 100)
  mathRound health

/-- Body of the `reduce` of `calculateTimeToFillHealth`: the days between the
creation of the job and the update of the application, rounded up, are added
when the job of the application is found. -/
def addTimeToFill (jobs : List SnapshotJob) (sum : ℤ) (app : SnapshotApplication) : ℤ :=
  match jobs.find? (fun j => decide (j.id = app.job)) with
  | none => sum
  | some job =>
    let timeToFill : ℤ :=
      ⌈(((app.updatedAt - job.createdAt : ℤ) : ℚ)) / (1000 * 60 * 60 * 24)⌉
    sum + timeToFill

/-- Embedding of `PipelineHealthCalculator.calculateTimeToFillHealth`. -/
def calculateTimeToFillHealth (jobs : List SnapshotJob)
    (applications : List SnapshotApplication) (thresholds : HealthThresholds) : ℤ :=
  let maxTimeToFill := thresholds.maxTimeToFill
  let completedApplications :=
    applications.filter (fun app => decide (app.status = lit "hired"))
  if completedApplications.length = 0 then 100
  else
    let totalTimeToFill : ℤ := completedApplications.foldl (addTimeToFill jobs) 0
    let avgTimeToFill : ℚ := (totalTimeToFill : ℚ) / (completedApplications.length : ℚ)
    let health :=
      max 0 (min 100 (100 - (avgTimeToFill - maxTimeToFill) / maxTimeToFill * 100))
    mathRound health

/-- The `diverseIndicators` array. -/
def diverseIndicators : List JsString :=
  [lit "patel", lit "kumar", lit "singh", lit "garcia", lit "rodriguez", lit "chen", lit "kim",
    lit "williams", lit "brown"]

/-- Embedding of `PipelineHealthCalculator.calculateDiversityRatio`. -/
def calculateDiversityRatio (candidates : List SnapshotCandidate) : ℚ :=
  if candidates.length = 0 then 0
  else
    let diverseCandidates := candidates.filter (fun candidate =>
      diverseIndicators.any (fun indicator => includes (toLowerCase candidate.name) indicator))
    (diverseCandidates.length : ℚ) / (candidates.length : ℚ)

/-- Embedding of `PipelineHealthCalculator.calculateDiversityHealth`. -/
def calculateDiversityHealth (candidates : List SnapshotCandidate)
    (thresholds : HealthThresholds) : ℤ :=
  let diversityRatio := calculateDiversityRatio candidates
  let targetDiversityRatio := thresholds.minDiversityRatio
  let health := min 100 (diversityRatio / targetDiversityRatio * 100)
  mathRound health

/-- Embedding of `PipelineHealthCalculator.calculateOverallHealthScore`. -/
def calculateOverallHealthScore (metrics : HealthMetrics) (thresholds : HealthThresholds) : ℤ :=
  let weights := thresholds.weights
  let score : ℚ :=
    metrics.candidateVolumeHealth * weights.candidateVolume / 100 +
    metrics.applicationRateHealth * weights.applicationRate / 100 +
    metrics.timeToFillHealth * weights.timeToFill / 100 +
    metrics.diversityHealth * weights.diversityRatio / 100
  mathRound score

/-- The `metrics` object that `calculatePipelineHealth` builds from a snapshot. -/
def snapshotMetrics (candidates : List SnapshotCandidate) (jobs : List SnapshotJob)
    (applications recentApplications : List SnapshotApplication)
    (thresholds : HealthThresholds) : HealthMetrics :=
  { candidateVolumeHealth := (calculateCandidateVolumeHealth candidates jobs thresholds : ℤ),
    applicationRateHealth := (calculateApplicationRateHealth recentApplications thresholds : ℤ),
    timeToFillHealth := (calculateTimeToFillHealth jobs applications thresholds : ℤ),
    diversityHealth := (calculateDiversityHealth candidates thresholds : ℤ) }

/-- Embedding of `PipelineHealthCalculator.identifyTriggers`. -/
def identifyTriggers (metrics : HealthMetrics) (_thresholds : HealthThresholds) :
    List JsString :=
  let t0 : List JsString := []
  let t1 := if metrics.candidateVolumeHealth < 60 then t0 ++ [lit "LOW_CANDIDATE_VOLUME"] else t0
  let t2 := if metrics.applicationRateHealth < 60 then t1 ++ [lit "LOW_APPLICATION_RATE"] else t1
  let t3 := if metrics.timeToFillHealth < 60 then t2 ++ [lit "HIGH_TIME_TO_FILL"] else t2
  if metrics.diversityHealth < 60 then t3 ++ [lit "LOW_DIVERSITY_RATIO"] else t3

/-- The `switch` of `PipelineHealthCalculator.generateRecommendations`: the
strings pushed for one trigger. -/
def triggerRecommendations (trigger : JsString) : List JsString :=
  if trigger = lit "LOW_CANDIDATE_VOLUME" then
    [lit "Post new jobs to attract more candidates",
      lit "Activate candidate rediscovery from your database",
      lit "Expand sourcing to new job boards",
      lit "Review job descriptions for appeal"]
  else if trigger = lit "LOW_APPLICATION_RATE" then
    [lit "Promote jobs on social media",
      lit "Optimize job descriptions for SEO",
      lit "Simplify application process",
      lit "Enable quick apply features"]
  else if trigger = lit "HIGH_TIME_TO_FILL" then
    [lit "Review screening process bottlenecks",
      lit "Increase sourcing efforts for hard-to-fill roles",
      lit "Consider internal mobility options",
      lit "Adjust role requirements if too restrictive"]
  else if trigger = lit "LOW_DIVERSITY_RATIO" then
    [lit "Review job posting language for inclusivity",
      lit "Partner with diverse candidate networks",
      lit "Implement blind recruitment practices",
      lit "Train recruiters on unconscious bias"]
  else []

/-- Embedding of `PipelineHealthCalculator.generateRecommendations(triggers)`. -/
def PipelineHealthCalculator.generateRecommendations (triggers : List JsString) :
    List JsString :=
  jsUnique (triggers.foldl (fun acc trigger => acc ++ triggerRecommendations trigger) [])

/-- One entry of `quickActions`. -/
structure QuickAction where
  label : JsString
  action : JsString
  deriving DecidableEq

/-- One alert object. -/
structure Alert where
  type : JsString
  severity : JsString
  title : JsString
  message : JsString
  recommendations : List JsString
  quickActions : List QuickAction
  deriving DecidableEq

/-- The alert pushed when `candidateVolumeHealth < 30`. -/
def candidateVolumeCritical : Alert :=
  { type := lit "LOW_CANDIDATE_VOLUME", severity := lit "critical",
    title := lit "Pipeline Health Critical",
    message := lit "Your candidate pipeline is running low. Consider posting more jobs or sourcing additional candidates.",
    recommendations :=
      [lit "Post new jobs to attract more candidates",
        lit "Activate candidate rediscovery from your database",
        lit "Expand sourcing to new job boards",
        lit "Review job descriptions for appeal"],
    quickActions :=
      [{ label := [240, 376, 8217, 161] ++ lit " Post New Job",
         action := lit "navigateToJobCreation" },
       { label := [240, 376, 8221] ++ lit " Rediscover Candidates",
         action := lit "activateRediscovery" },
       { label := [240, 376, 8220, 352] ++ lit " Analyze Pipeline",
         action := lit "showDetailedAnalytics" }] }

/-- The alert pushed when `30 <= candidateVolumeHealth < 60`. -/
def candidateVolumeWarning : Alert :=
  { type := lit "LOW_CANDIDATE_VOLUME", severity := lit "warning",
    title := lit "Low Candidate Volume",
    message := lit "Your candidate pool is below recommended levels.",
    recommendations :=
      [lit "Post additional jobs to increase candidate flow",
        lit "Review current job postings for appeal"],
    quickActions :=
      [{ label := [226, 382, 8226] ++ lit " Post New Job",
         action := lit "navigateToJobCreation" }] }

/-- The alert pushed when `applicationRateHealth < 30`. -/
def applicationRateAlert : Alert :=
  { type := lit "LOW_APPLICATION_RATE", severity := lit "critical",
    title := lit "Application Rate Critical",
    message := lit "Weekly applications have dropped significantly below target.",
    recommendations :=
      [lit "Promote jobs on social media",
        lit "Optimize job descriptions for SEO",
        lit "Simplify application process",
        lit "Enable quick apply features"],
    quickActions :=
      [{ label := [240, 376, 8220, 177] ++ lit " Promote Jobs", action := lit "promoteJobs" },
       { label := [226, 339, 239, 184] ++ lit " Edit Job Posts",
         action := lit "editJobPosts" }] }

/-- The alert pushed when `timeToFillHealth < 30`. -/
def timeToFillAlert : Alert :=
  { type := lit "HIGH_TIME_TO_FILL", severity := lit "warning",
    title := lit "Extended Time-to-Fill",
    message := lit "Positions are taking longer to fill than industry average.",
    recommendations :=
      [lit "Review screening process bottlenecks",
        lit "Increase sourcing efforts for hard-to-fill roles",
        lit "Consider internal mobility options",
        lit "Adjust role requirements if too restrictive"],
    quickActions :=
      [{ label := [240, 376, 8221, 8222] ++ lit " Review Process",
         action := lit "reviewProcess" }] }

/-- The alert pushed when `diversityHealth < 30`. -/
def diversityAlert : Alert :=
  { type := lit "LOW_DIVERSITY_RATIO", severity := lit "warning",
    title := lit "Diversity Concerns",
    message := lit "Candidate diversity is below recommended levels.",
    recommendations :=
      [lit "Review job posting language for inclusivity",
        lit "Partner with diverse candidate networks",
        lit "Implement blind recruitment practices"],
    quickActions :=
      [{ label := [240, 376, 338, 710] ++ lit " Review Diversity",
         action := lit "reviewDiversity" }] }

/-- Embedding of `PipelineHealthCalculator.generateAlerts`. -/
def generateAlerts (metrics : HealthMetrics) (_thresholds : HealthThresholds) : List Alert :=
  let a0 : List Alert := []
  let a1 :=
    if metrics.candidateVolumeHealth < 30 then a0 ++ [candidateVolumeCritical]
    else if metrics.candidateVolumeHealth < 60 then a0 ++ [candidateVolumeWarning]
    else a0
  let a2 := if metrics.applicationRateHealth < 30 then a1 ++ [applicationRateAlert] else a1
  let a3 := if metrics.timeToFillHealth < 30 then a2 ++ [timeToFillAlert] else a2
  if metrics.diversityHealth < 30 then a3 ++ [diversityAlert] else a3

/-! ## `MetricsService` and `METRICS_CONFIG` (services/MetricsService.js,
constants/metricsConstants.js) -/

/-- The two objects a calculation method can be called on. -/
inductive ConfigObject where
  /-- the object `METRICS_CONFIG` -/
  | metricsConfig
  /-- the object `METRICS_CONFIG.CALCULATION_METHODS` -/
  | calculationMethods
  deriving DecidableEq

/-- The own property names of the two objects. -/
def ownKeys : ConfigObject → List JsString
  | ConfigObject.metricsConfig =>
    [lit "HEALTH_THRESHOLDS", lit "WEIGHTS", lit "TARGETS", lit "CRITICAL_THRESHOLDS",
      lit "COLORS", lit "STATUS_LABELS", lit "ROUNDING", lit "CALCULATION_METHODS",
      lit "VALIDATION", lit "DISPLAY_FORMATS"]
  | ConfigObject.calculationMethods =>
    [lit "HEALTH_SCORE", lit "GET_STATUS", lit "GET_COLOR", lit "GET_LABEL"]

/-- The object `METRICS_CONFIG.WEIGHTS`. -/
def configWeights : Weights :=
  { candidateVolume := 2 / 5, applicationRate := 3 / 10, timeToFill := 1 / 5,
    diversityRatio := 1 / 10 }

/-- Property read `this.WEIGHTS`: `undefined` (`none`) on an object without that
property. -/
def thisWeights (this : ConfigObject) : Option Weights :=
  if (ownKeys this).contains (lit "WEIGHTS") then some configWeights else none

/-- Property read `this.HEALTH_THRESHOLDS`, given by `(HEALTHY_MIN, WARNING_MIN)`. -/
def thisHealthThresholds (this : ConfigObject) : Option (ℚ × ℚ) :=
  if (ownKeys this).contains (lit "HEALTH_THRESHOLDS") then some (80, 60) else none

/-- The sub-scores `metrics` passed to `MetricsService.calculatePipelineHealth`. -/
structure ServiceMetrics where
  candidateVolume : ℚ
  applicationRate : ℚ
  timeToFill : ℚ
  diversityRatio : ℚ

/-- Embedding of `CALCULATION_METHODS.HEALTH_SCORE`, called with receiver `this`;
`none` is the `TypeError` of reading a property of `undefined`. -/
def HEALTH_SCORE (this : ConfigObject) (metrics : ServiceMetrics) : Option ℚ :=
  match thisWeights this with
  | none => none
  | some weights =>
    some (metrics.candidateVolume * weights.candidateVolume +
      metrics.applicationRate * weights.applicationRate +
      metrics.timeToFill * weights.timeToFill +
      metrics.diversityRatio * weights.diversityRatio)

/-- Embedding of `CALCULATION_METHODS.GET_STATUS`, called with receiver `this`. -/
def GET_STATUS (this : ConfigObject) (score : ℚ) : Option JsString :=
  match thisHealthThresholds this with
  | none => none
  | some cutoffs =>
    if score ≥ cutoffs.1 then some (lit "healthy")
    else if score ≥ cutoffs.2 then some (lit "warning")
    else some (lit "critical")

/-- Embedding of `MetricsService.calculatePipelineHealth(metrics)`: the method is
called as `METRICS_CONFIG.CALCULATION_METHODS.HEALTH_SCORE(metrics)`, so its
receiver is `CALCULATION_METHODS`. -/
def MetricsService.calculatePipelineHealth (metrics : ServiceMetrics) : Option ℤ :=
  match HEALTH_SCORE ConfigObject.calculationMethods metrics with
  | none => none
  | some score => some (max 0 (min 100 (mathRound score)))

/-- Embedding of the `status` field of `MetricsService.getHealthStatus(score)`:
the method is called as `METRICS_CONFIG.CALCULATION_METHODS.GET_STATUS(score)`. -/
def MetricsService.getHealthStatus (score : ℚ) : Option JsString :=
  GET_STATUS ConfigObject.calculationMethods score

/-! ## Labels on which the synonym lookup does not raise -/

/-- A label whose lower-case form is not a property name inherited from
`Object.prototype`. -/
def SafeKey (s : JsString) : Prop := skillMappings (toLowerCase s) ≠ Lookup.inherited

/-- A skill entry that is a string with a `SafeKey`. -/
def SafeEntry (v : JsVal) : Prop := ∃ s, v = JsVal.str s ∧ SafeKey s

/-- A label of ASCII characters, on which the case mapping of the embedding is
that of JavaScript. -/
def AsciiLabel (s : JsString) : Prop := ∀ u ∈ s, u < 128

/-! ## Concrete inputs used below -/

/-- The candidate `{skills: ["javascript","css"], experience: 3}`. -/
def exampleCandidate : Candidate :=
  { skills := some [JsVal.str (lit "javascript"), JsVal.str (lit "css")],
    experience := some 3, education := none, currentCompany := none }

/-- The job `{requiredSkills: ["javascript","react"], niceToHaveSkills: ["css"],
experience: 2}`. -/
def exampleJob : Job :=
  { requiredSkills := some [JsVal.str (lit "javascript"), JsVal.str (lit "react")],
    experience := some 2, title := none }

/-- A candidate whose skill list holds a `null` entry. -/
def nullSkillCandidate : Candidate :=
  { skills := some [JsVal.null, JsVal.str (lit "js")],
    experience := none, education := none, currentCompany := none }

/-- The default thresholds with the weights `{40, 30, 20, 9}`. -/
def weights99 : HealthThresholds :=
  { getDefaults with
    weights := { candidateVolume := 40, applicationRate := 30, timeToFill := 20,
                 diversityRatio := 9 } }

/-- A text with two gendered terms and two occurrences of `"diverse"`. -/
def diverseText : JsString := lit "he she diverse diverse"

/-- A candidate with the education `"PhD in Physics"` and one year of experience. -/
def phdCandidate : Candidate :=
  { skills := none, experience := some 1,
    education := some (Education.text (lit "PhD in Physics")), currentCompany := none }

/-- A job titled `"Junior Developer"` that asks for two years of experience. -/
def juniorJob : Job :=
  { requiredSkills := none, experience := some 2, title := some (lit "Junior Developer") }

/-- A job titled `"Developer"`. -/
def developerJob : Job :=
  { requiredSkills := none, experience := none, title := some (lit "Developer") }

/-- A job titled `"Senior Developer"`. -/
def seniorJob : Job :=
  { requiredSkills := none, experience := none, title := some (lit "Senior Developer") }

/-- The sub-scores 20, 90, 90, 90 of the worked example. -/
def exampleMetrics : HealthMetrics :=
  { candidateVolumeHealth := 20, applicationRateHealth := 90, timeToFillHealth := 90,
    diversityHealth := 90 }

/-- Sub-scores with only the time-to-fill health below 30. -/
def slowFillMetrics : HealthMetrics :=
  { candidateVolumeHealth := 100, applicationRateHealth := 100, timeToFillHealth := 0,
    diversityHealth := 100 }

/-- The record `{candidateVolume: 50, applicationRate: 50, timeToFill: 50,
diversityRatio: 50}`. -/
def fiftyMetrics : ServiceMetrics :=
  { candidateVolume := 50, applicationRate := 50, timeToFill := 50, diversityRatio := 50 }

/-- The candidate `{skills: ["js", "javascript", "react"], experience: 19,
education: "Bachelor of Science", currentCompany: "Acme"}`. -/
def synonymCandidate : Candidate :=
  { skills := some [JsVal.str (lit "js"), JsVal.str (lit "javascript"), JsVal.str (lit "react")],
    experience := some 19, education := some (Education.text (lit "Bachelor of Science")),
    currentCompany := some (lit "Acme") }

/-- The job `{requiredSkills: ["javascript"], experience: 20, title: "Developer"}`. -/
def synonymJob : Job :=
  { requiredSkills := some [JsVal.str (lit "javascript")], experience := some 20,
    title := some (lit "Developer") }

/-- Three candidates of a snapshot. -/
def sampleCandidates : List SnapshotCandidate :=
  [{ name := lit "Ana Garcia" }, { name := lit "John Smith" }, { name := lit "Wei Chen" }]

/-- One open and one closed job of a snapshot, created at time 0. -/
def sampleJobs : List SnapshotJob :=
  [{ id := lit "j1", status := lit "open", createdAt := 0 },
    { id := lit "j2", status := lit "closed", createdAt := 0 }]

/-- Two applications of a snapshot: one hired after 45 days, one pending. -/
def sampleApplications : List SnapshotApplication :=
  [{ job := lit "j2", status := lit "hired", updatedAt := 45 * 86400000 },
    { job := lit "j1", status := lit "pending", updatedAt := 86400000 }]

/-- The default thresholds with the weights 12.1, 37.9, 25, 25, given by the
doubles that store them. -/
def decimalWeights : HealthThresholds :=
  { getDefaults with
    weights := { candidateVolume := 6811694436397875 / 562949953421312,
                 applicationRate := 5333950808666931 / 140737488355328,
                 timeToFill := 25, diversityRatio := 25 } }

/-- The default thresholds with the weights 33.3, 33.3, 33.3, 0.1, given by the
doubles that store them. -/
def thirdsWeights : HealthThresholds :=
  { getDefaults with
    weights := { candidateVolume := 2343279181116211 / 70368744177664,
                 applicationRate := 2343279181116211 / 70368744177664,
                 timeToFill := 2343279181116211 / 70368744177664,
                 diversityRatio := 3602879701896397 / 36028797018963968 } }

/-- A job that requires `"js"`. -/
def jsJob : Job :=
  { requiredSkills := some [JsVal.str (lit "js")], experience := none, title := none }

/-! ## Edit distance: equations -/

theorem editDistance_nil_left (t : JsString) : editDistance [] t = t.length := rfl

theorem editDistance_nil_right (s : JsString) : editDistance s [] = s.length := by
  cases s <;> rfl

theorem editDistance_cons_cons (a b : Nat) (s t : JsString) :
    editDistance (a :: s) (b :: t) =
      if a = b then editDistance s t
      else 1 + min (editDistance s (b :: t))
        (min (editDistance (a :: s) t) (editDistance s t)) := rfl

theorem lev_nil_left (t : JsString) : lev [] t = t.length := rfl

theorem lev_nil_right (s : JsString) : lev s [] = s.length := by
  cases s <;> rfl

theorem lev_cons_cons (a b : Nat) (s t : JsString) :
    lev (a :: s) (b :: t) =
      min (lev s (b :: t) + 1) (min (lev (a :: s) t + 1) (lev s t + subCost a b)) := rfl

theorem subCost_comm (a b : Nat) : subCost a b = subCost b a := by
  unfold subCost
  by_cases h : a = b
  · simp [h]
  · have h2 : ¬ b = a := fun e => h e.symm
    simp [h, h2]

theorem subCost_le_one (a b : Nat) : subCost a b ≤ 1 := by
  unfold subCost; split <;> omega

theorem lev_symm (s t : JsString) : lev s t = lev t s := by
  induction s generalizing t with
  | nil => rw [lev_nil_left, lev_nil_right]
  | cons a s ihs =>
    induction t with
    | nil => rw [lev_nil_left, lev_nil_right]
    | cons b t iht =>
      rw [lev_cons_cons, lev_cons_cons, ihs (b :: t), iht, ihs t, subCost_comm a b]
      omega

theorem lev_snoc_nil (s : JsString) (a : Nat) : lev (s ++ [a]) [] = s.length + 1 := by
  rw [lev_nil_right]; simp

theorem lev_nil_snoc (t : JsString) (b : Nat) : lev [] (t ++ [b]) = t.length + 1 := by
  rw [lev_nil_left]; simp

theorem lev_snoc_snoc (a b : Nat) (s t : JsString) :
    lev (s ++ [a]) (t ++ [b]) =
      min (lev s (t ++ [b]) + 1) (min (lev (s ++ [a]) t + 1) (lev s t + subCost a b)) := by
  induction s generalizing t with
  | nil =>
    induction t with
    | nil => rfl
    | cons y t iht =>
      have e1 : lev ([] ++ [a]) (y :: t ++ [b]) =
          min (lev [] (y :: (t ++ [b])) + 1)
            (min (lev ([] ++ [a]) (t ++ [b]) + 1) (lev [] (t ++ [b]) + subCost a y)) := rfl
      have e2 : lev ([] ++ [a]) (y :: t) =
          min (lev [] (y :: t) + 1) (min (lev ([] ++ [a]) t + 1) (lev [] t + subCost a y)) := rfl
      rw [e1, e2, iht]
      simp only [lev_nil_left, List.length_cons, List.length_append, List.length_singleton,
        List.cons_append, List.length_nil]
      clear e1 e2 iht
      generalize lev ([] ++ [a]) t = p
      omega
  | cons x s ihs =>
    induction t with
    | nil =>
      have e1 : lev (x :: s ++ [a]) ([] ++ [b]) =
          min (lev (s ++ [a]) ([] ++ [b]) + 1)
            (min (lev (x :: s ++ [a]) [] + 1) (lev (s ++ [a]) [] + subCost x b)) := rfl
      have e2 : lev (x :: s) ([] ++ [b]) =
          min (lev s ([] ++ [b]) + 1) (min (lev (x :: s) [] + 1) (lev s [] + subCost x b)) := rfl
      rw [e1, e2, ihs []]
      simp only [lev_nil_right, List.length_cons, List.length_append, List.length_singleton,
        List.cons_append, List.length_nil]
      clear e1 e2 ihs
      generalize lev s ([] ++ [b]) = p
      omega
    | cons y t iht =>
      have e0 : lev (x :: s ++ [a]) (y :: t ++ [b]) =
          min (lev (s ++ [a]) (y :: t ++ [b]) + 1)
            (min (lev (x :: s ++ [a]) (t ++ [b]) + 1) (lev (s ++ [a]) (t ++ [b]) + subCost x y)) :=
        rfl
      have e1 : lev (x :: s) (y :: t ++ [b]) =
          min (lev s (y :: t ++ [b]) + 1)
            (min (lev (x :: s) (t ++ [b]) + 1) (lev s (t ++ [b]) + subCost x y)) := rfl
      have e2 : lev (x :: s ++ [a]) (y :: t) =
          min (lev (s ++ [a]) (y :: t) + 1)
            (min (lev (x :: s ++ [a]) t + 1) (lev (s ++ [a]) t + subCost x y)) := rfl
      have e3 : lev (x :: s) (y :: t) =
          min (lev s (y :: t) + 1) (min (lev (x :: s) t + 1) (lev s t + subCost x y)) := rfl
      rw [e0, e1, e2, e3, iht, ihs (y :: t), ihs t]
      clear e0 e1 e2 e3 iht ihs
      generalize lev s (y :: t ++ [b]) = p1
      generalize lev (s ++ [a]) (y :: t) = p2
      generalize lev s (y :: t) = p3
      generalize lev (x :: s) (t ++ [b]) = p4
      generalize lev (x :: s ++ [a]) t = p5
      generalize lev (x :: s) t = p6
      generalize lev s (t ++ [b]) = p7
      generalize lev (s ++ [a]) t = p8
      generalize lev s t = p9
      generalize subCost a b = cab
      generalize subCost x y = cxy
      simp only [← min_add_add_right]
      simp only [min_assoc, min_comm, min_left_comm, Nat.add_assoc, Nat.add_comm,
        Nat.add_left_comm]

theorem lev_reverse (s t : JsString) : lev s.reverse t.reverse = lev s t := by
  induction s generalizing t with
  | nil => simp [lev_nil_left]
  | cons a s ihs =>
    induction t with
    | nil => simp [lev_nil_right]
    | cons b t iht =>
      have h1 := ihs (b :: t)
      have h2 := ihs t
      rw [List.reverse_cons] at iht h1
      rw [List.reverse_cons, List.reverse_cons, lev_snoc_snoc, lev_cons_cons, h1, iht, h2]

theorem lev_cons_left_le (x : Nat) (s t : JsString) : lev (x :: s) t ≤ lev s t + 1 := by
  cases t with
  | nil => simp [lev_nil_right]
  | cons y t => rw [lev_cons_cons]; omega

theorem lev_le_cons_right (y : Nat) (s t : JsString) : lev s t ≤ lev s (y :: t) + 1 := by
  induction s generalizing t with
  | nil => simp only [lev_nil_left, List.length_cons]; omega
  | cons x s ih =>
    have h1 := lev_cons_left_le x s t
    have h2 := ih t
    rw [lev_cons_cons]
    omega

theorem lev_le_cons_left (x : Nat) (s t : JsString) : lev s t ≤ lev (x :: s) t + 1 := by
  rw [lev_symm s t, lev_symm (x :: s) t]
  exact lev_le_cons_right x t s

theorem editDistance_eq_lev (s t : JsString) : editDistance s t = lev s t := by
  induction s generalizing t with
  | nil => rfl
  | cons a s ihs =>
    induction t with
    | nil => rw [editDistance_nil_right, lev_nil_right]
    | cons b t iht =>
      rw [editDistance_cons_cons, lev_cons_cons, ihs (b :: t), iht, ihs t]
      have h1 := lev_le_cons_right b s t
      have h2 := lev_le_cons_left a s t
      unfold subCost
      by_cases h : a = b
      · subst h
        simp only [if_true]
        omega
      · simp only [h, if_false]
        omega

theorem editDistance_symm (s t : JsString) : editDistance s t = editDistance t s := by
  rw [editDistance_eq_lev, editDistance_eq_lev, lev_symm]

theorem editDistance_reverse (s t : JsString) :
    editDistance s.reverse t.reverse = editDistance s t := by
  rw [editDistance_eq_lev, editDistance_eq_lev, lev_reverse]

theorem editDistance_le_max (s t : JsString) : editDistance s t ≤ max s.length t.length := by
  induction s generalizing t with
  | nil => simp [editDistance_nil_left]
  | cons a s ihs =>
    induction t with
    | nil => simp [editDistance_nil_right]
    | cons b t iht =>
      have h := ihs t
      rw [editDistance_cons_cons]
      simp only [List.length_cons]
      split <;> omega

theorem editDistance_eq_zero_iff (s t : JsString) : editDistance s t = 0 ↔ s = t := by
  induction s generalizing t with
  | nil =>
    rw [editDistance_nil_left]
    constructor
    · intro h; exact (List.length_eq_zero.mp h).symm
    · intro h; rw [← h]; rfl
  | cons a s ihs =>
    cases t with
    | nil => simp [editDistance_nil_right]
    | cons b t =>
      rw [editDistance_cons_cons]
      by_cases h : a = b
      · subst h
        simp [ihs t]
      · simp only [h, if_false, List.cons.injEq, false_and, iff_false]
        omega

/-! ## Edit distance: the minimum number of single-character edits -/

theorem editStep_cons (a : Nat) {s u : JsString} (h : EditStep s u) :
    EditStep (a :: s) (a :: u) := by
  cases h with
  | insert p q x => exact EditStep.insert (a :: p) q x
  | delete p q x => exact EditStep.delete (a :: p) q x
  | substitute p q x y => exact EditStep.substitute (a :: p) q x y

theorem editsIn_cons (a : Nat) {k : Nat} {s t : JsString} (h : EditsIn k s t) :
    EditsIn k (a :: s) (a :: t) := by
  induction h with
  | done s => exact EditsIn.done (a :: s)
  | step hstep _ ih => exact EditsIn.step (editStep_cons a hstep) ih

theorem editsIn_nil_left (t : JsString) : EditsIn t.length [] t := by
  induction t with
  | nil => exact EditsIn.done []
  | cons b t ih => exact EditsIn.step (EditStep.insert [] [] b) (editsIn_cons b ih)

theorem editsIn_nil_right (s : JsString) : EditsIn s.length s [] := by
  induction s with
  | nil => exact EditsIn.done []
  | cons a s ih => exact EditsIn.step (EditStep.delete [] s a) ih

theorem editsIn_editDistance (s t : JsString) : EditsIn (editDistance s t) s t := by
  induction s generalizing t with
  | nil => exact editsIn_nil_left t
  | cons a s ihs =>
    induction t with
    | nil => rw [editDistance_nil_right]; exact editsIn_nil_right (a :: s)
    | cons b t iht =>
      rw [editDistance_cons_cons]
      by_cases h : a = b
      · subst h
        rw [if_pos rfl]
        exact editsIn_cons a (ihs t)
      · rw [if_neg h]
        have hdel : EditsIn (editDistance s (b :: t) + 1) (a :: s) (b :: t) :=
          EditsIn.step (EditStep.delete [] s a) (ihs (b :: t))
        have hins : EditsIn (editDistance (a :: s) t + 1) (a :: s) (b :: t) :=
          EditsIn.step (EditStep.insert [] (a :: s) b) (editsIn_cons b iht)
        have hsub : EditsIn (editDistance s t + 1) (a :: s) (b :: t) :=
          EditsIn.step (EditStep.substitute [] s a b) (editsIn_cons b (ihs t))
        rcases min_choice (editDistance s (b :: t))
          (min (editDistance (a :: s) t) (editDistance s t)) with h1 | h1
        · rw [h1, Nat.add_comm]; exact hdel
        · rw [h1]
          rcases min_choice (editDistance (a :: s) t) (editDistance s t) with h2 | h2
          · rw [h2, Nat.add_comm]; exact hins
          · rw [h2, Nat.add_comm]; exact hsub

theorem lev_cons_congr (a : Nat) (s u : JsString) (h : ∀ t, lev s t ≤ lev u t + 1) (t : JsString) :
    lev (a :: s) t ≤ lev (a :: u) t + 1 := by
  induction t with
  | nil =>
    have h0 := h []
    rw [lev_nil_right, lev_nil_right] at h0
    rw [lev_nil_right, lev_nil_right]
    simp only [List.length_cons]
    omega
  | cons b t ih =>
    have h1 := h (b :: t)
    have h2 := h t
    rw [lev_cons_cons, lev_cons_cons]
    omega

theorem lev_append_congr (p s u : JsString) (h : ∀ t, lev s t ≤ lev u t + 1) (t : JsString) :
    lev (p ++ s) t ≤ lev (p ++ u) t + 1 := by
  induction p generalizing t with
  | nil => exact h t
  | cons a p ih => exact lev_cons_congr a (p ++ s) (p ++ u) ih t

theorem lev_substitute_le (x y : Nat) (q t : JsString) : lev (x :: q) t ≤ lev (y :: q) t + 1 := by
  induction t with
  | nil => rw [lev_nil_right, lev_nil_right]; simp
  | cons b t ih =>
    have h1 := subCost_le_one x b
    rw [lev_cons_cons, lev_cons_cons]
    omega

theorem lev_step_le {s u : JsString} (h : EditStep s u) (t : JsString) :
    lev s t ≤ lev u t + 1 := by
  cases h with
  | insert p q x => exact lev_append_congr p q (x :: q) (fun t => lev_le_cons_left x q t) t
  | delete p q x => exact lev_append_congr p (x :: q) q (fun t => lev_cons_left_le x q t) t
  | substitute p q x y =>
    exact lev_append_congr p (x :: q) (y :: q) (fun t => lev_substitute_le x y q t) t

theorem editDistance_le_of_editsIn {k : Nat} {s t : JsString} (h : EditsIn k s t) :
    editDistance s t ≤ k := by
  induction h with
  | done s => rw [(editDistance_eq_zero_iff s s).mpr rfl]
  | @step k s u t hstep _ ih =>
    have h1 := lev_step_le hstep t
    rw [editDistance_eq_lev] at ih ⊢
    omega

/-! ## The matrix loops compute the edit distance -/

theorem set_eq_self_of_getElem? {α : Type} (m : List α) (i : Nat) (r : α)
    (h : m[i]? = some r) : m.set i r = m := by
  apply List.ext_getElem?
  intro n
  rw [List.getElem?_set]
  by_cases hin : i = n
  · subst hin
    obtain ⟨hlt, _⟩ := List.getElem?_eq_some.mp h
    simp [hlt, h]
  · simp [hin]

theorem cell_eq (m : List (List Nat)) (i j : Nat) (row : List Nat) (v : Nat)
    (hr : m[i]? = some row) (hv : row[j]? = some v) : cell m i j = v := by
  unfold cell
  simp only [List.getD_eq_getElem?_getD, hr, hv, Option.getD_some]

theorem arraySet_length (a : List Nat) (v : Nat) : arraySet a a.length v = a ++ [v] := by
  unfold arraySet
  simp

theorem cellSet_append (m : List (List Nat)) (i j v : Nat) (row : List Nat)
    (hr : m[i]? = some row) (hj : row.length = j) :
    cellSet m i j v = m.set i (row ++ [v]) := by
  unfold cellSet
  simp only [List.getD_eq_getElem?_getD, hr, Option.getD_some, ← hj, arraySet_length]

theorem prefixDistance_zero_left (str1 str2 : JsString) (j : Nat) (hj : j ≤ str1.length) :
    prefixDistance str1 str2 0 j = j := by
  unfold prefixDistance
  simp [editDistance_nil_left, hj]

theorem prefixDistance_zero_right (str1 str2 : JsString) (i : Nat) (hi : i ≤ str2.length) :
    prefixDistance str1 str2 i 0 = i := by
  unfold prefixDistance
  simp [editDistance_nil_right, hi]

theorem take_succ_reverse (s : JsString) (i : Nat) (c : Nat) (h : s[i]? = some c) :
    (s.take (i + 1)).reverse = c :: (s.take i).reverse := by
  rw [List.take_succ, h]
  simp

theorem prefixDistance_succ (str1 str2 : JsString) (i j : Nat)
    (hi : i < str2.length) (hj : j < str1.length) :
    prefixDistance str1 str2 (i + 1) (j + 1) =
      if str2[i]? = str1[j]? then prefixDistance str1 str2 i j
      else min (prefixDistance str1 str2 i j + 1)
        (min (prefixDistance str1 str2 (i + 1) j + 1) (prefixDistance str1 str2 i (j + 1) + 1)) := by
  have h2 : str2[i]? = some str2[i] := List.getElem?_eq_getElem hi
  have h1 : str1[j]? = some str1[j] := List.getElem?_eq_getElem hj
  unfold prefixDistance
  rw [take_succ_reverse str2 i _ h2, take_succ_reverse str1 j _ h1, editDistance_cons_cons,
    h1, h2]
  by_cases h : str2[i] = str1[j]
  · simp [h]
  · simp only [h, if_false, Option.some.injEq]
    omega

theorem partialRow_length (str1 str2 : JsString) (i j : Nat) :
    (partialRow str1 str2 i j).length = j + 1 := by
  simp [partialRow]

theorem partialRow_succ (str1 str2 : JsString) (i j : Nat) :
    partialRow str1 str2 i (j + 1) =
      partialRow str1 str2 i j ++ [prefixDistance str1 str2 i (j + 1)] := by
  simp [partialRow, List.range_succ]

theorem partialRow_getElem? (str1 str2 : JsString) (i j k : Nat) (hk : k ≤ j) :
    (partialRow str1 str2 i j)[k]? = some (prefixDistance str1 str2 i k) := by
  unfold partialRow
  rw [List.getElem?_map, List.getElem?_range (by omega)]
  rfl

theorem fullRow_eq_partialRow (str1 str2 : JsString) (i : Nat) :
    fullRow str1 str2 i = partialRow str1 str2 i str1.length := rfl

theorem initRows_loop (k : Nat) :
    (List.range k).foldl (fun m i => rowSet m i [i]) [] = (List.range k).map (fun i => [i]) := by
  induction k with
  | zero => rfl
  | succ k ih =>
    rw [List.range_succ, List.foldl_append, ih, List.map_append]
    simp [rowSet]

theorem initRows_eq (n2 : Nat) : initRows n2 = (List.range (n2 + 1)).map (fun i => [i]) :=
  initRows_loop (n2 + 1)

theorem initFirstRow_loop (m : List (List Nat)) (h0 : m[0]? = some [0]) (k : Nat) :
    (List.range (k + 1)).foldl (fun m j => cellSet m 0 j j) m = m.set 0 (List.range (k + 1)) := by
  have hlen : 0 < m.length := (List.getElem?_eq_some.mp h0).1
  induction k with
  | zero =>
    have h1 : cellSet m 0 0 0 = m.set 0 [0] := by
      unfold cellSet arraySet
      simp [List.getD_eq_getElem?_getD, h0]
    simpa using h1
  | succ k ih =>
    rw [List.range_succ, List.foldl_append, ih]
    have hrow : (m.set 0 (List.range (k + 1)))[0]? = some (List.range (k + 1)) :=
      List.getElem?_set_self hlen
    simp only [List.foldl_cons, List.foldl_nil]
    rw [cellSet_append _ 0 (k + 1) (k + 1) _ hrow (by simp), List.set_set, ← List.range_succ]

theorem fillCell_step (str1 str2 : JsString) (m : List (List Nat)) (i j : Nat)
    (hi : i < str2.length) (hj : j < str1.length) (hm : i + 1 < m.length)
    (hprev : m[i]? = some (fullRow str1 str2 i)) :
    fillCell str1 str2 (i + 1) (m.set (i + 1) (partialRow str1 str2 (i + 1) j)) (j + 1) =
      m.set (i + 1) (partialRow str1 str2 (i + 1) (j + 1)) := by
  have hcur : (m.set (i + 1) (partialRow str1 str2 (i + 1) j))[i + 1]? =
      some (partialRow str1 str2 (i + 1) j) := List.getElem?_set_self hm
  have hprev2 : (m.set (i + 1) (partialRow str1 str2 (i + 1) j))[i]? =
      some (fullRow str1 str2 i) := by
    rw [List.getElem?_set_ne (by omega)]; exact hprev
  have c1 : cell (m.set (i + 1) (partialRow str1 str2 (i + 1) j)) i j =
      prefixDistance str1 str2 i j :=
    cell_eq _ _ _ _ _ hprev2 (partialRow_getElem? str1 str2 i _ j (by omega))
  have c2 : cell (m.set (i + 1) (partialRow str1 str2 (i + 1) j)) (i + 1) j =
      prefixDistance str1 str2 (i + 1) j :=
    cell_eq _ _ _ _ _ hcur (partialRow_getElem? str1 str2 (i + 1) _ j (by omega))
  have c3 : cell (m.set (i + 1) (partialRow str1 str2 (i + 1) j)) i (j + 1) =
      prefixDistance str1 str2 i (j + 1) :=
    cell_eq _ _ _ _ _ hprev2 (partialRow_getElem? str1 str2 i _ (j + 1) (by omega))
  unfold fillCell
  simp only [Nat.add_sub_cancel, c1, c2, c3]
  rw [partialRow_succ, prefixDistance_succ str1 str2 i j hi hj]
  split
  · rw [cellSet_append _ _ _ _ _ hcur (partialRow_length _ _ _ _), List.set_set]
  · rw [cellSet_append _ _ _ _ _ hcur (partialRow_length _ _ _ _), List.set_set]

theorem fillRow_loop (str1 str2 : JsString) (m : List (List Nat)) (i : Nat)
    (hi : i < str2.length) (hm : i + 1 < m.length)
    (hprev : m[i]? = some (fullRow str1 str2 i)) (k j : Nat) (hjk : j + k ≤ str1.length) :
    (List.range' (j + 1) k).foldl (fillCell str1 str2 (i + 1))
        (m.set (i + 1) (partialRow str1 str2 (i + 1) j)) =
      m.set (i + 1) (partialRow str1 str2 (i + 1) (j + k)) := by
  induction k generalizing j with
  | zero => rfl
  | succ k ih =>
    rw [List.range'_succ, List.foldl_cons,
      fillCell_step str1 str2 m i j hi (by omega) hm hprev, ih (j + 1) (by omega)]
    congr 2
    omega

theorem fillRow_eq (str1 str2 : JsString) (m : List (List Nat)) (i : Nat)
    (hi : i < str2.length) (hprev : m[i]? = some (fullRow str1 str2 i))
    (hcur : m[i + 1]? = some [i + 1]) :
    fillRow str1 str2 m (i + 1) = m.set (i + 1) (fullRow str1 str2 (i + 1)) := by
  have hm : i + 1 < m.length := (List.getElem?_eq_some.mp hcur).1
  have h0 : partialRow str1 str2 (i + 1) 0 = [i + 1] := by
    have e : List.range (0 + 1) = [0] := rfl
    unfold partialRow
    rw [e, List.map_cons, List.map_nil, prefixDistance_zero_right str1 str2 (i + 1) hi]
  have hstart : m.set (i + 1) (partialRow str1 str2 (i + 1) 0) = m := by
    rw [h0]; exact set_eq_self_of_getElem? m (i + 1) _ hcur
  have h := fillRow_loop str1 str2 m i hi hm hprev str1.length 0 (by omega)
  rw [hstart] at h
  unfold fillRow
  rw [h, fullRow_eq_partialRow]
  congr 2
  omega

theorem matrixInv_step (str1 str2 : JsString) (m : List (List Nat)) (i : Nat)
    (hi : i < str2.length) (h : MatrixInv str1 str2 i m) :
    MatrixInv str1 str2 (i + 1) (fillRow str1 str2 m (i + 1)) := by
  obtain ⟨hlen, hdone, htodo⟩ := h
  rw [fillRow_eq str1 str2 m i hi (hdone i (Nat.le_refl i)) (htodo (i + 1) (by omega) (by omega))]
  refine ⟨by rw [List.length_set]; exact hlen, ?_, ?_⟩
  · intro r hr
    by_cases hri : r = i + 1
    · subst hri
      exact List.getElem?_set_self (by omega)
    · rw [List.getElem?_set_ne (by omega)]
      exact hdone r (by omega)
  · intro r hr1 hr2
    rw [List.getElem?_set_ne (by omega)]
    exact htodo r (by omega) hr2

theorem fillMatrix_loop (str1 str2 : JsString) (k i : Nat) (m : List (List Nat))
    (hik : i + k ≤ str2.length) (h : MatrixInv str1 str2 i m) :
    MatrixInv str1 str2 (i + k) ((List.range' (i + 1) k).foldl (fillRow str1 str2) m) := by
  induction k generalizing i m with
  | zero => exact h
  | succ k ih =>
    rw [List.range'_succ, List.foldl_cons]
    have h1 := matrixInv_step str1 str2 m i (by omega) h
    have h2 := ih (i + 1) _ (by omega) h1
    have e : i + 1 + k = i + (k + 1) := by omega
    rw [e] at h2
    exact h2

theorem matrixInv_init (str1 str2 : JsString) :
    MatrixInv str1 str2 0 (initFirstRow (initRows str2.length) str1.length) := by
  have h0 : (initRows str2.length)[0]? = some [0] := by
    rw [initRows_eq, List.getElem?_map, List.getElem?_range (by omega)]
    rfl
  unfold initFirstRow
  rw [initFirstRow_loop _ h0]
  have hlen : (initRows str2.length).length = str2.length + 1 := by
    rw [initRows_eq]; simp
  refine ⟨by rw [List.length_set]; exact hlen, ?_, ?_⟩
  · intro r hr
    have hr0 : r = 0 := by omega
    subst hr0
    rw [List.getElem?_set_self (by omega)]
    congr 1
    unfold fullRow
    apply List.ext_getElem?
    intro n
    rw [List.getElem?_map]
    by_cases hn : n < str1.length + 1
    · rw [List.getElem?_range hn]
      simp [prefixDistance_zero_left str1 str2 n (by omega)]
    · have : (List.range (str1.length + 1))[n]? = none := by
        apply List.getElem?_eq_none; simp; omega
      rw [this]; rfl
  · intro r hr1 hr2
    rw [List.getElem?_set_ne (by omega), initRows_eq, List.getElem?_map,
      List.getElem?_range (by omega)]
    rfl

theorem levenshteinDistance_eq_prefixDistance (str1 str2 : JsString) :
    levenshteinDistance str1 str2 = prefixDistance str1 str2 str2.length str1.length := by
  have h := fillMatrix_loop str1 str2 str2.length 0 _ (by omega) (matrixInv_init str1 str2)
  rw [Nat.zero_add] at h
  obtain ⟨_, hdone, _⟩ := h
  unfold levenshteinDistance fillMatrix
  exact cell_eq _ _ _ _ _ (hdone str2.length (Nat.le_refl _))
    (partialRow_getElem? str1 str2 _ _ _ (Nat.le_refl _))

theorem levenshteinDistance_eq_editDistance (str1 str2 : JsString) :
    levenshteinDistance str1 str2 = editDistance str1 str2 := by
  rw [levenshteinDistance_eq_prefixDistance]
  unfold prefixDistance
  rw [List.take_length, List.take_length, editDistance_reverse, editDistance_symm]

/-! ## String similarity -/

theorem levenshteinDistance_symm (str1 str2 : JsString) :
    levenshteinDistance str1 str2 = levenshteinDistance str2 str1 := by
  rw [levenshteinDistance_eq_editDistance, levenshteinDistance_eq_editDistance,
    editDistance_symm]

theorem calculateStringSimilarity_eq (str1 str2 : JsString) :
    calculateStringSimilarity str1 str2 =
      if max str1.length str2.length = 0 then 1
      else ((max str1.length str2.length : Nat) - (editDistance str1 str2 : ℚ)) /
        (max str1.length str2.length : Nat) := by
  unfold calculateStringSimilarity
  by_cases h : str1.length > str2.length
  · have hmax : max str1.length str2.length = str1.length := by omega
    simp only [h, if_true, hmax, levenshteinDistance_eq_editDistance]
  · have hmax : max str1.length str2.length = str2.length := by omega
    simp only [h, if_false, hmax, levenshteinDistance_eq_editDistance, editDistance_symm str2 str1]

theorem calculateStringSimilarity_nonneg (str1 str2 : JsString) :
    0 ≤ calculateStringSimilarity str1 str2 := by
  rw [calculateStringSimilarity_eq]
  split
  · norm_num
  · have hd : (editDistance str1 str2 : ℚ) ≤ (max str1.length str2.length : Nat) := by
      exact_mod_cast editDistance_le_max str1 str2
    apply div_nonneg
    · linarith
    · exact Nat.cast_nonneg _

theorem calculateStringSimilarity_le_one (str1 str2 : JsString) :
    calculateStringSimilarity str1 str2 ≤ 1 := by
  rw [calculateStringSimilarity_eq]
  split
  · norm_num
  · rename_i h
    have hpos : (0 : ℚ) < (max str1.length str2.length : Nat) := by
      exact_mod_cast Nat.pos_of_ne_zero h
    rw [div_le_one hpos]
    have hd : (0 : ℚ) ≤ (editDistance str1 str2 : ℚ) := Nat.cast_nonneg _
    linarith

theorem similarityAbove_eq (a b : JsString) :
    decide (calculateStringSimilarity a b > 4 / 5) = similarityAbove a b := by
  unfold similarityAbove
  rw [calculateStringSimilarity_eq]
  by_cases h : max a.length b.length = 0
  · have ha : a.length = 0 := by omega
    have hb : b.length = 0 := by omega
    simp only [h, if_true, ha, hb]
    norm_num
  · have hpos : (0 : ℚ) < (max a.length b.length : Nat) := by
      exact_mod_cast Nat.pos_of_ne_zero h
    have hnot : ¬ (a.length = 0 ∧ b.length = 0) := by omega
    simp only [h, if_false, hnot, false_or]
    congr 1
    apply propext
    generalize max a.length b.length = L at hpos
    generalize editDistance a b = d
    rw [gt_iff_lt, lt_div_iff₀ hpos]
    constructor
    · intro hlt
      have h5 : ((5 * d : Nat) : ℚ) < (L : ℚ) := by
        push_cast
        linarith
      exact_mod_cast h5
    · intro hlt
      have h5 : ((5 * d : Nat) : ℚ) < (L : ℚ) := by
        exact_mod_cast hlt
      push_cast at h5
      linarith

theorem isSkillMatch_str (c j : JsString) :
    isSkillMatch (JsVal.str c) (JsVal.str j) = isSkillMatchStr c j := by
  unfold isSkillMatch isSkillMatchStr
  simp only [similarityAbove_eq]

/-! ## Case mapping -/

theorem lowerUnit_upperUnit (c : Nat) : lowerUnit (upperUnit c) = lowerUnit c := by
  unfold lowerUnit upperUnit
  by_cases h1 : 97 ≤ c ∧ c ≤ 122
  · have h2 : 65 ≤ c - 32 ∧ c - 32 ≤ 90 := by omega
    have h3 : ¬ (65 ≤ c ∧ c ≤ 90) := by omega
    simp only [h1, h2, h3, if_true, if_false, and_self]
    omega
  · simp only [h1, if_false]

theorem toLowerCase_toUpperCase (s : JsString) : toLowerCase (toUpperCase s) = toLowerCase s := by
  unfold toLowerCase toUpperCase
  rw [List.map_map]
  apply List.map_congr_left
  intro c _
  exact lowerUnit_upperUnit c

theorem toLowerCase_eq_nil (s : JsString) : toLowerCase s = [] ↔ s = [] := by
  unfold toLowerCase
  exact List.map_eq_nil_iff

theorem toUpperCase_eq_nil (s : JsString) : toUpperCase s = [] ↔ s = [] := by
  unfold toUpperCase
  exact List.map_eq_nil_iff

theorem similarityAbove_self (l : JsString) (h : l ≠ []) : similarityAbove l l = true := by
  unfold similarityAbove
  have hd : editDistance l l = 0 := (editDistance_eq_zero_iff l l).mpr rfl
  have hl : 0 < l.length := List.length_pos.mpr h
  rw [hd]
  simp only [decide_eq_true_eq]
  right
  omega

theorem isSkillMatchStr_same_lower (c j : JsString) (hc : c ≠ []) (hj : j ≠ [])
    (hl : toLowerCase j = toLowerCase c)
    (hk : skillMappings (toLowerCase c) ≠ Lookup.inherited) :
    isSkillMatchStr c j = some true := by
  unfold isSkillMatchStr
  have hne : ¬ (c = [] ∨ j = []) := by
    intro h; cases h with
    | inl h => exact hc h
    | inr h => exact hj h
  have hlne : toLowerCase c ≠ [] := fun h => hc ((toLowerCase_eq_nil c).mp h)
  simp only [hne, if_false, hl]
  by_cases hcj : c = j
  · simp [hcj]
  · simp only [hcj, if_false]
    cases hlook : skillMappings (toLowerCase c) with
    | array xs =>
      simp only [optionalIncludes]
      cases xs.contains (toLowerCase c) with
      | true => rfl
      | false => simp [similarityAbove_self _ hlne]
    | missing => simp [optionalIncludes, similarityAbove_self _ hlne]
    | inherited => exact absurd hlook hk

theorem not_upper_of_mem_toLowerCase (s : JsString) (x : Nat) (hx : x ∈ toLowerCase s) :
    ¬ (65 ≤ x ∧ x ≤ 90) := by
  unfold toLowerCase at hx
  obtain ⟨c, _, hcx⟩ := List.mem_map.mp hx
  unfold lowerUnit at hcx
  split at hcx <;> omega

theorem skillMappings_inherited_lower (s : JsString)
    (h : skillMappings (toLowerCase s) = Lookup.inherited) :
    toLowerCase s = lit "constructor" ∨ toLowerCase s = lit "__proto__" := by
  unfold skillMappings at h
  cases hlook : skillMappingsTable.lookup (toLowerCase s) with
  | some xs => rw [hlook] at h; cases h
  | none =>
    rw [hlook] at h
    by_cases hmem : objectPrototypeKeys.contains (toLowerCase s) = true
    · have hin : toLowerCase s ∈ objectPrototypeKeys := by
        simpa using hmem
      have hall : ∀ k ∈ objectPrototypeKeys,
          k = lit "constructor" ∨ k = lit "__proto__" ∨ ∃ x ∈ k, 65 ≤ x ∧ x ≤ 90 := by
        decide
      rcases hall _ hin with h1 | h2 | ⟨x, hx, hup⟩
      · exact Or.inl h1
      · exact Or.inr h2
      · exact absurd hup (not_upper_of_mem_toLowerCase s x hx)
    · simp only [hmem] at h
      cases h

/-! ## Evaluation lemmas -/

theorem bucketMatches_example_required :
    bucketMatches [lit "javascript", lit "css"] [lit "javascript", lit "react"] = some 2 := by
  unfold bucketMatches
  simp only [isSkillMatch_str]
  decide

theorem bucketMatches_example_nice :
    bucketMatches [lit "javascript", lit "css"] [lit "css"] = some 1 := by
  unfold bucketMatches
  simp only [isSkillMatch_str]
  decide

theorem calculateTechnicalMatch_example :
    calculateTechnicalMatch [JsVal.str (lit "javascript"), JsVal.str (lit "css")]
      [JsVal.str (lit "javascript"), JsVal.str (lit "react")] [JsVal.str (lit "css")] =
      some 100 := by
  have l1 : lowerAll [JsVal.str (lit "javascript"), JsVal.str (lit "css")] =
      some [lit "javascript", lit "css"] := by decide
  have l2 : lowerAll [JsVal.str (lit "javascript"), JsVal.str (lit "react")] =
      some [lit "javascript", lit "react"] := by decide
  have l3 : lowerAll [JsVal.str (lit "css")] = some [lit "css"] := by decide
  unfold calculateTechnicalMatch
  simp only [l1, l2, l3, bucketMatches_example_required, bucketMatches_example_nice]
  norm_num

theorem calculateExperienceMatch_example :
    calculateExperienceMatch (some exampleCandidate) (some exampleJob) = 90 := by
  simp only [calculateExperienceMatch, exampleCandidate, exampleJob, Option.bind]
  norm_num

theorem calculateCulturalFit_example :
    calculateCulturalFit (some exampleCandidate) (some exampleJob) = 50 := by
  simp only [calculateCulturalFit, exampleCandidate, exampleJob, Option.bind]
  norm_num

theorem calculateSuccessProbability_example :
    calculateSuccessProbability (some exampleCandidate) (some exampleJob) = some 70 := by
  have hv : validSkills [JsVal.str (lit "javascript"), JsVal.str (lit "css")] =
      [lit "javascript", lit "css"] := by decide
  have hc : jsCount (fun skill =>
      jsSome (fun reqSkill => isSkillMatch (JsVal.str skill) reqSkill)
        [JsVal.str (lit "javascript"), JsVal.str (lit "react")])
      [lit "javascript", lit "css"] = some 1 := by
    simp only [jsCount, jsSome, isSkillMatch_str]
    decide
  have hs : skillAlignment (some exampleCandidate) (some exampleJob) = some 0 := by
    simp only [skillAlignment, exampleCandidate, exampleJob, Option.bind, hv, hc]
    norm_num
  have he : experienceAlignment (some exampleCandidate) (some exampleJob) = 20 := by
    simp only [experienceAlignment, exampleCandidate, exampleJob, Option.bind]
    norm_num
  have hk : companyStability (some exampleCandidate) = 0 := by
    simp [companyStability, exampleCandidate, truthyStr]
  simp only [calculateSuccessProbability, hs, he, hk]
  norm_num

theorem calculateMatchScore_example :
    calculateMatchScore [JsVal.str (lit "javascript"), JsVal.str (lit "css")]
      [JsVal.str (lit "javascript"), JsVal.str (lit "react")] [JsVal.str (lit "css")]
      (some exampleCandidate) (some exampleJob) = some 86 := by
  simp only [calculateMatchScore, calculateTechnicalMatch_example,
    calculateExperienceMatch_example, calculateCulturalFit_example,
    calculateSuccessProbability_example, mathRound]
  have h : ⌊(0 : ℚ) + 100 * (1 / 2) + 90 * (1 / 5) + 50 * (3 / 20) + 70 * (3 / 20) + 1 / 2⌋ = 86 := by
    rw [Int.floor_eq_iff]
    constructor <;> norm_num
  rw [h]
  rfl

/-! ## Ranges of the sub-scores -/

theorem jsCount_le {α : Type} (p : α → Option Bool) (xs : List α) (k : Nat)
    (h : jsCount p xs = some k) : k ≤ xs.length := by
  induction xs generalizing k with
  | nil =>
    simp only [jsCount, Option.some.injEq] at h
    subst h
    exact Nat.le_refl 0
  | cons x xs ih =>
    unfold jsCount at h
    cases hp : p x with
    | none => rw [hp] at h; cases h
    | some b =>
      rw [hp] at h
      cases hc : jsCount p xs with
      | none => rw [hc] at h; cases h
      | some n =>
        rw [hc] at h
        have hn := ih n hc
        simp only [Option.some.injEq] at h
        subst h
        simp only [List.length_cons]
        split <;> omega

theorem lowerAll_length (xs : List JsVal) (ys : List JsString) (h : lowerAll xs = some ys) :
    ys.length = xs.length := by
  induction xs generalizing ys with
  | nil =>
    simp only [lowerAll, Option.some.injEq] at h
    subst h
    rfl
  | cons x xs ih =>
    cases x with
    | str s =>
      unfold lowerAll at h
      cases hl : lowerAll xs with
      | none => rw [hl] at h; cases h
      | some zs =>
        rw [hl] at h
        simp only [Option.some.injEq] at h
        subst h
        simp [ih zs hl]
    | undefined => cases h
    | null => cases h
    | num q => cases h
    | obj => cases h

theorem coverage_bounds (k len : Nat) (h : k ≤ len) :
    (0 : ℚ) ≤ (k : ℚ) / ((max len 1 : Nat) : ℚ) ∧ (k : ℚ) / ((max len 1 : Nat) : ℚ) ≤ 1 := by
  have hpos : (0 : ℚ) < ((max len 1 : Nat) : ℚ) := by
    have : 0 < max len 1 := by omega
    exact_mod_cast this
  have hk : (k : ℚ) ≤ ((max len 1 : Nat) : ℚ) := by
    have : k ≤ max len 1 := by omega
    exact_mod_cast this
  constructor
  · exact div_nonneg (Nat.cast_nonneg k) (le_of_lt hpos)
  · rw [div_le_one hpos]
    exact hk

/-- Whenever `calculateTechnicalMatch` returns a number, it is the value of the
formula `min(100, 70 * reqMatches / max(|required|, 1) + 30 * niceMatches /
max(|niceToHave|, 1))`, it lies in `[0, 100]`, and it is at most 30 when the
list of required skills is empty. -/
theorem calculateTechnicalMatch_formula (c r n : List JsVal) (v : ℚ)
    (h : calculateTechnicalMatch c r n = some v) :
    (∃ cl rl nl rm nm, lowerAll c = some cl ∧ lowerAll r = some rl ∧ lowerAll n = some nl ∧
      bucketMatches cl rl = some rm ∧ bucketMatches cl nl = some nm ∧
      v = min ((rm : ℚ) / ((max r.length 1 : Nat) : ℚ) * 70 +
        (nm : ℚ) / ((max n.length 1 : Nat) : ℚ) * 30) 100) ∧
      0 ≤ v ∧ v ≤ 100 ∧ (r = [] → v ≤ 30) := by
  unfold calculateTechnicalMatch at h
  cases hc : lowerAll c with
  | none => rw [hc] at h; cases h
  | some cl =>
    cases hr : lowerAll r with
    | none => rw [hc, hr] at h; cases h
    | some rl =>
      cases hn : lowerAll n with
      | none => rw [hc, hr, hn] at h; cases h
      | some nl =>
        cases hrm : bucketMatches cl rl with
        | none => rw [hc, hr, hn] at h; simp only [hrm] at h; cases h
        | some rm =>
          cases hnm : bucketMatches cl nl with
          | none => rw [hc, hr, hn] at h; simp only [hrm, hnm] at h; cases h
          | some nm =>
            rw [hc, hr, hn] at h
            simp only [hrm, hnm, Option.some.injEq] at h
            have hrl := lowerAll_length r rl hr
            have hnl := lowerAll_length n nl hn
            rw [hrl, hnl] at h
            have hrmle : rm ≤ r.length := by
              rw [← hrl]; exact jsCount_le _ _ _ hrm
            have hnmle : nm ≤ n.length := by
              rw [← hnl]; exact jsCount_le _ _ _ hnm
            obtain ⟨a0, a1⟩ := coverage_bounds rm r.length hrmle
            obtain ⟨b0, b1⟩ := coverage_bounds nm n.length hnmle
            refine ⟨⟨cl, rl, nl, rm, nm, rfl, rfl, rfl, hrm, hnm, h.symm⟩, ?_, ?_, ?_⟩
            · rw [← h]
              apply le_min
              · nlinarith
              · norm_num
            · rw [← h]
              exact min_le_right _ _
            · intro hre
              subst hre
              have hrm0 : rm = 0 := by
                simp only [List.length_nil] at hrmle
                omega
              subst hrm0
              rw [← h]
              apply le_trans (min_le_left _ _)
              simp only [Nat.cast_zero, zero_div, zero_mul, zero_add]
              nlinarith

theorem calculateExperienceMatch_bounds (candidate : Option Candidate) (job : Option Job)
    (hjob : ∀ j r, job = some j → j.experience = some r → 0 ≤ r)
    (hcand : ∀ c x, candidate = some c → c.experience = some x → 0 ≤ x) :
    0 ≤ calculateExperienceMatch candidate job ∧ calculateExperienceMatch candidate job ≤ 100 := by
  unfold calculateExperienceMatch
  cases candidate with
  | none => simp only [Option.bind]; norm_num
  | some c =>
    cases job with
    | none => cases hx : c.experience <;> simp [Option.bind, hx] <;> norm_num
    | some j =>
      simp only [Option.bind]
      cases hx : c.experience with
      | none => simp only; norm_num
      | some x =>
        cases hr : j.experience with
        | none => simp only; norm_num
        | some r =>
          have hr0 : 0 ≤ r := hjob j r rfl hr
          have hx0 : 0 ≤ x := hcand c x rfl hx
          simp only
          by_cases hz : x = 0 ∨ r = 0
          · simp only [hz, if_true]; norm_num
          · simp only [hz, if_false]
            have hrpos : 0 < r := by
              rcases lt_or_eq_of_le hr0 with h1 | h1
              · exact h1
              · exact absurd (Or.inr h1.symm) hz
            by_cases hge : x ≥ r
            · simp only [hge, if_true]
              have hq : 0 ≤ (x - r) / r := div_nonneg (by linarith) (le_of_lt hrpos)
              have hm : 0 ≤ min ((x - r) / r) (1 / 2) := le_min hq (by norm_num)
              constructor
              · apply le_min
                · norm_num
                · nlinarith
              · exact min_le_left _ _
            · simp only [hge, if_false]
              have hq : 0 ≤ (r - x) / r := div_nonneg (by linarith) (le_of_lt hrpos)
              constructor
              · exact le_max_left _ _
              · apply max_le
                · norm_num
                · nlinarith

theorem calculateCulturalFit_bounds (candidate : Option Candidate) (job : Option Job) :
    0 ≤ calculateCulturalFit candidate job ∧ calculateCulturalFit candidate job ≤ 100 := by
  unfold calculateCulturalFit
  constructor
  · exact le_max_left _ _
  · apply max_le
    · norm_num
    · exact min_le_left _ _

theorem calculateSuccessProbability_bounds (candidate : Option Candidate) (job : Option Job)
    (v : ℚ) (h : calculateSuccessProbability candidate job = some v) : 0 ≤ v ∧ v ≤ 100 := by
  unfold calculateSuccessProbability at h
  cases hs : skillAlignment candidate job with
  | none => rw [hs] at h; cases h
  | some shift =>
    rw [hs] at h
    simp only [Option.some.injEq] at h
    rw [← h]
    constructor
    · exact le_max_left _ _
    · apply max_le
      · norm_num
      · exact min_le_left _ _

theorem mathRound_bounds (x : ℚ) (h0 : 0 ≤ x) (h1 : x ≤ 100) :
    0 ≤ mathRound x ∧ mathRound x ≤ 100 := by
  unfold mathRound
  constructor
  · apply Int.floor_nonneg.mpr
    linarith
  · have h : ⌊x + 1 / 2⌋ < 101 := by
      rw [Int.floor_lt]
      push_cast
      linarith
    omega

/-- Whenever `calculateMatchScore` returns, with experience values that are not
negative, the result is an integer between 0 and 100. -/
theorem calculateMatchScore_bounds (candidateSkills jobRequiredSkills jobNiceToHaveSkills :
    List JsVal) (candidate : Option Candidate) (job : Option Job) (n : ℤ)
    (hjob : ∀ j r, job = some j → j.experience = some r → 0 ≤ r)
    (hcand : ∀ c x, candidate = some c → c.experience = some x → 0 ≤ x)
    (h : calculateMatchScore candidateSkills jobRequiredSkills jobNiceToHaveSkills candidate job =
      some n) : 0 ≤ n ∧ n ≤ 100 := by
  unfold calculateMatchScore at h
  cases ht : calculateTechnicalMatch candidateSkills jobRequiredSkills jobNiceToHaveSkills with
  | none => rw [ht] at h; cases h
  | some t =>
    cases hs : calculateSuccessProbability candidate job with
    | none => rw [ht] at h; simp only [hs] at h; cases h
    | some p =>
      rw [ht] at h
      simp only [hs, Option.some.injEq] at h
      obtain ⟨_, t0, t1, _⟩ := calculateTechnicalMatch_formula _ _ _ t ht
      obtain ⟨e0, e1⟩ := calculateExperienceMatch_bounds candidate job hjob hcand
      obtain ⟨c0, c1⟩ := calculateCulturalFit_bounds candidate job
      obtain ⟨p0, p1⟩ := calculateSuccessProbability_bounds candidate job p hs
      have hround := mathRound_bounds
        (0 + t * (1 / 2) + calculateExperienceMatch candidate job * (1 / 5) +
          calculateCulturalFit candidate job * (3 / 20) + p * (3 / 20))
        (by linarith) (by linarith)
      rw [← h]
      constructor
      · exact le_min hround.1 (by norm_num)
      · exact min_le_right _ _

/-! ## Totality away from inherited property names -/

theorem lowerUnit_idem (c : Nat) : lowerUnit (lowerUnit c) = lowerUnit c := by
  unfold lowerUnit
  by_cases h : 65 ≤ c ∧ c ≤ 90
  · have h2 : ¬ (65 ≤ c + 32 ∧ c + 32 ≤ 90) := by omega
    simp only [h, h2, if_true, if_false, and_self]
  · simp only [h, if_false]

theorem toLowerCase_idem (s : JsString) : toLowerCase (toLowerCase s) = toLowerCase s := by
  unfold toLowerCase
  rw [List.map_map]
  apply List.map_congr_left
  intro c _
  exact lowerUnit_idem c

theorem safeKey_toLowerCase (s : JsString) (h : SafeKey s) : SafeKey (toLowerCase s) := by
  unfold SafeKey at *
  rw [toLowerCase_idem]
  exact h

theorem optionalIncludes_isSome (l : Lookup) (x : JsString) (h : l ≠ Lookup.inherited) :
    ∃ b, optionalIncludes l x = some b := by
  cases l with
  | array xs => exact ⟨_, rfl⟩
  | missing => exact ⟨_, rfl⟩
  | inherited => exact absurd rfl h

theorem isSkillMatchStr_isSome (c j : JsString) (hc : SafeKey c) (hj : SafeKey j) :
    ∃ b, isSkillMatchStr c j = some b := by
  unfold isSkillMatchStr
  by_cases h1 : c = [] ∨ j = []
  · exact ⟨false, by simp only [h1, if_true]⟩
  · by_cases h2 : c = j
    · exact ⟨true, by rw [if_neg h1, if_pos h2]⟩
    · obtain ⟨b1, hb1⟩ := optionalIncludes_isSome _ (toLowerCase c) hj
      obtain ⟨b2, hb2⟩ := optionalIncludes_isSome _ (toLowerCase j) hc
      simp only [h1, h2, if_false, hb1, hb2]
      cases b1 with
      | true => exact ⟨true, rfl⟩
      | false =>
        cases b2 with
        | true => exact ⟨true, rfl⟩
        | false => exact ⟨_, rfl⟩

theorem isSkillMatch_isSome_right (c : JsString) (v : JsVal) (hc : SafeKey c)
    (hv : ∀ s, v = JsVal.str s → SafeKey s) : ∃ b, isSkillMatch (JsVal.str c) v = some b := by
  cases v with
  | str j =>
    rw [isSkillMatch_str]
    exact isSkillMatchStr_isSome c j hc (hv j rfl)
  | undefined => exact ⟨false, rfl⟩
  | null => exact ⟨false, rfl⟩
  | num q => exact ⟨false, rfl⟩
  | obj => exact ⟨false, rfl⟩

theorem jsSome_isSome {α : Type} (p : α → Option Bool) (xs : List α)
    (h : ∀ x ∈ xs, ∃ b, p x = some b) : ∃ b, jsSome p xs = some b := by
  induction xs with
  | nil => exact ⟨false, rfl⟩
  | cons x xs ih =>
    obtain ⟨b, hb⟩ := h x (List.mem_cons_self x xs)
    obtain ⟨b2, hb2⟩ := ih (fun y hy => h y (List.mem_cons_of_mem x hy))
    unfold jsSome
    rw [hb]
    cases b with
    | true => exact ⟨true, rfl⟩
    | false => exact ⟨b2, hb2⟩

theorem jsCount_isSome {α : Type} (p : α → Option Bool) (xs : List α)
    (h : ∀ x ∈ xs, ∃ b, p x = some b) : ∃ k, jsCount p xs = some k := by
  induction xs with
  | nil => exact ⟨0, rfl⟩
  | cons x xs ih =>
    obtain ⟨b, hb⟩ := h x (List.mem_cons_self x xs)
    obtain ⟨k, hk⟩ := ih (fun y hy => h y (List.mem_cons_of_mem x hy))
    unfold jsCount
    rw [hb]
    simp only [hk]
    exact ⟨_, rfl⟩

theorem lowerAll_isSome (xs : List JsVal) (h : ∀ v ∈ xs, SafeEntry v) :
    ∃ ys, lowerAll xs = some ys ∧ ∀ y ∈ ys, SafeKey y := by
  induction xs with
  | nil => exact ⟨[], rfl, fun y hy => absurd hy (List.not_mem_nil y)⟩
  | cons x xs ih =>
    obtain ⟨s, hs, hsafe⟩ := h x (List.mem_cons_self x xs)
    obtain ⟨ys, hys, hall⟩ := ih (fun y hy => h y (List.mem_cons_of_mem x hy))
    subst hs
    refine ⟨toLowerCase s :: ys, ?_, ?_⟩
    · unfold lowerAll
      rw [hys]
    · intro y hy
      rcases List.mem_cons.mp hy with h1 | h1
      · rw [h1]; exact safeKey_toLowerCase s hsafe
      · exact hall y h1

theorem bucketMatches_isSome (cl bl : List JsString) (hc : ∀ y ∈ cl, SafeKey y)
    (hb : ∀ y ∈ bl, SafeKey y) : ∃ k, bucketMatches cl bl = some k := by
  unfold bucketMatches
  apply jsCount_isSome
  intro skill hskill
  apply jsSome_isSome
  intro cs hcs
  rw [isSkillMatch_str]
  exact isSkillMatchStr_isSome cs skill (hc cs hcs) (hb skill hskill)

/-- On lists of string labels none of which lower-cases to an inherited property
name, `calculateTechnicalMatch` returns a number. -/
theorem calculateTechnicalMatch_isSome (c r n : List JsVal) (hc : ∀ v ∈ c, SafeEntry v)
    (hr : ∀ v ∈ r, SafeEntry v) (hn : ∀ v ∈ n, SafeEntry v) :
    ∃ v, calculateTechnicalMatch c r n = some v := by
  obtain ⟨cl, hcl, hcs⟩ := lowerAll_isSome c hc
  obtain ⟨rl, hrl, hrs⟩ := lowerAll_isSome r hr
  obtain ⟨nl, hnl, hns⟩ := lowerAll_isSome n hn
  obtain ⟨rm, hrm⟩ := bucketMatches_isSome cl rl hcs hrs
  obtain ⟨nm, hnm⟩ := bucketMatches_isSome cl nl hcs hns
  unfold calculateTechnicalMatch
  rw [hcl, hrl, hnl]
  simp only [hrm, hnm]
  exact ⟨_, rfl⟩

theorem mem_validSkills (xs : List JsVal) (y : JsString) (h : y ∈ validSkills xs) :
    ∃ s, JsVal.str s ∈ xs ∧ y = trim s := by
  induction xs with
  | nil => exact absurd h (List.not_mem_nil y)
  | cons x xs ih =>
    have lift : (∃ s, JsVal.str s ∈ xs ∧ y = trim s) → ∃ s, JsVal.str s ∈ x :: xs ∧ y = trim s :=
      fun ⟨s, hs, hy⟩ => ⟨s, List.mem_cons_of_mem x hs, hy⟩
    cases x with
    | str s =>
      unfold validSkills at h
      by_cases hv : s ≠ [] ∧ trim s ≠ []
      · rw [if_pos hv] at h
        rcases List.mem_cons.mp h with h1 | h1
        · exact ⟨s, List.mem_cons_self _ _, h1⟩
        · exact lift (ih h1)
      · rw [if_neg hv] at h
        exact lift (ih h)
    | undefined => exact lift (ih h)
    | null => exact lift (ih h)
    | num q => exact lift (ih h)
    | obj => exact lift (ih h)

theorem skillAlignment_isSome (candidate : Option Candidate) (job : Option Job)
    (hcand : ∀ c sk s, candidate = some c → c.skills = some sk → JsVal.str s ∈ sk →
      SafeKey (trim s))
    (hjob : ∀ j rq s, job = some j → j.requiredSkills = some rq → JsVal.str s ∈ rq → SafeKey s) :
    ∃ v, skillAlignment candidate job = some v := by
  unfold skillAlignment
  cases candidate with
  | none => exact ⟨0, rfl⟩
  | some c =>
    cases job with
    | none => cases hsk : c.skills <;> exact ⟨0, by simp [Option.bind, hsk]⟩
    | some j =>
      simp only [Option.bind]
      cases hsk : c.skills with
      | none => exact ⟨0, rfl⟩
      | some sk =>
        cases hrq : j.requiredSkills with
        | none => exact ⟨0, rfl⟩
        | some rq =>
          simp only
          by_cases hlen : (validSkills sk).length > 0
          · rw [if_pos hlen]
            have hcount : ∃ k, jsCount (fun skill =>
                jsSome (fun reqSkill => isSkillMatch (JsVal.str skill) reqSkill) rq)
                (validSkills sk) = some k := by
              apply jsCount_isSome
              intro skill hskill
              obtain ⟨s, hs, hy⟩ := mem_validSkills sk skill hskill
              apply jsSome_isSome
              intro reqSkill hreq
              apply isSkillMatch_isSome_right
              · rw [hy]; exact hcand c sk s rfl hsk hs
              · intro t ht
                rw [ht] at hreq
                exact hjob j rq t rfl hrq hreq
            obtain ⟨k, hk⟩ := hcount
            rw [hk]
            exact ⟨_, rfl⟩
          · rw [if_neg hlen]
            exact ⟨0, rfl⟩

/-- On skill lists of string labels none of which lower-cases to an inherited
property name (for `candidate.skills`: after trimming), and with experience
values that are not negative, `calculateMatchScore` returns an integer between 0
and 100. -/
theorem calculateMatchScore_isSome (candidateSkills jobRequiredSkills jobNiceToHaveSkills :
    List JsVal) (candidate : Option Candidate) (job : Option Job)
    (hc : ∀ v ∈ candidateSkills, SafeEntry v)
    (hr : ∀ v ∈ jobRequiredSkills, SafeEntry v)
    (hn : ∀ v ∈ jobNiceToHaveSkills, SafeEntry v)
    (hcand : ∀ c sk s, candidate = some c → c.skills = some sk → JsVal.str s ∈ sk →
      SafeKey (trim s))
    (hjob : ∀ j rq s, job = some j → j.requiredSkills = some rq → JsVal.str s ∈ rq → SafeKey s)
    (hjexp : ∀ j r, job = some j → j.experience = some r → 0 ≤ r)
    (hcexp : ∀ c x, candidate = some c → c.experience = some x → 0 ≤ x) :
    ∃ n : ℤ, calculateMatchScore candidateSkills jobRequiredSkills jobNiceToHaveSkills
      candidate job = some n ∧ 0 ≤ n ∧ n ≤ 100 := by
  obtain ⟨t, ht⟩ := calculateTechnicalMatch_isSome _ _ _ hc hr hn
  obtain ⟨a, ha⟩ := skillAlignment_isSome candidate job hcand hjob
  have hs : ∃ p, calculateSuccessProbability candidate job = some p := by
    unfold calculateSuccessProbability
    rw [ha]
    exact ⟨_, rfl⟩
  obtain ⟨p, hp⟩ := hs
  have hsome : ∃ n, calculateMatchScore candidateSkills jobRequiredSkills jobNiceToHaveSkills
      candidate job = some n := by
    unfold calculateMatchScore
    rw [ht]
    simp only [hp]
    exact ⟨_, rfl⟩
  obtain ⟨n, hn2⟩ := hsome
  exact ⟨n, hn2, calculateMatchScore_bounds _ _ _ _ _ n hjexp hcexp hn2⟩

/-! ## Inputs that are missing or not labels -/

theorem isSkillMatch_malformed (c j : JsVal)
    (h : (∀ s, c = JsVal.str s → s = []) ∨ (∀ s, j = JsVal.str s → s = [])) :
    isSkillMatch c j = some false := by
  cases c with
  | str a =>
    cases j with
    | str b =>
      have hab : a = [] ∨ b = [] := by
        rcases h with h1 | h1
        · exact Or.inl (h1 a rfl)
        · exact Or.inr (h1 b rfl)
      simp only [isSkillMatch, if_pos hab]
    | undefined => rfl
    | null => rfl
    | num q => rfl
    | obj => rfl
  | undefined => rfl
  | null => rfl
  | num q => rfl
  | obj => rfl

theorem calculateMatchScore_absent : calculateMatchScore [] [] [] none none = some 25 := by
  have ht : calculateTechnicalMatch [] [] [] = some 0 := by
    simp [calculateTechnicalMatch, lowerAll, bucketMatches, jsCount]
  have he : calculateExperienceMatch none none = 50 := rfl
  have hc : calculateCulturalFit none none = 50 := by
    simp only [calculateCulturalFit, Option.bind]
    norm_num
  have hs : calculateSuccessProbability none none = some 50 := by
    simp only [calculateSuccessProbability, skillAlignment, experienceAlignment,
      companyStability, truthyStr, Option.bind]
    norm_num
  simp only [calculateMatchScore, ht, he, hc, hs, mathRound]
  have h : ⌊(0 : ℚ) + 0 * (1 / 2) + 50 * (1 / 5) + 50 * (3 / 20) + 50 * (3 / 20) + 1 / 2⌋ = 25 := by
    rw [Int.floor_eq_iff]
    constructor <;> norm_num
  rw [h]
  rfl

/-! ## The claims -/

/-- C1 (code defect): on the well-formed skill lists `["js"]` and
`["constructor"]`, with no candidate and no job object, `calculateMatchScore`
returns no integer at all: the synonym-table lookup of `"constructor"` raises a
`TypeError`. -/
theorem calculateMatchScore_constructor_throws :
    calculateMatchScore [JsVal.str (lit "js")] [JsVal.str (lit "constructor")] [] none none =
      none := by
  have hb : bucketMatches [lit "js"] [lit "constructor"] = none := by
    unfold bucketMatches
    simp only [isSkillMatch_str]
    decide
  have l1 : lowerAll [JsVal.str (lit "js")] = some [lit "js"] := by decide
  have l2 : lowerAll [JsVal.str (lit "constructor")] = some [lit "constructor"] := by decide
  have l3 : lowerAll [] = some [] := rfl
  simp only [calculateMatchScore, calculateTechnicalMatch, l1, l2, l3, hb]

/-- C2 (code defect): a `null` entry in `candidateSkills` makes
`calculateMatchScore` raise a `TypeError` (the `toLowerCase` call of
`calculateTechnicalMatch` is not guarded), although `calculateSuccessProbability`
on the same candidate filters the entry out and returns 65. -/
theorem calculateMatchScore_null_skill_throws :
    calculateMatchScore [JsVal.null, JsVal.str (lit "js")] [JsVal.str (lit "js")] []
        (some nullSkillCandidate) (some jsJob) = none ∧
      calculateSuccessProbability (some nullSkillCandidate) (some jsJob) = some 65 := by
  constructor
  · have l1 : lowerAll [JsVal.null, JsVal.str (lit "js")] = none := rfl
    simp only [calculateMatchScore, calculateTechnicalMatch, l1]
  · have hv : validSkills [JsVal.null, JsVal.str (lit "js")] = [lit "js"] := by decide
    have hc : jsCount (fun skill =>
        jsSome (fun reqSkill => isSkillMatch (JsVal.str skill) reqSkill)
          [JsVal.str (lit "js")]) [lit "js"] = some 1 := by
      simp only [jsCount, jsSome, isSkillMatch_str]
      decide
    have hs : skillAlignment (some nullSkillCandidate) (some jsJob) = some 15 := by
      simp only [skillAlignment, nullSkillCandidate, jsJob, Option.bind, hv, hc]
      norm_num
    have he : experienceAlignment (some nullSkillCandidate) (some jsJob) = 0 := by
      simp only [experienceAlignment, nullSkillCandidate, jsJob, Option.bind]
    have hk : companyStability (some nullSkillCandidate) = 0 := by
      simp [companyStability, nullSkillCandidate, truthyStr]
    simp only [calculateSuccessProbability, hs, he, hk]
    norm_num

/-- C3 (as stated, refuted): for the empty label `isSkillMatch(a, a.toUpperCase())`
is `false`, because empty inputs are rejected first. -/
theorem isSkillMatch_upper_empty :
    isSkillMatch (JsVal.str []) (JsVal.str (toUpperCase [])) = some false ∧
      isSkillMatch (JsVal.str []) (JsVal.str (toUpperCase [])) ≠ some true := by
  constructor
  · rfl
  · intro h
    cases h

/-- C3 (amended): for every non-empty label `a` of ASCII characters whose
lower-case form is neither `"constructor"` nor `"__proto__"`,
`isSkillMatch(a, a.toUpperCase())` is `true`. -/
theorem isSkillMatch_upper (a : JsString) (hne : a ≠ []) (_hascii : ∀ c ∈ a, c < 128)
    (hc : toLowerCase a ≠ lit "constructor") (hp : toLowerCase a ≠ lit "__proto__") :
    isSkillMatch (JsVal.str a) (JsVal.str (toUpperCase a)) = some true := by
  rw [isSkillMatch_str]
  apply isSkillMatchStr_same_lower a (toUpperCase a) hne
  · intro h
    exact hne ((toUpperCase_eq_nil a).mp h)
  · exact toLowerCase_toUpperCase a
  · intro h
    rcases skillMappings_inherited_lower a h with h1 | h2
    · exact hc h1
    · exact hp h2

/-- C3 (amended), instance: the label `"React"`. -/
theorem isSkillMatch_upper_witness :
    (lit "React" ≠ [] ∧ (∀ c ∈ lit "React", c < 128) ∧
      toLowerCase (lit "React") ≠ lit "constructor" ∧
      toLowerCase (lit "React") ≠ lit "__proto__") ∧
    isSkillMatch (JsVal.str (lit "React")) (JsVal.str (toUpperCase (lit "React"))) =
      some true :=
  ⟨⟨by decide, by decide, by decide, by decide⟩,
    isSkillMatch_upper (lit "React") (by decide) (by decide) (by decide) (by decide)⟩

/-- C4 (code defect): `isSkillMatch("js", "constructor")` raises a `TypeError`
instead of returning a boolean: `skillMappings["constructor"]` is the inherited
`Object` function, which has no `includes` method. -/
theorem isSkillMatch_constructor_throws :
    isSkillMatch (JsVal.str (lit "js")) (JsVal.str (lit "constructor")) = none := by
  rw [isSkillMatch_str]
  decide

/-- C5: `calculateStringSimilarity(s1, s2)` is 1 when both strings are empty and
`(L - d) / L` otherwise, with `L = max(|s1|, |s2|)` and `d` the edit distance of
`s1` and `s2`; it always lies in `[0, 1]`. -/
theorem calculateStringSimilarity_spec (s1 s2 : JsString) :
    calculateStringSimilarity s1 s2 =
        (if s1 = [] ∧ s2 = [] then 1
         else ((max s1.length s2.length : Nat) - (editDistance s1 s2 : ℚ)) /
           (max s1.length s2.length : Nat)) ∧
      0 ≤ calculateStringSimilarity s1 s2 ∧ calculateStringSimilarity s1 s2 ≤ 1 := by
  refine ⟨?_, calculateStringSimilarity_nonneg s1 s2, calculateStringSimilarity_le_one s1 s2⟩
  rw [calculateStringSimilarity_eq]
  by_cases h : s1 = [] ∧ s2 = []
  · obtain ⟨h1, h2⟩ := h
    subst h1 h2
    simp
  · have hmax : max s1.length s2.length ≠ 0 := by
      intro h0
      apply h
      constructor
      · exact List.length_eq_zero.mp (by omega)
      · exact List.length_eq_zero.mp (by omega)
    simp only [hmax, h, if_false]

/-- C6: `calculateStringSimilarity` is symmetric in its two arguments, equal
lengths included. -/
theorem calculateStringSimilarity_symm (s1 s2 : JsString) :
    calculateStringSimilarity s1 s2 = calculateStringSimilarity s2 s1 := by
  rw [calculateStringSimilarity_eq, calculateStringSimilarity_eq, editDistance_symm s2 s1,
    Nat.max_comm s2.length s1.length]

/-- C7: the matrix-filling loops of `levenshteinDistance` compute the recursively
defined Levenshtein edit distance, which is the minimum number of
single-character insertions, deletions and substitutions turning `s1` into `s2`
(that many edits suffice and no fewer do); the result is 0 exactly when the
strings are equal and never exceeds the length of the longer string. -/
theorem levenshteinDistance_refines_editDistance (s1 s2 : JsString) :
    levenshteinDistance s1 s2 = editDistance s1 s2 ∧
      EditsIn (levenshteinDistance s1 s2) s1 s2 ∧
      (∀ k, EditsIn k s1 s2 → levenshteinDistance s1 s2 ≤ k) ∧
      (levenshteinDistance s1 s2 = 0 ↔ s1 = s2) ∧
      levenshteinDistance s1 s2 ≤ max s1.length s2.length := by
  rw [levenshteinDistance_eq_editDistance]
  exact ⟨rfl, editsIn_editDistance s1 s2, fun _ h => editDistance_le_of_editsIn h,
    editDistance_eq_zero_iff s1 s2, editDistance_le_max s1 s2⟩

/-- C8 (code defect): on the string lists `["constructor"]` (candidate) and
`["js"]` (required) `calculateTechnicalMatch` returns no number: the second
synonym-table lookup, `skillMappings["constructor"]`, raises a `TypeError`. -/
theorem calculateTechnicalMatch_constructor_throws :
    calculateTechnicalMatch [JsVal.str (lit "constructor")] [JsVal.str (lit "js")] [] = none := by
  have hb : bucketMatches [lit "constructor"] [lit "js"] = none := by
    unfold bucketMatches
    simp only [isSkillMatch_str]
    decide
  have l1 : lowerAll [JsVal.str (lit "constructor")] = some [lit "constructor"] := by decide
  have l2 : lowerAll [JsVal.str (lit "js")] = some [lit "js"] := by decide
  have l3 : lowerAll [] = some [] := rfl
  simp only [calculateTechnicalMatch, l1, l2, l3, hb]

/-- C9 (as stated, refuted): on candidate skills `["javascript","css"]`, required
skills `["javascript","react"]` and nice-to-have skills `["css"]` it is not the
case that `"react"` is unmatched and the technical match is 65. -/
theorem calculateTechnicalMatch_example_not_65 :
    ¬ (jsSome (fun candidateSkill =>
          isSkillMatch (JsVal.str candidateSkill) (JsVal.str (lit "react")))
          [lit "javascript", lit "css"] = some false ∧
        calculateTechnicalMatch [JsVal.str (lit "javascript"), JsVal.str (lit "css")]
          [JsVal.str (lit "javascript"), JsVal.str (lit "react")] [JsVal.str (lit "css")] =
          some 65) := by
  rintro ⟨_, h⟩
  rw [calculateTechnicalMatch_example] at h
  have h2 : (100 : ℚ) = 65 := Option.some.inj h
  norm_num at h2

/-- C9 (amended): on those inputs the required skill `"react"` is matched by the
candidate skill `"javascript"` (the synonym table lists `"react"` under
`"javascript"`), both buckets are fully covered and `calculateTechnicalMatch`
returns 100. -/
theorem calculateTechnicalMatch_example_100 :
    isSkillMatch (JsVal.str (lit "javascript")) (JsVal.str (lit "react")) = some true ∧
      calculateTechnicalMatch [JsVal.str (lit "javascript"), JsVal.str (lit "css")]
        [JsVal.str (lit "javascript"), JsVal.str (lit "react")] [JsVal.str (lit "css")] =
        some 100 := by
  refine ⟨?_, calculateTechnicalMatch_example⟩
  rw [isSkillMatch_str]
  decide

/-- C10 (as stated, refuted): for the candidate `{skills: ["javascript","css"],
experience: 3}` and the job `{requiredSkills: ["javascript","react"],
niceToHaveSkills: ["css"], experience: 2}` the match score is not between 60
and 79. -/
theorem calculateMatchScore_example_not_in_60_79 :
    ¬ ∃ n : ℤ,
      calculateMatchScore [JsVal.str (lit "javascript"), JsVal.str (lit "css")]
        [JsVal.str (lit "javascript"), JsVal.str (lit "react")] [JsVal.str (lit "css")]
        (some exampleCandidate) (some exampleJob) = some n ∧ 60 ≤ n ∧ n ≤ 79 := by
  rintro ⟨n, h, _, h79⟩
  rw [calculateMatchScore_example] at h
  have hn : (86 : ℤ) = n := Option.some.inj h
  omega

/-- C10 (amended): for that candidate and job `calculateMatchScore` is a function
of its inputs whose value is the integer 86 (technical 100, experience 90,
cultural 50, success 70). -/
theorem calculateMatchScore_example_86 :
    calculateMatchScore [JsVal.str (lit "javascript"), JsVal.str (lit "css")]
        [JsVal.str (lit "javascript"), JsVal.str (lit "react")] [JsVal.str (lit "css")]
        (some exampleCandidate) (some exampleJob) = some 86 ∧
      calculateTechnicalMatch [JsVal.str (lit "javascript"), JsVal.str (lit "css")]
        [JsVal.str (lit "javascript"), JsVal.str (lit "react")] [JsVal.str (lit "css")] =
        some 100 ∧
      calculateExperienceMatch (some exampleCandidate) (some exampleJob) = 90 ∧
      calculateCulturalFit (some exampleCandidate) (some exampleJob) = 50 ∧
      calculateSuccessProbability (some exampleCandidate) (some exampleJob) = some 70 :=
  ⟨calculateMatchScore_example, calculateTechnicalMatch_example,
    calculateExperienceMatch_example, calculateCulturalFit_example,
    calculateSuccessProbability_example⟩

/-! ## Experience match and cultural fit -/

theorem calculateExperienceMatch_absent (candidate : Option Candidate) (job : Option Job)
    (h : candidate.bind (fun c => c.experience) = none ∨
      job.bind (fun j => j.experience) = none) :
    calculateExperienceMatch candidate job = 50 := by
  unfold calculateExperienceMatch
  rcases h with h | h
  · rw [h]
  · rw [h]
    cases candidate.bind (fun c => c.experience) <;> rfl

theorem calculateExperienceMatch_present (candidate : Option Candidate) (job : Option Job)
    (c r : ℚ) (hc : candidate.bind (fun c => c.experience) = some c)
    (hr : job.bind (fun j => j.experience) = some r) :
    calculateExperienceMatch candidate job =
      if c = 0 ∨ r = 0 then 50
      else if c ≥ r then min 100 (80 + min ((c - r) / r) (1 / 2) * 20)
      else max 0 (100 - (r - c) / r * 50) := by
  unfold calculateExperienceMatch
  rw [hc, hr]

theorem levelOfCombined_range (combined : JsString) :
    1 ≤ levelOfCombined combined ∧ levelOfCombined combined ≤ 5 := by
  unfold levelOfCombined
  cases h1 : educationLevels.find? (fun kv => includes combined kv.1) with
  | some kv =>
    have hmem : kv ∈ educationLevels := List.mem_of_find?_eq_some h1
    have hall : ∀ x ∈ educationLevels, 1 ≤ x.2 ∧ x.2 ≤ 5 := by decide
    exact hall kv hmem
  | none =>
    cases h2 : educationHeuristics.find? (fun h => h.1.any (matchesWord combined)) with
    | some h =>
      have hmem : h ∈ educationHeuristics := List.mem_of_find?_eq_some h2
      have hall : ∀ x ∈ educationHeuristics, 1 ≤ x.2 ∧ x.2 ≤ 5 := by decide
      exact hall h hmem
    | none => exact ⟨by decide, by decide⟩

theorem getEducationLevel_range (education : Education) :
    1 ≤ getEducationLevel education ∧ getEducationLevel education ≤ 5 := by
  unfold getEducationLevel
  split
  · exact levelOfCombined_range _
  · exact ⟨by decide, by decide⟩

theorem getJobLevel_range (jobTitle : JsString) :
    2 ≤ getJobLevel jobTitle ∧ getJobLevel jobTitle ≤ 4 := by
  unfold getJobLevel
  simp only
  split
  · exact ⟨by decide, by decide⟩
  · split
    · exact ⟨by decide, by decide⟩
    · split <;> exact ⟨by decide, by decide⟩

theorem calculateCulturalFit_missing (candidate : Option Candidate) (job : Option Job)
    (h : candidate.bind (fun c => c.education) = none ∨
      (∃ e, candidate.bind (fun c => c.education) = some e ∧ educationTruthy e = false) ∨
      job.bind (fun j => j.title) = none ∨ job.bind (fun j => j.title) = some []) :
    calculateCulturalFit candidate job = 50 := by
  have hclamp : max (0 : ℚ) (min 100 50) = 50 := by norm_num
  unfold calculateCulturalFit
  rcases h with h | ⟨e, he, hf⟩ | h | h
  · rw [h]
    exact hclamp
  · rw [he]
    cases job.bind (fun j => j.title) with
    | none => exact hclamp
    | some t =>
      simp only [hf, true_or, if_true]
      exact hclamp
  · rw [h]
    cases candidate.bind (fun c => c.education) <;> exact hclamp
  · rw [h]
    cases candidate.bind (fun c => c.education) with
    | none => exact hclamp
    | some e =>
      simp only [or_true, if_true]
      exact hclamp

theorem calculateCulturalFit_present (candidate : Option Candidate) (job : Option Job)
    (e : Education) (t : JsString) (he : candidate.bind (fun c => c.education) = some e)
    (ht : job.bind (fun j => j.title) = some t) (hte : educationTruthy e = true) (htt : t ≠ []) :
    calculateCulturalFit candidate job =
      if |(getEducationLevel e : ℤ) - (getJobLevel t : ℤ)| ≤ 1 then 70
      else if |(getEducationLevel e : ℤ) - (getJobLevel t : ℤ)| > 2 then 30
      else 50 := by
  unfold calculateCulturalFit
  rw [he, ht]
  have hcond : ¬ (educationTruthy e = false ∨ t = []) := by
    intro h
    rcases h with h | h
    · rw [hte] at h; cases h
    · exact htt h
  simp only [hcond, if_false]
  split
  · norm_num
  · split <;> norm_num

/-! ## Threshold validation and status -/

theorem startsWith_nil_right (s : JsString) : startsWith s [] = true := by
  cases s <;> rfl

theorem startsWith_append (a b w : JsString) (h : startsWith a w = true) :
    startsWith (a ++ b) w = true := by
  induction a generalizing w with
  | nil =>
    cases w with
    | nil => exact startsWith_nil_right _
    | cons d w => cases h
  | cons c a ih =>
    cases w with
    | nil => rfl
    | cons d w =>
      simp only [startsWith, Bool.and_eq_true] at h
      simp only [List.cons_append, startsWith, Bool.and_eq_true]
      exact ⟨h.1, ih w h.2⟩

theorem includes_nil_right (s : JsString) : includes s [] = true := by
  cases s with
  | nil => rfl
  | cons c s => simp [includes, startsWith_nil_right]

theorem includes_append (a b w : JsString) (h : includes a w = true) :
    includes (a ++ b) w = true := by
  induction a with
  | nil =>
    cases w with
    | nil => exact includes_nil_right _
    | cons d w => cases h
  | cons c a ih =>
    simp only [includes, Bool.or_eq_true] at h
    simp only [List.cons_append, includes, Bool.or_eq_true]
    rcases h with h | h
    · exact Or.inl (startsWith_append (c :: a) b w h)
    · exact Or.inr (ih h)

/-! ## Double-precision addition and the sum of the weights -/

theorem roundHalfEven_intCast (m : ℤ) : roundHalfEven (m : ℚ) = m := by
  unfold roundHalfEven
  simp only [Int.floor_intCast, sub_self]
  norm_num

theorem roundHalfEven_eq (x : ℚ) (m : ℤ) (h1 : (m : ℚ) - 1 / 2 < x) (h2 : x < m + 1 / 2) :
    roundHalfEven x = m := by
  unfold roundHalfEven
  simp only []
  by_cases hx : x < m
  · have hf : ⌊x⌋ = m - 1 := by
      rw [Int.floor_eq_iff]
      push_cast
      constructor <;> linarith
    rw [hf]
    push_cast
    have hn : ¬ (x - ((m : ℚ) - 1) < 1 / 2) := by linarith
    have hp : x - ((m : ℚ) - 1) > 1 / 2 := by linarith
    rw [if_neg hn, if_pos hp]
    ring
  · have hf : ⌊x⌋ = m := by
      rw [Int.floor_eq_iff]
      constructor <;> linarith
    rw [hf]
    have hp : x - (m : ℚ) < 1 / 2 := by linarith
    rw [if_pos hp]

theorem binaryExponent_eq (x : ℚ) (e : ℤ) (h1 : (2 : ℚ) ^ e ≤ |x|) (h2 : |x| < (2 : ℚ) ^ (e + 1))
    (he : -1022 ≤ e) : binaryExponent x = e := by
  have hpos : (0 : ℚ) < |x| := lt_of_lt_of_le (zpow_pos (by norm_num) e) h1
  have hlog : Int.log 2 |x| = e := by
    apply le_antisymm
    · have h3 : Int.log 2 |x| < e + 1 := by
        rw [← Int.lt_zpow_iff_log_lt (by norm_num) hpos]
        exact_mod_cast h2
      omega
    · rw [← Int.zpow_le_iff_le_log (by norm_num) hpos]
      exact_mod_cast h1
  unfold binaryExponent
  rw [hlog]
  exact max_eq_left he

theorem roundDouble_eq (x : ℚ) (e m : ℤ) (h1 : (2 : ℚ) ^ e ≤ |x|)
    (h2 : |x| < (2 : ℚ) ^ (e + 1)) (he : -1022 ≤ e)
    (hm : roundHalfEven (x / 2 ^ (e - 52)) = m) :
    roundDouble x = (m : ℚ) * 2 ^ (e - 52) := by
  unfold roundDouble
  simp only []
  rw [binaryExponent_eq x e h1 h2 he, hm]

theorem roundDouble_zero : roundDouble 0 = 0 := by
  unfold roundDouble
  simp only [zero_div]
  have h := roundHalfEven_intCast 0
  simp only [Int.cast_zero] at h
  rw [h]
  simp

theorem roundDouble_natCast (n : ℕ) (h : n < 2 ^ 53) : roundDouble (n : ℚ) = n := by
  rcases Nat.eq_zero_or_pos n with h0 | hpos
  · rw [h0]
    simpa using roundDouble_zero
  · have hb : binaryExponent (n : ℚ) = (Nat.log 2 n : ℤ) := by
      unfold binaryExponent
      rw [abs_of_nonneg (Nat.cast_nonneg n), Int.log_natCast]
      exact max_eq_left (by omega)
    have hlog : Nat.log 2 n < 53 := (Nat.lt_pow_iff_log_lt (by norm_num) (by omega)).mp h
    obtain ⟨k, hk⟩ : ∃ k : ℕ, (Nat.log 2 n : ℤ) - 52 = -(k : ℤ) := ⟨52 - Nat.log 2 n, by omega⟩
    unfold roundDouble
    simp only []
    rw [hb, hk, zpow_neg, zpow_natCast]
    have hdiv : (n : ℚ) / ((2 : ℚ) ^ k)⁻¹ = ((n * 2 ^ k : ℕ) : ℤ) := by
      rw [div_inv_eq_mul]
      push_cast
      ring
    rw [hdiv, roundHalfEven_intCast]
    push_cast
    have h2 : ((2 : ℚ) ^ k) ≠ 0 := pow_ne_zero _ (by norm_num)
    field_simp

theorem roundDouble_eval (x y : ℚ) (e m : ℤ) (h1 : (2 : ℚ) ^ e ≤ x)
    (h2 : x < (2 : ℚ) ^ (e + 1)) (he : -1022 ≤ e)
    (hlo : (m : ℚ) - 1 / 2 < x / 2 ^ (e - 52)) (hhi : x / 2 ^ (e - 52) < (m : ℚ) + 1 / 2)
    (hy : (m : ℚ) * 2 ^ (e - 52) = y) : roundDouble x = y := by
  have hpos : (0 : ℚ) < x := lt_of_lt_of_le (zpow_pos (by norm_num) e) h1
  have habs : |x| = x := abs_of_pos hpos
  rw [← hy]
  apply roundDouble_eq x e m
  · rw [habs]; exact h1
  · rw [habs]; exact h2
  · exact he
  · exact roundHalfEven_eq _ m hlo hhi

theorem roundDouble_decimal_121 :
    roundDouble (121 / 10) = 6811694436397875 / 562949953421312 := by
  apply roundDouble_eval _ _ 3 6811694436397875 <;> norm_num

theorem roundDouble_decimal_379 :
    roundDouble (379 / 10) = 5333950808666931 / 140737488355328 := by
  apply roundDouble_eval _ _ 5 5333950808666931 <;> norm_num

theorem roundDouble_decimal_333 :
    roundDouble (333 / 10) = 2343279181116211 / 70368744177664 := by
  apply roundDouble_eval _ _ 5 4686558362232422 <;> norm_num

theorem roundDouble_decimal_01 :
    roundDouble (1 / 10) = 3602879701896397 / 36028797018963968 := by
  apply roundDouble_eval _ _ (-4) 7205759403792794 <;> norm_num

theorem totalWeight_decimalWeights : totalWeight decimalWeights.weights = 100 := by
  have s1 : roundDouble (0 + 6811694436397875 / 562949953421312) =
      6811694436397875 / 562949953421312 := by
    apply roundDouble_eval _ _ 3 6811694436397875 <;> norm_num
  have s2 : roundDouble (6811694436397875 / 562949953421312 +
      5333950808666931 / 140737488355328) = 50 := by
    apply roundDouble_eval _ _ 5 7036874417766400 <;> norm_num
  have s3 : roundDouble (50 + 25) = 75 := by
    have h := roundDouble_natCast 75 (by norm_num)
    norm_num at h ⊢
    exact h
  have s4 : roundDouble (75 + 25) = 100 := by
    have h := roundDouble_natCast 100 (by norm_num)
    norm_num at h ⊢
    exact h
  simp only [totalWeight, decimalWeights, List.foldl, jsAdd, s1, s2, s3, s4]

theorem totalWeight_thirdsWeights :
    totalWeight thirdsWeights.weights = 7036874417766399 / 70368744177664 := by
  have s1 : roundDouble (0 + 2343279181116211 / 70368744177664) =
      2343279181116211 / 70368744177664 := by
    apply roundDouble_eval _ _ 5 4686558362232422 <;> norm_num
  have s2 : roundDouble (2343279181116211 / 70368744177664 +
      2343279181116211 / 70368744177664) = 2343279181116211 / 35184372088832 := by
    apply roundDouble_eval _ _ 6 4686558362232422 <;> norm_num
  have s3 : roundDouble (2343279181116211 / 35184372088832 +
      2343279181116211 / 70368744177664) = 7029837543348633 / 70368744177664 := by
    apply roundDouble_eval _ _ 6 7029837543348633 <;> norm_num
  have s4 : roundDouble (7029837543348633 / 70368744177664 +
      3602879701896397 / 36028797018963968) = 7036874417766399 / 70368744177664 := by
    apply roundDouble_eval _ _ 6 7036874417766399 <;> norm_num
  simp only [totalWeight, thirdsWeights, List.foldl, jsAdd, s1, s2, s3, s4]

theorem jsAdd_natCast (a b : ℕ) (h : a + b < 2 ^ 53) : jsAdd (a : ℚ) (b : ℚ) = ((a + b : ℕ) : ℚ) := by
  unfold jsAdd
  rw [← Nat.cast_add]
  exact roundDouble_natCast (a + b) h

theorem totalWeight_natCast (w : Weights) (a b c d : ℕ) (ha : w.candidateVolume = a)
    (hb : w.applicationRate = b) (hc : w.timeToFill = c) (hd : w.diversityRatio = d)
    (h : a + b + c + d < 2 ^ 53) :
    totalWeight w = ((a + b + c + d : ℕ) : ℚ) := by
  have h0 : jsAdd 0 (a : ℚ) = ((a : ℕ) : ℚ) := by
    have := jsAdd_natCast 0 a (by omega)
    simpa using this
  have h1 := jsAdd_natCast a b (by omega)
  have h2 := jsAdd_natCast (a + b) c (by omega)
  have h3 := jsAdd_natCast (a + b + c) d h
  simp only [totalWeight, List.foldl, ha, hb, hc, hd, h0, h1, h2, h3]

theorem validateConfiguration_cases (numberToString : ℚ → JsString) (t : HealthThresholds) :
    validateConfiguration numberToString t =
      (if totalWeight t.weights = 100 then []
        else [lit "Metric weights must sum to 100, currently sum to " ++
          numberToString (totalWeight t.weights)]) ++
      (if t.warningScoreMin < t.healthyScoreMin then []
        else [lit "Warning score minimum must be less than healthy score minimum"]) ++
      (if t.criticalDiversityRatio < t.minDiversityRatio then []
        else [lit "Critical diversity ratio must be less than minimum diversity ratio"]) := by
  unfold validateConfiguration
  by_cases h1 : totalWeight t.weights = 100 <;>
    by_cases h2 : t.warningScoreMin < t.healthyScoreMin <;>
    by_cases h3 : t.criticalDiversityRatio < t.minDiversityRatio <;>
    simp [h1, h2, h3, not_le.mpr, not_lt.mp]

theorem validateConfiguration_eq_nil_iff (numberToString : ℚ → JsString) (t : HealthThresholds) :
    validateConfiguration numberToString t = [] ↔
      totalWeight t.weights = 100 ∧ t.warningScoreMin < t.healthyScoreMin ∧
        t.criticalDiversityRatio < t.minDiversityRatio := by
  rw [validateConfiguration_cases]
  by_cases h1 : totalWeight t.weights = 100 <;>
    by_cases h2 : t.warningScoreMin < t.healthyScoreMin <;>
    by_cases h3 : t.criticalDiversityRatio < t.minDiversityRatio <;>
    simp [h1, h2, h3]

theorem validateConfiguration_length (numberToString : ℚ → JsString) (t : HealthThresholds) :
    (validateConfiguration numberToString t).length =
      (if totalWeight t.weights = 100 then 0 else 1) +
        (if t.warningScoreMin < t.healthyScoreMin then 0 else 1) +
        (if t.criticalDiversityRatio < t.minDiversityRatio then 0 else 1) := by
  rw [validateConfiguration_cases]
  by_cases h1 : totalWeight t.weights = 100 <;>
    by_cases h2 : t.warningScoreMin < t.healthyScoreMin <;>
    by_cases h3 : t.criticalDiversityRatio < t.minDiversityRatio <;>
    simp [h1, h2, h3]

theorem validateConfiguration_defaults (numberToString : ℚ → JsString) :
    validateConfiguration numberToString getDefaults = [] := by
  have hw : totalWeight getDefaults.weights = ((40 + 30 + 20 + 10 : ℕ) : ℚ) :=
    totalWeight_natCast getDefaults.weights 40 30 20 10 (by norm_num [getDefaults])
      (by norm_num [getDefaults]) (by norm_num [getDefaults]) (by norm_num [getDefaults])
      (by norm_num)
  rw [validateConfiguration_eq_nil_iff, hw]
  simp only [getDefaults]
  norm_num

theorem validateConfiguration_99 (numberToString : ℚ → JsString) :
    validateConfiguration numberToString weights99 =
      [lit "Metric weights must sum to 100, currently sum to " ++ numberToString 99] := by
  have hw : totalWeight weights99.weights = ((40 + 30 + 20 + 9 : ℕ) : ℚ) :=
    totalWeight_natCast weights99.weights 40 30 20 9 (by norm_num [weights99])
      (by norm_num [weights99]) (by norm_num [weights99]) (by norm_num [weights99])
      (by norm_num)
  rw [validateConfiguration_cases, hw]
  simp only [weights99, getDefaults]
  norm_num

theorem statusStrings_distinct :
    lit "healthy" ≠ lit "warning" ∧ lit "healthy" ≠ lit "critical" ∧
      lit "warning" ≠ lit "critical" := by decide

theorem getStatusFromScore_iff (score : ℚ) (t : HealthThresholds)
    (h : t.warningScoreMin < t.healthyScoreMin) :
    (getStatusFromScore score t = lit "healthy" ↔ score ≥ t.healthyScoreMin) ∧
    (getStatusFromScore score t = lit "warning" ↔
      t.warningScoreMin ≤ score ∧ score < t.healthyScoreMin) ∧
    (getStatusFromScore score t = lit "critical" ↔ score < t.warningScoreMin) := by
  obtain ⟨d1, d2, d3⟩ := statusStrings_distinct
  unfold getStatusFromScore
  by_cases h1 : score ≥ t.healthyScoreMin
  · have h2 : ¬ score < t.healthyScoreMin := not_lt.mpr h1
    have h3 : ¬ score < t.warningScoreMin := fun h3 => h2 (lt_trans h3 h)
    rw [if_pos h1]
    exact ⟨⟨fun _ => h1, fun _ => rfl⟩,
      ⟨fun e => absurd e d1, fun hw => absurd hw.2 h2⟩,
      ⟨fun e => absurd e d2, fun hc => absurd hc h3⟩⟩
  · rw [if_neg h1]
    by_cases h2 : score ≥ t.warningScoreMin
    · have h3 : score < t.healthyScoreMin := not_le.mp h1
      have h4 : ¬ score < t.warningScoreMin := not_lt.mpr h2
      rw [if_pos h2]
      exact ⟨⟨fun e => absurd e.symm d1, fun hh => absurd hh h1⟩,
        ⟨fun _ => ⟨h2, h3⟩, fun _ => rfl⟩,
        ⟨fun e => absurd e d3, fun hc => absurd hc h4⟩⟩
    · have h3 : score < t.warningScoreMin := not_le.mp h2
      rw [if_neg h2]
      exact ⟨⟨fun e => absurd e.symm d2, fun hh => absurd hh h1⟩,
        ⟨fun e => absurd e.symm d3, fun hw => absurd hw.1 h2⟩,
        ⟨fun _ => h3, fun _ => rfl⟩⟩

/-! ## Bias analysis: risk level, diversity score, recommendations -/

theorem riskStrings_distinct :
    lit "Low Risk" ≠ lit "Medium Risk" ∧ lit "Low Risk" ≠ lit "High Risk" ∧
      lit "Low Risk" ≠ lit "Critical Risk" ∧ lit "Medium Risk" ≠ lit "High Risk" ∧
      lit "Medium Risk" ≠ lit "Critical Risk" ∧ lit "High Risk" ≠ lit "Critical Risk" := by
  decide

theorem riskLevelOf_iff (b : ℤ) :
    (riskLevelOf b = lit "Low Risk" ↔ max b 0 ≥ 80) ∧
    (riskLevelOf b = lit "Medium Risk" ↔ 60 ≤ max b 0 ∧ max b 0 < 80) ∧
    (riskLevelOf b = lit "High Risk" ↔ 40 ≤ max b 0 ∧ max b 0 < 60) ∧
    (riskLevelOf b = lit "Critical Risk" ↔ max b 0 < 40) := by
  obtain ⟨d12, d13, d14, d23, d24, d34⟩ := riskStrings_distinct
  unfold riskLevelOf
  by_cases h1 : b ≥ 80
  · rw [if_pos h1]
    exact ⟨⟨fun _ => by omega, fun _ => rfl⟩,
      ⟨fun e => absurd e d12, fun h => by omega⟩,
      ⟨fun e => absurd e d13, fun h => by omega⟩,
      ⟨fun e => absurd e d14, fun h => by omega⟩⟩
  · rw [if_neg h1]
    by_cases h2 : b ≥ 60
    · rw [if_pos h2]
      exact ⟨⟨fun e => absurd e.symm d12, fun h => by omega⟩,
        ⟨fun _ => by omega, fun _ => rfl⟩,
        ⟨fun e => absurd e d23, fun h => by omega⟩,
        ⟨fun e => absurd e d24, fun h => by omega⟩⟩
    · rw [if_neg h2]
      by_cases h3 : b ≥ 40
      · rw [if_pos h3]
        exact ⟨⟨fun e => absurd e.symm d13, fun h => by omega⟩,
          ⟨fun e => absurd e.symm d23, fun h => by omega⟩,
          ⟨fun _ => by omega, fun _ => rfl⟩,
          ⟨fun e => absurd e d34, fun h => by omega⟩⟩
      · rw [if_neg h3]
        exact ⟨⟨fun e => absurd e.symm d14, fun h => by omega⟩,
          ⟨fun e => absurd e.symm d24, fun h => by omega⟩,
          ⟨fun e => absurd e.symm d34, fun h => by omega⟩,
          ⟨fun _ => by omega, fun _ => rfl⟩⟩

theorem bonus_foldl (p : JsString → Bool) (l : List JsString) (a : ℤ) :
    l.foldl (fun sc term => if p term then sc + 3 else sc) a =
      a + 3 * ((l.filter p).length : ℤ) := by
  induction l generalizing a with
  | nil => simp
  | cons x l ih =>
    rw [List.foldl_cons, ih]
    by_cases hx : p x = true
    · simp only [hx, if_true, List.filter_cons_of_pos, List.length_cons]
      push_cast
      ring
    · simp only [hx, if_false, Bool.false_eq_true]
      rw [List.filter_cons_of_neg hx]

theorem calculateDiversityScore_eq (text : JsString) (foundBiases : List BiasFinding) :
    calculateDiversityScore text foundBiases =
      max 0 (min 100 (100 - 5 * (foundBiases.length : ℤ) +
        3 * ((diversityTerms.filter (fun term => includes (toLowerCase text) term)).length : ℤ))) := by
  unfold calculateDiversityScore
  simp only [bonus_foldl]
  congr 2
  ring

theorem mem_jsUnique (l : List JsString) (x : JsString) : x ∈ jsUnique l ↔ x ∈ l := by
  induction l with
  | nil => simp [jsUnique]
  | cons a l ih =>
    simp only [jsUnique, List.mem_cons, List.mem_filter, ih, decide_eq_true_eq]
    constructor
    · rintro (h | ⟨h, _⟩)
      · exact Or.inl h
      · exact Or.inr h
    · intro h
      by_cases hxa : x = a
      · exact Or.inl hxa
      · rcases h with h | h
        · exact Or.inl h
        · exact Or.inr ⟨h, hxa⟩

theorem jsUnique_nodup (l : List JsString) : (jsUnique l).Nodup := by
  induction l with
  | nil => simp [jsUnique]
  | cons a l ih =>
    simp only [jsUnique, List.nodup_cons, List.mem_filter, decide_eq_true_eq, not_and,
      not_not]
    exact ⟨fun _ => trivial, ih.filter _⟩

theorem jsUnique_sublist (l : List JsString) : (jsUnique l).Sublist l := by
  induction l with
  | nil => simp [jsUnique]
  | cons a l ih =>
    simp only [jsUnique]
    exact List.Sublist.cons₂ a ((List.filter_sublist _).trans ih)

theorem jsUnique_firstOccurrence (l : List JsString) :
    (jsUnique l).Pairwise (fun x y => firstIndex x l < firstIndex y l) := by
  induction l with
  | nil => simp [jsUnique]
  | cons a l ih =>
    simp only [jsUnique, List.pairwise_cons]
    constructor
    · intro y hy
      have hya : ¬ a = y := by
        have := (List.mem_filter.mp hy).2
        intro h
        simp [h] at this
      simp only [firstIndex, if_true, if_neg hya]
      exact Nat.succ_pos _
    · have hsub : ((jsUnique l).filter (fun y => decide (y ≠ a))).Pairwise
          (fun x y => firstIndex x l < firstIndex y l) := ih.sublist (List.filter_sublist _)
      apply hsub.imp_of_mem
      intro x y hx hy hlt
      have hxa : ¬ a = x := by
        have := (List.mem_filter.mp hx).2
        intro h
        simp [h] at this
      have hya : ¬ a = y := by
        have := (List.mem_filter.mp hy).2
        intro h
        simp [h] at this
      simp only [firstIndex, if_neg hxa, if_neg hya]
      exact Nat.succ_lt_succ hlt

theorem mem_suggestions_foldl (foundBiases : List BiasFinding) (acc : List JsString)
    (x : JsString) :
    x ∈ foundBiases.foldl (fun acc bias => acc ++ bias.suggestions) acc ↔
      x ∈ acc ∨ ∃ bias ∈ foundBiases, x ∈ bias.suggestions := by
  induction foundBiases generalizing acc with
  | nil => simp
  | cons b bs ih =>
    rw [List.foldl_cons, ih]
    simp only [List.mem_append, List.mem_cons, exists_eq_or_imp]
    tauto

/-! ## Bias score: appended text never raises it -/

theorem isWordUnit_lowerUnit (c : Nat) : isWordUnit (lowerUnit c) = isWordUnit c := by
  unfold lowerUnit
  by_cases h : 65 ≤ c ∧ c ≤ 90
  · rw [if_pos h]
    have h1 : isWordUnit c = true := by
      simp [isWordUnit, h.1, h.2]
    have h2 : isWordUnit (c + 32) = true := by
      have a1 : 97 ≤ c + 32 := by omega
      have a2 : c + 32 ≤ 122 := by omega
      simp [isWordUnit, a1, a2]
    rw [h1, h2]
  · rw [if_neg h]

theorem isWordSide_head_append (y u : JsString) (ws : Nat) (hws : isWordUnit ws = false) :
    isWordSide ((y ++ ws :: u).head?) = isWordSide (y.head?) := by
  cases y with
  | nil => simp [isWordSide, hws]
  | cons c y => rfl

theorem startsWith_short (x w : JsString) (h : x.length < w.length) : startsWith x w = false := by
  induction x generalizing w with
  | nil =>
    cases w with
    | nil => simp at h
    | cons d w => rfl
  | cons c x ih =>
    cases w with
    | nil => simp at h
    | cons d w =>
      simp only [List.length_cons] at h
      simp only [startsWith, ih w (by omega), Bool.and_false]

theorem startsWith_append_of_le (x s w : JsString) (h : w.length ≤ x.length) :
    startsWith (x ++ s) w = startsWith x w := by
  induction x generalizing w with
  | nil =>
    cases w with
    | nil => cases s <;> rfl
    | cons d w => simp at h
  | cons c x ih =>
    cases w with
    | nil => rfl
    | cons d w =>
      simp only [List.length_cons] at h
      have e : startsWith (c :: x ++ s) (d :: w) = (c == d && startsWith (x ++ s) w) := rfl
      have e2 : startsWith (c :: x) (d :: w) = (c == d && startsWith x w) := rfl
      rw [e, e2, ih w (by omega)]

theorem wordAt_short (w : JsString) (before : Option Nat) (x : JsString)
    (h : x.length < w.length) : wordAt w before x = false := by
  unfold wordAt
  rw [startsWith_short x w h]
  rfl

theorem wordAt_append (w : JsString) (before : Option Nat) (x u : JsString) (ws : Nat)
    (hws : isWordUnit ws = false) (h : w.length ≤ x.length) :
    wordAt w before (x ++ ws :: u) = wordAt w before x := by
  unfold wordAt
  have h1 := startsWith_append_of_le x (ws :: u) w h
  have h2 : wordBoundary before ((x ++ ws :: u).head?) = wordBoundary before (x.head?) := by
    unfold wordBoundary
    rw [isWordSide_head_append x u ws hws]
  have h3 : (before :: (x ++ ws :: u).map some).getD w.length none =
      (before :: x.map some).getD w.length none := by
    rw [List.map_append, ← List.cons_append]
    apply List.getD_append
    simp only [List.length_cons, List.length_map]
    omega
  have h4 : isWordSide (((x ++ ws :: u).drop w.length).head?) =
      isWordSide ((x.drop w.length).head?) := by
    rw [List.drop_append_of_le_length h]
    exact isWordSide_head_append _ u ws hws
  rw [h1, h2, h3]
  unfold wordBoundary
  rw [h4]

theorem countMatchesFrom_short (w : JsString) (skip : Nat) (before : Option Nat) (x : JsString)
    (h : x.length < w.length) : countMatchesFrom w skip before x = 0 := by
  induction x generalizing skip before with
  | nil => cases skip <;> rfl
  | cons c x ih =>
    have hx : x.length < w.length := by
      simp only [List.length_cons] at h
      omega
    cases skip with
    | succ k =>
      have e : countMatchesFrom w (k + 1) before (c :: x) = countMatchesFrom w k (some c) x := rfl
      rw [e]
      exact ih k (some c) hx
    | zero =>
      have e : countMatchesFrom w 0 before (c :: x) =
          if wordAt w before (c :: x) then 1 + countMatchesFrom w (w.length - 1) (some c) x
          else countMatchesFrom w 0 (some c) x := rfl
      rw [e, wordAt_short w before (c :: x) h]
      simp only [Bool.false_eq_true, if_false]
      exact ih 0 (some c) hx

theorem countMatchesFrom_append_le (w : JsString) (skip : Nat) (before : Option Nat)
    (x u : JsString) (ws : Nat) (hws : isWordUnit ws = false) :
    countMatchesFrom w skip before x ≤ countMatchesFrom w skip before (x ++ ws :: u) := by
  induction x generalizing skip before with
  | nil =>
    have e : countMatchesFrom w skip before [] = 0 := by cases skip <;> rfl
    rw [e]
    exact Nat.zero_le _
  | cons c x ih =>
    cases skip with
    | succ k =>
      have e1 : countMatchesFrom w (k + 1) before (c :: x) = countMatchesFrom w k (some c) x := rfl
      have e2 : countMatchesFrom w (k + 1) before (c :: x ++ ws :: u) =
          countMatchesFrom w k (some c) (x ++ ws :: u) := rfl
      rw [e1, e2]
      exact ih k (some c)
    | zero =>
      have e1 : countMatchesFrom w 0 before (c :: x) =
          if wordAt w before (c :: x) then 1 + countMatchesFrom w (w.length - 1) (some c) x
          else countMatchesFrom w 0 (some c) x := rfl
      have e2 : countMatchesFrom w 0 before (c :: x ++ ws :: u) =
          if wordAt w before (c :: x ++ ws :: u) then
            1 + countMatchesFrom w (w.length - 1) (some c) (x ++ ws :: u)
          else countMatchesFrom w 0 (some c) (x ++ ws :: u) := rfl
      rw [e1, e2]
      by_cases hlen : w.length ≤ (c :: x).length
      · rw [wordAt_append w before (c :: x) u ws hws hlen]
        by_cases hm : wordAt w before (c :: x) = true
        · rw [if_pos hm, if_pos hm]
          have := ih (w.length - 1) (some c)
          omega
        · rw [if_neg hm, if_neg hm]
          exact ih 0 (some c)
      · have hshort : (c :: x).length < w.length := by omega
        rw [wordAt_short w before (c :: x) hshort]
        simp only [Bool.false_eq_true, if_false]
        have hx : x.length < w.length := by
          simp only [List.length_cons] at hshort
          omega
        rw [countMatchesFrom_short w 0 (some c) x hx]
        exact Nat.zero_le _

theorem toLowerCase_append (a b : JsString) :
    toLowerCase (a ++ b) = toLowerCase a ++ toLowerCase b := by
  unfold toLowerCase
  exact List.map_append _ _ _

theorem matchCount_append_le (term text u : JsString) (ws : Nat)
    (hws : isWordUnit ws = false) :
    matchCount term text ≤ matchCount term (text ++ ws :: u) := by
  unfold matchCount
  rw [toLowerCase_append]
  have e : toLowerCase (ws :: u) = lowerUnit ws :: toLowerCase u := rfl
  rw [e]
  apply countMatchesFrom_append_le
  rw [isWordUnit_lowerUnit]
  exact hws

theorem isWordUnit_of_isWhiteSpace (c : Nat) (h : isWhiteSpace c = true) :
    isWordUnit c = false := by
  unfold isWhiteSpace at h
  unfold isWordUnit
  simp only [Bool.or_eq_true, Bool.and_eq_true, decide_eq_true_eq, beq_iff_eq] at h
  simp only [Bool.or_eq_false_iff, Bool.and_eq_false_iff, decide_eq_false_iff_not, beq_eq_false_iff_ne]
  omega

theorem scanTerm_fst (text : JsString) (config : BiasCategory) (st : ℤ × List BiasFinding)
    (term : JsString) :
    (scanTerm text config st term).1 = st.1 - config.weight * (matchCount term text : ℤ) := by
  unfold scanTerm
  by_cases h : matchCount term text > 0
  · simp only [h, if_true]
  · have h0 : matchCount term text = 0 := by omega
    simp only [h, if_false]
    rw [h0]
    simp

theorem scanCategory_fst (text : JsString) (config : BiasCategory)
    (st : ℤ × List BiasFinding) :
    (scanCategory text st config).1 =
      st.1 - config.weight * ((config.terms.map (fun term => matchCount term text)).sum : ℤ) := by
  unfold scanCategory
  generalize config.terms = terms
  induction terms generalizing st with
  | nil => simp
  | cons term terms ih =>
    rw [List.foldl_cons, ih, scanTerm_fst]
    simp only [List.map_cons, List.sum_cons]
    push_cast
    ring

theorem scanCategories_fst (text : JsString) (cats : List BiasCategory)
    (st : ℤ × List BiasFinding) :
    (cats.foldl (scanCategory text) st).1 =
      st.1 - (cats.map (fun config =>
        config.weight * ((config.terms.map (fun term => matchCount term text)).sum : ℤ))).sum := by
  induction cats generalizing st with
  | nil => simp
  | cons config cats ih =>
    rw [List.foldl_cons, ih, scanCategory_fst]
    simp only [List.map_cons, List.sum_cons]
    ring

theorem scanBiases_fst_antitone (t t2 : JsString)
    (h : ∀ term, matchCount term t ≤ matchCount term t2) :
    (scanBiases t2).1 ≤ (scanBiases t).1 := by
  unfold scanBiases
  rw [scanCategories_fst, scanCategories_fst]
  have hw : ∀ config ∈ biasCategories, 0 ≤ config.weight := by decide
  have hsum : (biasCategories.map (fun config =>
        config.weight * ((config.terms.map (fun term => matchCount term t)).sum : ℤ))).sum ≤
      (biasCategories.map (fun config =>
        config.weight * ((config.terms.map (fun term => matchCount term t2)).sum : ℤ))).sum := by
    apply List.sum_le_sum
    intro config hconfig
    apply mul_le_mul_of_nonneg_left _ (hw config hconfig)
    have : (config.terms.map (fun term => matchCount term t)).sum ≤
        (config.terms.map (fun term => matchCount term t2)).sum := by
      apply List.sum_le_sum
      intro term _
      exact h term
    exact_mod_cast this
  linarith

theorem scanTerm_inv (text : JsString) (config : BiasCategory) (st : ℤ × List BiasFinding)
    (term : JsString)
    (h : st.1 = 100 - (st.2.map (fun f => f.weight * (f.count : ℤ))).sum) :
    (scanTerm text config st term).1 =
      100 - ((scanTerm text config st term).2.map (fun f => f.weight * (f.count : ℤ))).sum := by
  unfold scanTerm
  by_cases hpos : matchCount term text > 0
  · simp only [hpos, if_true, List.map_append, List.sum_append, List.map_cons, List.map_nil,
      List.sum_cons, List.sum_nil]
    rw [h]
    ring
  · simp only [hpos, if_false]
    exact h

theorem scanCategory_inv (text : JsString) (config : BiasCategory) (st : ℤ × List BiasFinding)
    (h : st.1 = 100 - (st.2.map (fun f => f.weight * (f.count : ℤ))).sum) :
    (scanCategory text st config).1 =
      100 - ((scanCategory text st config).2.map (fun f => f.weight * (f.count : ℤ))).sum := by
  unfold scanCategory
  generalize config.terms = terms
  induction terms generalizing st with
  | nil => exact h
  | cons term terms ih =>
    rw [List.foldl_cons]
    exact ih _ (scanTerm_inv text config st term h)

theorem scanBiases_inv (text : JsString) :
    (scanBiases text).1 =
      100 - ((scanBiases text).2.map (fun f => f.weight * (f.count : ℤ))).sum := by
  unfold scanBiases
  have key : ∀ (cats : List BiasCategory) (st : ℤ × List BiasFinding),
      st.1 = 100 - (st.2.map (fun f => f.weight * (f.count : ℤ))).sum →
      (cats.foldl (scanCategory text) st).1 =
        100 - ((cats.foldl (scanCategory text) st).2.map
          (fun f => f.weight * (f.count : ℤ))).sum := by
    intro cats
    induction cats with
    | nil => intro st h; exact h
    | cons config cats ih =>
      intro st h
      rw [List.foldl_cons]
      exact ih _ (scanCategory_inv text config st h)
  exact key biasCategories (100, []) (by simp)

/-! ## Every branch of the experience match and the cultural fit is reached -/

theorem calculateExperienceMatch_under :
    calculateExperienceMatch (some phdCandidate) (some juniorJob) = 75 := by
  rw [calculateExperienceMatch_present (some phdCandidate) (some juniorJob) 1 2 rfl rfl]
  norm_num

theorem getEducationLevel_phd : getEducationLevel (Education.text (lit "PhD in Physics")) = 5 := by
  decide

theorem calculateCulturalFit_far :
    calculateCulturalFit (some phdCandidate) (some juniorJob) = 30 := by
  have hj : getJobLevel (lit "Junior Developer") = 2 := by decide
  rw [calculateCulturalFit_present (some phdCandidate) (some juniorJob)
    (Education.text (lit "PhD in Physics")) (lit "Junior Developer") rfl rfl (by decide)
    (by decide), getEducationLevel_phd, hj]
  norm_num

theorem calculateCulturalFit_two_apart :
    calculateCulturalFit (some phdCandidate) (some developerJob) = 50 := by
  have hj : getJobLevel (lit "Developer") = 3 := by decide
  rw [calculateCulturalFit_present (some phdCandidate) (some developerJob)
    (Education.text (lit "PhD in Physics")) (lit "Developer") rfl rfl (by decide)
    (by decide), getEducationLevel_phd, hj]
  norm_num

theorem calculateCulturalFit_near :
    calculateCulturalFit (some phdCandidate) (some seniorJob) = 70 := by
  have hj : getJobLevel (lit "Senior Developer") = 4 := by decide
  rw [calculateCulturalFit_present (some phdCandidate) (some seniorJob)
    (Education.text (lit "PhD in Physics")) (lit "Senior Developer") rfl rfl (by decide)
    (by decide), getEducationLevel_phd, hj]
  norm_num

/-! ## MetricsService: the receiver of the calculation methods -/

theorem thisWeights_calculationMethods : thisWeights ConfigObject.calculationMethods = none := by
  have h : (ownKeys ConfigObject.calculationMethods).contains (lit "WEIGHTS") = false := by decide
  unfold thisWeights
  rw [h]
  rfl

theorem thisHealthThresholds_calculationMethods :
    thisHealthThresholds ConfigObject.calculationMethods = none := by
  decide

theorem calculatePipelineHealth_throws (metrics : ServiceMetrics) :
    MetricsService.calculatePipelineHealth metrics = none := by
  unfold MetricsService.calculatePipelineHealth HEALTH_SCORE
  rw [thisWeights_calculationMethods]

theorem getHealthStatus_throws (score : ℚ) : MetricsService.getHealthStatus score = none := by
  unfold MetricsService.getHealthStatus GET_STATUS
  rw [thisHealthThresholds_calculationMethods]

theorem thisWeights_metricsConfig : thisWeights ConfigObject.metricsConfig = some configWeights := by
  have h : (ownKeys ConfigObject.metricsConfig).contains (lit "WEIGHTS") = true := by decide
  unfold thisWeights
  rw [h]
  rfl

theorem HEALTH_SCORE_metricsConfig (metrics : ServiceMetrics) :
    HEALTH_SCORE ConfigObject.metricsConfig metrics =
      some (metrics.candidateVolume * (2 / 5) + metrics.applicationRate * (3 / 10) +
        metrics.timeToFill * (1 / 5) + metrics.diversityRatio * (1 / 10)) := by
  unfold HEALTH_SCORE
  rw [thisWeights_metricsConfig]
  rfl

theorem mathRound_intCast (n : ℤ) : mathRound (n : ℚ) = n := by
  unfold mathRound
  rw [Int.floor_eq_iff]
  constructor <;> norm_num

/-! ## Ranges of the pipeline sub-scores -/

theorem calculateCandidateVolumeHealth_bounds (candidates : List SnapshotCandidate)
    (jobs : List SnapshotJob) (t : HealthThresholds) (h : 0 < t.minCandidatesPerJob) :
    0 ≤ calculateCandidateVolumeHealth candidates jobs t ∧
      calculateCandidateVolumeHealth candidates jobs t ≤ 100 := by
  unfold calculateCandidateVolumeHealth
  simp only
  split
  · exact ⟨by norm_num, by norm_num⟩
  · apply mathRound_bounds
    · apply le_min (by norm_num)
      apply mul_nonneg _ (by norm_num)
      apply div_nonneg _ (le_of_lt h)
      exact div_nonneg (Nat.cast_nonneg _) (Nat.cast_nonneg _)
    · exact min_le_left _ _

theorem calculateApplicationRateHealth_bounds (recentApplications : List SnapshotApplication)
    (t : HealthThresholds) (h : 0 < t.minWeeklyApplications) :
    0 ≤ calculateApplicationRateHealth recentApplications t ∧
      calculateApplicationRateHealth recentApplications t ≤ 100 := by
  unfold calculateApplicationRateHealth
  simp only
  apply mathRound_bounds
  · apply le_min (by norm_num)
    apply mul_nonneg _ (by norm_num)
    exact div_nonneg (Nat.cast_nonneg _) (le_of_lt h)
  · exact min_le_left _ _

theorem calculateTimeToFillHealth_bounds (jobs : List SnapshotJob)
    (applications : List SnapshotApplication) (t : HealthThresholds) :
    0 ≤ calculateTimeToFillHealth jobs applications t ∧
      calculateTimeToFillHealth jobs applications t ≤ 100 := by
  unfold calculateTimeToFillHealth
  simp only
  split
  · exact ⟨by norm_num, by norm_num⟩
  · apply mathRound_bounds
    · exact le_max_left _ _
    · exact max_le (by norm_num) (min_le_left _ _)

theorem calculateDiversityRatio_nonneg (candidates : List SnapshotCandidate) :
    0 ≤ calculateDiversityRatio candidates := by
  unfold calculateDiversityRatio
  split
  · exact le_refl 0
  · exact div_nonneg (Nat.cast_nonneg _) (Nat.cast_nonneg _)

theorem calculateDiversityHealth_bounds (candidates : List SnapshotCandidate)
    (t : HealthThresholds) (h : 0 < t.minDiversityRatio) :
    0 ≤ calculateDiversityHealth candidates t ∧ calculateDiversityHealth candidates t ≤ 100 := by
  unfold calculateDiversityHealth
  simp only
  apply mathRound_bounds
  · apply le_min (by norm_num)
    apply mul_nonneg _ (by norm_num)
    exact div_nonneg (calculateDiversityRatio_nonneg candidates) (le_of_lt h)
  · exact min_le_left _ _

theorem calculateOverallHealthScore_bounds (m : HealthMetrics) (t : HealthThresholds)
    (hc : 0 ≤ m.candidateVolumeHealth ∧ m.candidateVolumeHealth ≤ 100)
    (ha : 0 ≤ m.applicationRateHealth ∧ m.applicationRateHealth ≤ 100)
    (ht : 0 ≤ m.timeToFillHealth ∧ m.timeToFillHealth ≤ 100)
    (hd : 0 ≤ m.diversityHealth ∧ m.diversityHealth ≤ 100)
    (w1 : 0 ≤ t.weights.candidateVolume) (w2 : 0 ≤ t.weights.applicationRate)
    (w3 : 0 ≤ t.weights.timeToFill) (w4 : 0 ≤ t.weights.diversityRatio)
    (hsum : t.weights.candidateVolume + t.weights.applicationRate + t.weights.timeToFill +
      t.weights.diversityRatio = 100) :
    0 ≤ calculateOverallHealthScore m t ∧ calculateOverallHealthScore m t ≤ 100 := by
  unfold calculateOverallHealthScore
  simp only
  have p1 := mul_nonneg hc.1 w1
  have p2 := mul_nonneg ha.1 w2
  have p3 := mul_nonneg ht.1 w3
  have p4 := mul_nonneg hd.1 w4
  have q1 := mul_le_mul_of_nonneg_right hc.2 w1
  have q2 := mul_le_mul_of_nonneg_right ha.2 w2
  have q3 := mul_le_mul_of_nonneg_right ht.2 w3
  have q4 := mul_le_mul_of_nonneg_right hd.2 w4
  apply mathRound_bounds
  · linarith
  · linarith

theorem calculateOverallHealthScore_example :
    calculateOverallHealthScore exampleMetrics getDefaults = 62 := by
  have h : (20 : ℚ) * 40 / 100 + 90 * 30 / 100 + 90 * 20 / 100 + 90 * 10 / 100 = ((62 : ℤ) : ℚ) := by
    norm_num
  simp only [calculateOverallHealthScore, exampleMetrics, getDefaults]
  rw [h, mathRound_intCast]

theorem getStatusFromScore_example : getStatusFromScore 62 getDefaults = lit "warning" := by
  simp only [getStatusFromScore, getDefaults]
  norm_num

theorem identifyTriggers_example :
    identifyTriggers exampleMetrics getDefaults = [lit "LOW_CANDIDATE_VOLUME"] := by
  simp only [identifyTriggers, exampleMetrics]
  norm_num

/-! ## Triggers, recommendations and alerts -/

theorem threshold_cases (x : ℚ) :
    (x < 30 ∧ x < 60) ∨ (¬ x < 30 ∧ x < 60) ∨ (¬ x < 30 ∧ ¬ x < 60) := by
  by_cases h1 : x < 30
  · exact Or.inl ⟨h1, by linarith⟩
  · by_cases h2 : x < 60
    · exact Or.inr (Or.inl ⟨h1, h2⟩)
    · exact Or.inr (Or.inr ⟨h1, h2⟩)

theorem alerts_within_triggers (m : HealthMetrics) (t : HealthThresholds) :
    (∀ a ∈ generateAlerts m t, a.type ∈ identifyTriggers m t) ∧
      ((generateAlerts m t).map (fun a => a.type)).Nodup ∧
      (generateAlerts m t).length ≤ 4 ∧
      ((∃ a ∈ generateAlerts m t, a.type = lit "LOW_CANDIDATE_VOLUME") ↔
        lit "LOW_CANDIDATE_VOLUME" ∈ identifyTriggers m t) := by
  rcases threshold_cases m.candidateVolumeHealth with ⟨a1, a2⟩ | ⟨a1, a2⟩ | ⟨a1, a2⟩ <;>
    rcases threshold_cases m.applicationRateHealth with ⟨b1, b2⟩ | ⟨b1, b2⟩ | ⟨b1, b2⟩ <;>
    rcases threshold_cases m.timeToFillHealth with ⟨c1, c2⟩ | ⟨c1, c2⟩ | ⟨c1, c2⟩ <;>
    rcases threshold_cases m.diversityHealth with ⟨d1, d2⟩ | ⟨d1, d2⟩ | ⟨d1, d2⟩ <;>
    simp only [generateAlerts, identifyTriggers, a1, a2, b1, b2, c1, c2, d1, d2, if_true,
      if_false, List.nil_append, List.cons_append] <;>
    decide

theorem recommendations_of_triggers (m : HealthMetrics) (t : HealthThresholds) :
    (PipelineHealthCalculator.generateRecommendations (identifyTriggers m t)).Nodup ∧
      (PipelineHealthCalculator.generateRecommendations (identifyTriggers m t)).length =
        4 * (identifyTriggers m t).length := by
  by_cases a2 : m.candidateVolumeHealth < 60 <;>
    by_cases b2 : m.applicationRateHealth < 60 <;>
    by_cases c2 : m.timeToFillHealth < 60 <;>
    by_cases d2 : m.diversityHealth < 60 <;>
    simp only [identifyTriggers, a2, b2, c2, d2, if_true, if_false, List.nil_append,
      List.cons_append] <;>
    decide

theorem alerts_below_30 (m : HealthMetrics) (t : HealthThresholds) :
    (m.candidateVolumeHealth < 30 → ∃ a ∈ generateAlerts m t,
        a.type = lit "LOW_CANDIDATE_VOLUME" ∧ a.severity = lit "critical") ∧
      (m.applicationRateHealth < 30 → ∃ a ∈ generateAlerts m t,
        a.type = lit "LOW_APPLICATION_RATE" ∧ a.severity = lit "critical") ∧
      (m.timeToFillHealth < 30 → ∃ a ∈ generateAlerts m t,
        a.type = lit "HIGH_TIME_TO_FILL" ∧ a.severity = lit "warning") ∧
      (m.diversityHealth < 30 → ∃ a ∈ generateAlerts m t,
        a.type = lit "LOW_DIVERSITY_RATIO" ∧ a.severity = lit "warning") := by
  rcases threshold_cases m.candidateVolumeHealth with ⟨a1, a2⟩ | ⟨a1, a2⟩ | ⟨a1, a2⟩ <;>
    by_cases b1 : m.applicationRateHealth < 30 <;>
    by_cases c1 : m.timeToFillHealth < 30 <;>
    by_cases d1 : m.diversityHealth < 30 <;>
    simp only [generateAlerts, a1, a2, b1, c1, d1, if_true, if_false, List.nil_append,
      List.cons_append] <;>
    decide

theorem generateAlerts_slowFill :
    generateAlerts slowFillMetrics getDefaults = [timeToFillAlert] := by
  simp only [generateAlerts, slowFillMetrics]
  norm_num

/-! ## `isSkillMatch`: symmetry and one-edit tolerance -/

theorem similarityAbove_symm (a b : JsString) : similarityAbove a b = similarityAbove b a := by
  unfold similarityAbove
  rw [decide_eq_decide, editDistance_symm a b, Nat.max_comm a.length b.length]
  rw [and_comm]

theorem lookup_mem (k : JsString) (l : List (JsString × List JsString)) (xs : List JsString)
    (h : l.lookup k = some xs) : ∃ e ∈ l, e.2 = xs := by
  induction l with
  | nil => cases h
  | cons e l ih =>
    obtain ⟨k2, v⟩ := e
    rw [List.lookup_cons] at h
    split at h
    · exact ⟨(k2, v), List.mem_cons_self _ _, Option.some.inj h⟩
    · obtain ⟨e2, he2, hv⟩ := ih h
      exact ⟨e2, List.mem_cons_of_mem _ he2, hv⟩

theorem synonyms_not_inherited :
    ∀ e ∈ skillMappingsTable, ∀ x ∈ e.2, skillMappings x ≠ Lookup.inherited := by
  decide

theorem optionalIncludes_true_safe (k x : JsString)
    (h : optionalIncludes (skillMappings k) x = some true) :
    skillMappings x ≠ Lookup.inherited := by
  cases hk : skillMappings k with
  | array xs =>
    rw [hk] at h
    simp only [optionalIncludes, Option.some.injEq] at h
    have hx : x ∈ xs := List.mem_of_elem_eq_true h
    unfold skillMappings at hk
    cases hl : skillMappingsTable.lookup k with
    | none =>
      rw [hl] at hk
      simp only at hk
      split at hk <;> cases hk
    | some ys =>
      rw [hl] at hk
      simp only [Lookup.array.injEq] at hk
      obtain ⟨e, he, hv⟩ := lookup_mem k skillMappingsTable ys hl
      apply synonyms_not_inherited e he x
      rw [hv, hk]
      exact hx
  | missing => rw [hk] at h; cases h
  | inherited => rw [hk] at h; cases h

theorem optionalIncludes_none (l : Lookup) (x : JsString) (h : optionalIncludes l x = none) :
    l = Lookup.inherited := by
  cases l with
  | array xs => cases h
  | missing => cases h
  | inherited => rfl

theorem optionalIncludes_inherited (x : JsString) :
    optionalIncludes Lookup.inherited x = none := rfl

theorem isSkillMatchStr_symm (c j : JsString) : isSkillMatchStr c j = isSkillMatchStr j c := by
  unfold isSkillMatchStr
  by_cases h1 : c = [] ∨ j = []
  · have h1b : j = [] ∨ c = [] := h1.symm
    rw [if_pos h1, if_pos h1b]
  · have h1b : ¬ (j = [] ∨ c = []) := fun h => h1 h.symm
    rw [if_neg h1, if_neg h1b]
    by_cases h2 : c = j
    · rw [if_pos h2, if_pos h2.symm]
    · have h2b : ¬ j = c := fun h => h2 h.symm
      rw [if_neg h2, if_neg h2b, similarityAbove_symm (toLowerCase j) (toLowerCase c)]
      cases hA : optionalIncludes (skillMappings (toLowerCase j)) (toLowerCase c) with
      | none =>
        have hinh := optionalIncludes_none _ _ hA
        cases hB : optionalIncludes (skillMappings (toLowerCase c)) (toLowerCase j) with
        | none => rfl
        | some b =>
          cases b with
          | true => exact absurd hinh (optionalIncludes_true_safe _ _ hB)
          | false => rfl
      | some a =>
        cases hB : optionalIncludes (skillMappings (toLowerCase c)) (toLowerCase j) with
        | none =>
          have hinh := optionalIncludes_none _ _ hB
          cases a with
          | true => exact absurd hinh (optionalIncludes_true_safe _ _ hA)
          | false => rfl
        | some b =>
          cases a <;> cases b <;> rfl

theorem toLowerCase_length (s : JsString) : (toLowerCase s).length = s.length := by
  unfold toLowerCase
  exact List.length_map _ _

theorem isSkillMatchStr_one_edit_eq (c j : JsString) (hc : c ≠ []) (hj : j ≠ [])
    (hd : editDistance (toLowerCase c) (toLowerCase j) = 1)
    (hsc : SafeKey c) (hsj : SafeKey j) :
    isSkillMatchStr c j =
      some (decide (optionalIncludes (skillMappings (toLowerCase j)) (toLowerCase c) =
            some true) ||
          decide (optionalIncludes (skillMappings (toLowerCase c)) (toLowerCase j) =
            some true) ||
          decide (5 < max c.length j.length)) := by
  unfold isSkillMatchStr
  have h1 : ¬ (c = [] ∨ j = []) := by
    intro h
    rcases h with h | h
    · exact hc h
    · exact hj h
  have h2 : ¬ c = j := by
    intro h
    rw [h, (editDistance_eq_zero_iff _ _).mpr rfl] at hd
    cases hd
  rw [if_neg h1, if_neg h2]
  obtain ⟨a, ha⟩ := optionalIncludes_isSome _ (toLowerCase c) hsj
  obtain ⟨b, hb⟩ := optionalIncludes_isSome _ (toLowerCase j) hsc
  have hsim : similarityAbove (toLowerCase c) (toLowerCase j) =
      decide (5 < max c.length j.length) := by
    unfold similarityAbove
    rw [hd, toLowerCase_length, toLowerCase_length, decide_eq_decide]
    have hcl : c.length ≠ 0 := fun h => hc (List.length_eq_zero.mp h)
    constructor
    · rintro (⟨h, _⟩ | h)
      · exact absurd h hcl
      · omega
    · intro h
      right
      omega
  rw [ha, hb, hsim]
  cases a <;> cases b <;> simp

/-! ## The success probability and the score above the documented ranges -/

theorem skillAlignment_synonym :
    skillAlignment (some synonymCandidate) (some synonymJob) = some 75 := by
  have hv : validSkills [JsVal.str (lit "js"), JsVal.str (lit "javascript"),
      JsVal.str (lit "react")] = [lit "js", lit "javascript", lit "react"] := by decide
  have hc : jsCount (fun skill =>
      jsSome (fun reqSkill => isSkillMatch (JsVal.str skill) reqSkill)
        [JsVal.str (lit "javascript")])
      [lit "js", lit "javascript", lit "react"] = some 3 := by
    simp only [jsCount, jsSome, isSkillMatch_str]
    decide
  simp only [skillAlignment, synonymCandidate, synonymJob, Option.bind, hv, hc]
  norm_num

theorem calculateSuccessProbability_synonym :
    calculateSuccessProbability (some synonymCandidate) (some synonymJob) = some 100 := by
  have he : experienceAlignment (some synonymCandidate) (some synonymJob) = 10 := by
    simp only [experienceAlignment, synonymCandidate, synonymJob, Option.bind]
    norm_num
  have hk : companyStability (some synonymCandidate) = 10 := by
    have ht : truthyStr (some (lit "Acme")) = true := by decide
    simp only [companyStability, synonymCandidate, Option.bind, ht, if_true]
  simp only [calculateSuccessProbability, skillAlignment_synonym, he, hk]
  norm_num

theorem calculateExperienceMatch_synonym :
    calculateExperienceMatch (some synonymCandidate) (some synonymJob) = 195 / 2 := by
  rw [calculateExperienceMatch_present (some synonymCandidate) (some synonymJob) 19 20 rfl rfl]
  norm_num

theorem calculateCulturalFit_synonym :
    calculateCulturalFit (some synonymCandidate) (some synonymJob) = 70 := by
  have he : getEducationLevel (Education.text (lit "Bachelor of Science")) = 3 := by decide
  have hj : getJobLevel (lit "Developer") = 3 := by decide
  rw [calculateCulturalFit_present (some synonymCandidate) (some synonymJob)
    (Education.text (lit "Bachelor of Science")) (lit "Developer") rfl rfl (by decide)
    (by decide), he, hj]
  norm_num

theorem calculateTechnicalMatch_synonym :
    calculateTechnicalMatch
      [JsVal.str (lit "js"), JsVal.str (lit "javascript"), JsVal.str (lit "react")]
      [JsVal.str (lit "javascript")] [JsVal.str (lit "react")] = some 100 := by
  have l1 : lowerAll [JsVal.str (lit "js"), JsVal.str (lit "javascript"),
      JsVal.str (lit "react")] = some [lit "js", lit "javascript", lit "react"] := by decide
  have l2 : lowerAll [JsVal.str (lit "javascript")] = some [lit "javascript"] := by decide
  have l3 : lowerAll [JsVal.str (lit "react")] = some [lit "react"] := by decide
  have b1 : bucketMatches [lit "js", lit "javascript", lit "react"] [lit "javascript"] =
      some 1 := by
    simp only [bucketMatches, jsCount, jsSome, isSkillMatch_str]
    decide
  have b2 : bucketMatches [lit "js", lit "javascript", lit "react"] [lit "react"] =
      some 1 := by
    simp only [bucketMatches, jsCount, jsSome, isSkillMatch_str]
    decide
  unfold calculateTechnicalMatch
  simp only [l1, l2, l3, b1, b2]
  norm_num

theorem calculateMatchScore_synonym :
    calculateMatchScore
      [JsVal.str (lit "js"), JsVal.str (lit "javascript"), JsVal.str (lit "react")]
      [JsVal.str (lit "javascript")] [JsVal.str (lit "react")]
      (some synonymCandidate) (some synonymJob) = some 95 := by
  simp only [calculateMatchScore, calculateTechnicalMatch_synonym,
    calculateExperienceMatch_synonym, calculateCulturalFit_synonym,
    calculateSuccessProbability_synonym, mathRound]
  have h : ⌊(0 : ℚ) + 100 * (1 / 2) + 195 / 2 * (1 / 5) + 70 * (3 / 20) + 100 * (3 / 20) +
      1 / 2⌋ = 95 := by
    rw [Int.floor_eq_iff]
    constructor <;> norm_num
  rw [h]
  rfl

/-! ## Ranges of the four sub-scores of `calculateMatchScore`, sharpened -/

theorem skillAlignment_ge (candidate : Option Candidate) (job : Option Job) (shift : ℚ)
    (h : skillAlignment candidate job = some shift) : -15 ≤ shift := by
  unfold skillAlignment at h
  split at h
  · rename_i skills requiredSkills _ _
    simp only [] at h
    split at h
    · split at h
      · cases h
      · rename_i matched _
        simp only [Option.some.injEq] at h
        rw [← h]
        have h0 : (0 : ℚ) ≤ (matched : ℚ) / ((max requiredSkills.length 1 : Nat) : ℚ) :=
          div_nonneg (Nat.cast_nonneg _) (Nat.cast_nonneg _)
        linarith
    · simp only [Option.some.injEq] at h
      rw [← h]
      norm_num
  · simp only [Option.some.injEq] at h
    rw [← h]
    norm_num

theorem experienceAlignment_range (candidate : Option Candidate) (job : Option Job) :
    -10 ≤ experienceAlignment candidate job ∧ experienceAlignment candidate job ≤ 20 := by
  unfold experienceAlignment
  split
  · simp only []
    split_ifs <;> norm_num
  · norm_num

theorem experienceAlignment_under (candidate : Option Candidate) (job : Option Job) (c r : ℚ)
    (hc : candidate.bind (fun c => c.experience) = some c)
    (hr : job.bind (fun j => j.experience) = some r) (hlt : c < r) :
    experienceAlignment candidate job ≤ 10 := by
  unfold experienceAlignment
  rw [hc, hr]
  simp only []
  split_ifs with h1 h2 h3
  · norm_num
  · exfalso
    have hpos : (0 : ℚ) < max r 1 := lt_of_lt_of_le one_pos (le_max_right _ _)
    rw [ge_iff_le, le_div_iff₀ hpos, one_mul] at h2
    have : r ≤ max r 1 := le_max_left _ _
    linarith
  · norm_num
  · norm_num

theorem companyStability_range (candidate : Option Candidate) :
    0 ≤ companyStability candidate ∧ companyStability candidate ≤ 10 := by
  unfold companyStability
  split_ifs <;> norm_num

theorem calculateSuccessProbability_eq (candidate : Option Candidate) (job : Option Job)
    (p : ℚ) (h : calculateSuccessProbability candidate job = some p) :
    ∃ shift, skillAlignment candidate job = some shift ∧
      p = max 0 (min 100 (50 + shift + experienceAlignment candidate job +
        companyStability candidate)) := by
  unfold calculateSuccessProbability at h
  cases hs : skillAlignment candidate job with
  | none => rw [hs] at h; cases h
  | some shift =>
    rw [hs] at h
    simp only [Option.some.injEq] at h
    exact ⟨shift, rfl, h.symm⟩

theorem calculateSuccessProbability_ge (candidate : Option Candidate) (job : Option Job)
    (p : ℚ) (h : calculateSuccessProbability candidate job = some p) : 25 ≤ p := by
  obtain ⟨shift, hs, hp⟩ := calculateSuccessProbability_eq candidate job p h
  have h1 := skillAlignment_ge candidate job shift hs
  have h2 := (experienceAlignment_range candidate job).1
  have h3 := (companyStability_range candidate).1
  rw [hp]
  apply le_max_of_le_right
  apply le_min
  · norm_num
  · linarith

theorem calculateCulturalFit_range (candidate : Option Candidate) (job : Option Job) :
    30 ≤ calculateCulturalFit candidate job ∧ calculateCulturalFit candidate job ≤ 70 := by
  unfold calculateCulturalFit
  simp only []
  split
  · split_ifs <;> norm_num
  · norm_num

theorem calculateExperienceMatch_range (candidate : Option Candidate) (job : Option Job)
    (hjob : ∀ j r, job = some j → j.experience = some r → 0 ≤ r)
    (hcand : ∀ c x, candidate = some c → c.experience = some x → 0 ≤ x) :
    50 ≤ calculateExperienceMatch candidate job ∧ calculateExperienceMatch candidate job < 100 ∧
      (∀ c r, candidate.bind (fun c => c.experience) = some c →
        job.bind (fun j => j.experience) = some r → r ≤ c →
        calculateExperienceMatch candidate job ≤ 90) := by
  cases hc : candidate.bind (fun c => c.experience) with
  | none =>
    rw [calculateExperienceMatch_absent candidate job (Or.inl hc)]
    refine ⟨le_refl _, by norm_num, ?_⟩
    intro c r h
    cases h
  | some c =>
    cases hr : job.bind (fun j => j.experience) with
    | none =>
      rw [calculateExperienceMatch_absent candidate job (Or.inr hr)]
      refine ⟨le_refl _, by norm_num, ?_⟩
      intro c r _ h
      cases h
    | some r =>
      have hc0 : 0 ≤ c := by
        cases candidate with
        | none => cases hc
        | some cand => exact hcand cand c rfl hc
      have hr0 : 0 ≤ r := by
        cases job with
        | none => cases hr
        | some jb => exact hjob jb r rfl hr
      rw [calculateExperienceMatch_present candidate job c r hc hr]
      by_cases h1 : c = 0 ∨ r = 0
      · rw [if_pos h1]
        refine ⟨le_refl _, by norm_num, ?_⟩
        intro _ _ _ _ _
        norm_num
      · rw [if_neg h1]
        have hcne : c ≠ 0 := fun h => h1 (Or.inl h)
        have hrne : r ≠ 0 := fun h => h1 (Or.inr h)
        have hcpos : 0 < c := lt_of_le_of_ne hc0 (Ne.symm hcne)
        have hrpos : 0 < r := lt_of_le_of_ne hr0 (Ne.symm hrne)
        by_cases h2 : c ≥ r
        · rw [if_pos h2]
          have hq : 0 ≤ (c - r) / r := div_nonneg (by linarith) hr0
          have hm0 : 0 ≤ min ((c - r) / r) (1 / 2) := le_min hq (by norm_num)
          have hm1 : min ((c - r) / r) (1 / 2) ≤ 1 / 2 := min_le_right _ _
          have hv : min (100 : ℚ) (80 + min ((c - r) / r) (1 / 2) * 20) =
              80 + min ((c - r) / r) (1 / 2) * 20 := min_eq_right (by linarith)
          rw [hv]
          refine ⟨by linarith, by linarith, ?_⟩
          intro _ _ _ _ _
          linarith
        · rw [if_neg h2]
          have hlt : c < r := lt_of_not_ge h2
          have hq0 : 0 < (r - c) / r := div_pos (by linarith) hrpos
          have hq1 : (r - c) / r < 1 := by
            rw [div_lt_one hrpos]
            linarith
          have hv : max (0 : ℚ) (100 - (r - c) / r * 50) = 100 - (r - c) / r * 50 :=
            max_eq_right (by linarith)
          rw [hv]
          refine ⟨by linarith, by linarith, ?_⟩
          intro c2 r2 h3 h4 h5
          cases h3
          cases h4
          exact absurd h5 h2

theorem calculateSuccessProbability_le (candidate : Option Candidate) (job : Option Job)
    (p : ℚ) (hp : calculateSuccessProbability candidate job = some p)
    (hshift : ∀ shift, skillAlignment candidate job = some shift → shift ≤ 15) : p ≤ 95 := by
  obtain ⟨shift, hs, hpe⟩ := calculateSuccessProbability_eq candidate job p hp
  have h1 := hshift shift hs
  have h2 := (experienceAlignment_range candidate job).2
  have h3 := (companyStability_range candidate).2
  rw [hpe]
  apply max_le
  · norm_num
  · exact le_trans (min_le_right _ _) (by linarith)

theorem experienceAlignment_absent (candidate : Option Candidate) (job : Option Job)
    (h : candidate.bind (fun c => c.experience) = none ∨
      job.bind (fun j => j.experience) = none) :
    experienceAlignment candidate job = 0 := by
  unfold experienceAlignment
  rcases h with h | h
  · rw [h]
  · rw [h]
    cases candidate.bind (fun c => c.experience) <;> rfl

theorem experience_terms_le (candidate : Option Candidate) (job : Option Job)
    (hjob : ∀ j r, job = some j → j.experience = some r → 0 ≤ r)
    (hcand : ∀ c x, candidate = some c → c.experience = some x → 0 ≤ x)
    (p : ℚ) (hp : calculateSuccessProbability candidate job = some p)
    (hshift : ∀ shift, skillAlignment candidate job = some shift → shift ≤ 15) :
    calculateExperienceMatch candidate job * (1 / 5) + p * (3 / 20) ≤ 131 / 4 := by
  obtain ⟨h50, h100, h90⟩ := calculateExperienceMatch_range candidate job hjob hcand
  have hp95 := calculateSuccessProbability_le candidate job p hp hshift
  cases hc : candidate.bind (fun c => c.experience) with
  | none =>
    rw [calculateExperienceMatch_absent candidate job (Or.inl hc)]
    linarith
  | some c =>
    cases hr : job.bind (fun j => j.experience) with
    | none =>
      rw [calculateExperienceMatch_absent candidate job (Or.inr hr)]
      linarith
    | some r =>
      by_cases h2 : r ≤ c
      · have := h90 c r hc hr h2
        linarith
      · have hlt : c < r := lt_of_not_ge h2
        obtain ⟨shift, hs, hpe⟩ := calculateSuccessProbability_eq candidate job p hp
        have h1 := hshift shift hs
        have h3 := experienceAlignment_under candidate job c r hc hr hlt
        have h4 := (companyStability_range candidate).2
        have hp85 : p ≤ 85 := by
          rw [hpe]
          apply max_le
          · norm_num
          · exact le_trans (min_le_right _ _) (by linarith)
        linarith

theorem mathRound_le (x : ℚ) (n : ℤ) (h : x < (n : ℚ) + 1 / 2) : mathRound x ≤ n := by
  unfold mathRound
  have h1 : ⌊x + 1 / 2⌋ < n + 1 := by
    rw [Int.floor_lt]
    push_cast
    linarith
  omega

theorem mathRound_ge (x : ℚ) (n : ℤ) (h : (n : ℚ) - 1 / 2 ≤ x) : n ≤ mathRound x := by
  unfold mathRound
  rw [Int.le_floor]
  linarith

theorem calculateMatchScore_eq (cs rs ns : List JsVal) (candidate : Option Candidate)
    (job : Option Job) (n : ℤ) (h : calculateMatchScore cs rs ns candidate job = some n) :
    ∃ t p, calculateTechnicalMatch cs rs ns = some t ∧
      calculateSuccessProbability candidate job = some p ∧
      n = min (mathRound (0 + t * (1 / 2) + calculateExperienceMatch candidate job * (1 / 5) +
        calculateCulturalFit candidate job * (3 / 20) + p * (3 / 20))) 100 := by
  unfold calculateMatchScore at h
  cases ht : calculateTechnicalMatch cs rs ns with
  | none => rw [ht] at h; cases h
  | some t =>
    cases hp : calculateSuccessProbability candidate job with
    | none => rw [ht, hp] at h; cases h
    | some p =>
      rw [ht, hp] at h
      simp only [Option.some.injEq] at h
      exact ⟨t, p, rfl, rfl, h.symm⟩

theorem calculateMatchScore_range_aux (cs rs ns : List JsVal) (candidate : Option Candidate)
    (job : Option Job) (n : ℤ)
    (hjob : ∀ j r, job = some j → j.experience = some r → 0 ≤ r)
    (hcand : ∀ c x, candidate = some c → c.experience = some x → 0 ≤ x)
    (h : calculateMatchScore cs rs ns candidate job = some n) :
    ∃ t p, calculateTechnicalMatch cs rs ns = some t ∧
      calculateSuccessProbability candidate job = some p ∧
      n = mathRound (0 + t * (1 / 2) + calculateExperienceMatch candidate job * (1 / 5) +
        calculateCulturalFit candidate job * (3 / 20) + p * (3 / 20)) ∧
      18 ≤ n ∧ n ≤ 95 ∧
      ((∀ shift, skillAlignment candidate job = some shift → shift ≤ 15) → n ≤ 93) := by
  obtain ⟨t, p, ht, hp, hn⟩ := calculateMatchScore_eq cs rs ns candidate job n h
  obtain ⟨_, ht0, ht100, _⟩ := calculateTechnicalMatch_formula cs rs ns t ht
  obtain ⟨he50, he100, _⟩ := calculateExperienceMatch_range candidate job hjob hcand
  obtain ⟨hc30, hc70⟩ := calculateCulturalFit_range candidate job
  have hp25 := calculateSuccessProbability_ge candidate job p hp
  have hp100 := (calculateSuccessProbability_bounds candidate job p hp).2
  have hle95 : mathRound (0 + t * (1 / 2) + calculateExperienceMatch candidate job * (1 / 5) +
      calculateCulturalFit candidate job * (3 / 20) + p * (3 / 20)) ≤ 95 := by
    apply mathRound_le
    push_cast
    linarith
  have hge18 : 18 ≤ mathRound (0 + t * (1 / 2) +
      calculateExperienceMatch candidate job * (1 / 5) +
      calculateCulturalFit candidate job * (3 / 20) + p * (3 / 20)) := by
    apply mathRound_ge
    push_cast
    linarith
  have hn2 : n = mathRound (0 + t * (1 / 2) + calculateExperienceMatch candidate job * (1 / 5) +
      calculateCulturalFit candidate job * (3 / 20) + p * (3 / 20)) := by
    rw [hn]
    exact min_eq_left (by omega)
  refine ⟨t, p, ht, hp, hn2, ?_, ?_, ?_⟩
  · rw [hn2]; exact hge18
  · rw [hn2]; exact hle95
  · intro hshift
    have hx := experience_terms_le candidate job hjob hcand p hp hshift
    rw [hn2]
    apply mathRound_le
    push_cast
    linarith

/-! ## The worked example satisfies the conditions of the range theorem -/

theorem exampleCandidate_safe (c : Candidate) (sk : List JsVal) (s : JsString)
    (hc : some exampleCandidate = some c) (hsk : c.skills = some sk) (hs : JsVal.str s ∈ sk) :
    SafeKey (trim s) := by
  cases hc
  simp only [exampleCandidate, Option.some.injEq] at hsk
  rw [← hsk] at hs
  simp only [List.mem_cons, List.mem_singleton, List.not_mem_nil, or_false,
    JsVal.str.injEq] at hs
  unfold SafeKey
  rcases hs with hs | hs <;> rw [hs] <;> decide

theorem exampleJob_safe (j : Job) (rq : List JsVal) (s : JsString)
    (hj : some exampleJob = some j) (hrq : j.requiredSkills = some rq) (hs : JsVal.str s ∈ rq) :
    SafeKey s := by
  cases hj
  simp only [exampleJob, Option.some.injEq] at hrq
  rw [← hrq] at hs
  simp only [List.mem_cons, List.mem_singleton, List.not_mem_nil, or_false,
    JsVal.str.injEq] at hs
  unfold SafeKey
  rcases hs with hs | hs <;> rw [hs] <;> decide

theorem exampleJob_experience (j : Job) (r : ℚ) (hj : some exampleJob = some j)
    (hr : j.experience = some r) : 0 ≤ r := by
  cases hj
  simp only [exampleJob, Option.some.injEq] at hr
  rw [← hr]
  norm_num

theorem exampleCandidate_experience (c : Candidate) (x : ℚ)
    (hc : some exampleCandidate = some c) (hx : c.experience = some x) : 0 ≤ x := by
  cases hc
  simp only [exampleCandidate, Option.some.injEq] at hx
  rw [← hx]
  norm_num

theorem skillAlignment_example :
    skillAlignment (some exampleCandidate) (some exampleJob) = some 0 := by
  have hv : validSkills [JsVal.str (lit "javascript"), JsVal.str (lit "css")] =
      [lit "javascript", lit "css"] := by decide
  have hc : jsCount (fun skill =>
      jsSome (fun reqSkill => isSkillMatch (JsVal.str skill) reqSkill)
        [JsVal.str (lit "javascript"), JsVal.str (lit "react")])
      [lit "javascript", lit "css"] = some 1 := by
    simp only [jsCount, jsSome, isSkillMatch_str]
    decide
  simp only [skillAlignment, exampleCandidate, exampleJob, Option.bind, hv, hc]
  norm_num

theorem skillAlignment_example_le (shift : ℚ)
    (h : skillAlignment (some exampleCandidate) (some exampleJob) = some shift) :
    shift ≤ 15 := by
  rw [skillAlignment_example, Option.some.injEq] at h
  rw [← h]
  norm_num

theorem exampleCandidate_plain (c : Candidate) (sk : List JsVal) (s : JsString)
    (hc : some exampleCandidate = some c) (hsk : c.skills = some sk) (hs : JsVal.str s ∈ sk) :
    AsciiLabel s ∧ SafeKey (trim s) := by
  refine ⟨?_, exampleCandidate_safe c sk s hc hsk hs⟩
  cases hc
  simp only [exampleCandidate, Option.some.injEq] at hsk
  rw [← hsk] at hs
  simp only [List.mem_cons, List.mem_singleton, List.not_mem_nil, or_false,
    JsVal.str.injEq] at hs
  unfold AsciiLabel
  rcases hs with hs | hs <;> rw [hs] <;> decide

theorem exampleJob_plain (j : Job) (rq : List JsVal) (s : JsString)
    (hj : some exampleJob = some j) (hrq : j.requiredSkills = some rq) (hs : JsVal.str s ∈ rq) :
    AsciiLabel s ∧ SafeKey s := by
  refine ⟨?_, exampleJob_safe j rq s hj hrq hs⟩
  cases hj
  simp only [exampleJob, Option.some.injEq] at hrq
  rw [← hrq] at hs
  simp only [List.mem_cons, List.mem_singleton, List.not_mem_nil, or_false,
    JsVal.str.injEq] at hs
  unfold AsciiLabel
  rcases hs with hs | hs <;> rw [hs] <;> decide

theorem plainEntry_str (s : JsString) (ha : ∀ u ∈ s, u < 128)
    (h : skillMappings (toLowerCase s) ≠ Lookup.inherited) :
    ∃ t, JsVal.str s = JsVal.str t ∧ AsciiLabel t ∧ SafeKey t :=
  ⟨s, rfl, ha, h⟩

theorem example_candidateSkills_plain :
    ∀ v ∈ [JsVal.str (lit "javascript"), JsVal.str (lit "css")],
      ∃ s, v = JsVal.str s ∧ AsciiLabel s ∧ SafeKey s := by
  intro v hv
  simp only [List.mem_cons, List.mem_singleton, List.not_mem_nil, or_false] at hv
  rcases hv with hv | hv <;> rw [hv] <;> exact plainEntry_str _ (by decide) (by decide)

theorem example_requiredSkills_plain :
    ∀ v ∈ [JsVal.str (lit "javascript"), JsVal.str (lit "react")],
      ∃ s, v = JsVal.str s ∧ AsciiLabel s ∧ SafeKey s := by
  intro v hv
  simp only [List.mem_cons, List.mem_singleton, List.not_mem_nil, or_false] at hv
  rcases hv with hv | hv <;> rw [hv] <;> exact plainEntry_str _ (by decide) (by decide)

theorem example_niceToHaveSkills_plain :
    ∀ v ∈ [JsVal.str (lit "css")], ∃ s, v = JsVal.str s ∧ AsciiLabel s ∧ SafeKey s := by
  intro v hv
  simp only [List.mem_singleton] at hv
  rw [hv]
  exact plainEntry_str _ (by decide) (by decide)

theorem safeEntry_of_plain (l : List JsVal)
    (h : ∀ v ∈ l, ∃ s, v = JsVal.str s ∧ AsciiLabel s ∧ SafeKey s) : ∀ v ∈ l, SafeEntry v := by
  intro v hv
  obtain ⟨s, hs, _, hk⟩ := h v hv
  exact ⟨s, hs, hk⟩

theorem mathRound_near (total y : ℚ) (h1 : 73 / 4 ≤ total) (h2 : total ≤ 373 / 4)
    (hy : |y - total| < 1 / 4) :
    18 ≤ min (mathRound y) 100 ∧ min (mathRound y) 100 ≤ 93 := by
  obtain ⟨hlo, hhi⟩ := abs_lt.mp hy
  have a : 18 ≤ mathRound y := by
    apply mathRound_ge
    push_cast
    linarith
  have b : mathRound y ≤ 93 := by
    apply mathRound_le
    push_cast
    linarith
  exact ⟨le_min a (by norm_num), le_trans (min_le_left _ _) b⟩

/-! ## Readability takes three values, and its advice is never recommended -/

theorem calculateReadability_values (text : JsString) :
    calculateReadability text = 60 ∨ calculateReadability text = 80 ∨
      calculateReadability text = 100 := by
  unfold calculateReadability
  simp only []
  split_ifs <;> decide

theorem scanTerm_suggestions (text : JsString) (config : BiasCategory)
    (st : ℤ × List BiasFinding) (term : JsString) (P : List JsString → Prop)
    (hconfig : P config.suggestions) (h : ∀ f ∈ st.2, P f.suggestions) :
    ∀ f ∈ (scanTerm text config st term).2, P f.suggestions := by
  unfold scanTerm
  by_cases hpos : matchCount term text > 0
  · simp only [hpos, if_true]
    intro f hf
    rw [List.mem_append, List.mem_singleton] at hf
    rcases hf with hf | hf
    · exact h f hf
    · rw [hf]
      exact hconfig
  · simp only [hpos, if_false]
    exact h

theorem scanCategory_suggestions (text : JsString) (config : BiasCategory)
    (st : ℤ × List BiasFinding) (P : List JsString → Prop)
    (hconfig : P config.suggestions) (h : ∀ f ∈ st.2, P f.suggestions) :
    ∀ f ∈ (scanCategory text st config).2, P f.suggestions := by
  unfold scanCategory
  generalize config.terms = terms
  induction terms generalizing st with
  | nil => exact h
  | cons term terms ih =>
    rw [List.foldl_cons]
    exact ih _ (scanTerm_suggestions text config st term P hconfig h)

theorem scanBiases_suggestions (text : JsString) (P : List JsString → Prop)
    (hP : ∀ config ∈ biasCategories, P config.suggestions) :
    ∀ f ∈ (scanBiases text).2, P f.suggestions := by
  unfold scanBiases
  have key : ∀ (cats : List BiasCategory) (st : ℤ × List BiasFinding),
      (∀ config ∈ cats, P config.suggestions) → (∀ f ∈ st.2, P f.suggestions) →
      ∀ f ∈ (cats.foldl (scanCategory text) st).2, P f.suggestions := by
    intro cats
    induction cats with
    | nil => intro st _ h; exact h
    | cons config cats ih =>
      intro st hc h
      rw [List.foldl_cons]
      exact ih _ (fun c hcm => hc c (List.mem_cons_of_mem _ hcm))
        (scanCategory_suggestions text config st P (hc config (List.mem_cons_self _ _)) h)
  exact key biasCategories (100, []) hP (by simp)

theorem readability_advice_absent (text : JsString) (x : JsString)
    (hx : ∀ config ∈ biasCategories, x ∉ config.suggestions)
    (h1 : x ≠ lit "Consider updating language to be more modern and inclusive")
    (h2 : x ≠ lit "Replace outdated terms with contemporary equivalents") :
    x ∉ (analyzeBiasText text).recommendations := by
  intro hmem
  have hmem2 : x ∈ allRecommendations (scanBiases text).2 (analyzeLanguagePatterns text) := by
    have h3 : x ∈ generateRecommendations (scanBiases text).2 (analyzeLanguagePatterns text) :=
      hmem
    unfold generateRecommendations at h3
    exact (mem_jsUnique _ x).mp (List.mem_of_mem_take h3)
  have hread : ¬ (analyzeLanguagePatterns text).readability < 60 := by
    have hr : (analyzeLanguagePatterns text).readability = calculateReadability text := rfl
    rw [hr]
    rcases calculateReadability_values text with h | h | h <;> rw [h] <;> decide
  have hfind : ∀ f ∈ (scanBiases text).2, x ∉ f.suggestions :=
    scanBiases_suggestions text (fun l => x ∉ l) hx
  have hfold : x ∉ (scanBiases text).2.foldl (fun acc bias => acc ++ bias.suggestions) [] := by
    intro hin
    rw [mem_suggestions_foldl] at hin
    rcases hin with hin | ⟨bias, hb, hin⟩
    · cases hin
    · exact hfind bias hb hin
  unfold allRecommendations at hmem2
  simp only [] at hmem2
  rw [if_neg hread] at hmem2
  split_ifs at hmem2
  · rw [List.mem_append] at hmem2
    rcases hmem2 with hin | hin
    · exact hfold hin
    · rw [List.mem_cons, List.mem_singleton] at hin
      rcases hin with hin | hin
      · exact h1 hin
      · exact h2 hin
  · exact hfold hmem2

theorem simplify_advice_absent (text : JsString) :
    lit "Simplify complex sentences for better readability" ∉
      (analyzeBiasText text).recommendations :=
  readability_advice_absent text _ (by decide) (by decide) (by decide)

theorem shorter_advice_absent (text : JsString) :
    lit "Use shorter paragraphs and clearer language" ∉
      (analyzeBiasText text).recommendations :=
  readability_advice_absent text _ (by decide) (by decide) (by decide)

/-! ## The claims, continued -/

/-- C11: `calculateExperienceMatch` returns 50 when the candidate's or the job's
experience is absent or zero; for candidate experience `c > 0` and required
experience `r > 0` it returns `80 + 20 * min((c - r) / r, 0.5)`, a value in
`[80, 90]`, when `c >= r`, and `100 - 50 * (r - c) / r`, a value strictly between
50 and 100, when `c < r`; for experience values that are not negative the result
lies in `[0, 100]`. -/
theorem calculateExperienceMatch_spec (candidate : Option Candidate) (job : Option Job) :
    ((candidate.bind (fun c => c.experience) = none ∨
        candidate.bind (fun c => c.experience) = some 0 ∨
        job.bind (fun j => j.experience) = none ∨
        job.bind (fun j => j.experience) = some 0) →
      calculateExperienceMatch candidate job = 50) ∧
    (∀ c r : ℚ, candidate.bind (fun c => c.experience) = some c →
      job.bind (fun j => j.experience) = some r → 0 < c → 0 < r →
      (r ≤ c →
        calculateExperienceMatch candidate job = 80 + 20 * min ((c - r) / r) (1 / 2) ∧
        80 ≤ calculateExperienceMatch candidate job ∧
        calculateExperienceMatch candidate job ≤ 90) ∧
      (c < r →
        calculateExperienceMatch candidate job = 100 - 50 * ((r - c) / r) ∧
        50 < calculateExperienceMatch candidate job ∧
        calculateExperienceMatch candidate job < 100)) ∧
    ((∀ c, candidate.bind (fun c => c.experience) = some c → 0 ≤ c) →
      (∀ r, job.bind (fun j => j.experience) = some r → 0 ≤ r) →
      0 ≤ calculateExperienceMatch candidate job ∧ calculateExperienceMatch candidate job ≤ 100) := by
  refine ⟨?_, ?_, ?_⟩
  · intro h
    rcases h with h | h | h | h
    · exact calculateExperienceMatch_absent candidate job (Or.inl h)
    · cases hr : job.bind (fun j => j.experience) with
      | none => exact calculateExperienceMatch_absent candidate job (Or.inr hr)
      | some r =>
        rw [calculateExperienceMatch_present candidate job 0 r h hr]
        simp
    · exact calculateExperienceMatch_absent candidate job (Or.inr h)
    · cases hc : candidate.bind (fun c => c.experience) with
      | none => exact calculateExperienceMatch_absent candidate job (Or.inl hc)
      | some c =>
        rw [calculateExperienceMatch_present candidate job c 0 hc h]
        simp
  · intro c r hc hr hc0 hr0
    rw [calculateExperienceMatch_present candidate job c r hc hr]
    have hz : ¬ (c = 0 ∨ r = 0) := by
      intro h
      rcases h with h | h
      · rw [h] at hc0; exact lt_irrefl 0 hc0
      · rw [h] at hr0; exact lt_irrefl 0 hr0
    simp only [hz, if_false]
    constructor
    · intro hle
      have hq : 0 ≤ (c - r) / r := div_nonneg (by linarith) (le_of_lt hr0)
      have hm0 : 0 ≤ min ((c - r) / r) (1 / 2) := le_min hq (by norm_num)
      have hm1 : min ((c - r) / r) (1 / 2) ≤ 1 / 2 := min_le_right _ _
      have hval : min (100 : ℚ) (80 + min ((c - r) / r) (1 / 2) * 20) =
          80 + 20 * min ((c - r) / r) (1 / 2) := by
        rw [min_eq_right (by linarith)]
        ring
      simp only [ge_iff_le, hle, if_true]
      rw [hval]
      exact ⟨rfl, by linarith, by linarith⟩
    · intro hlt
      have hnle : ¬ r ≤ c := not_le.mpr hlt
      have hq0 : 0 < (r - c) / r := div_pos (by linarith) hr0
      have hq1 : (r - c) / r < 1 := by
        rw [div_lt_one hr0]
        linarith
      have hval : max (0 : ℚ) (100 - (r - c) / r * 50) = 100 - 50 * ((r - c) / r) := by
        rw [max_eq_right (by linarith)]
        ring
      simp only [ge_iff_le, hnle, if_false]
      rw [hval]
      exact ⟨rfl, by linarith, by linarith⟩
  · intro hcn hrn
    apply calculateExperienceMatch_bounds
    · intro j r hj hjr
      apply hrn r
      rw [hj]
      exact hjr
    · intro c x hcand hcx
      apply hcn x
      rw [hcand]
      exact hcx

/-- C12: `calculateCulturalFit` returns 50 when the candidate's education or the
job's title is missing (absent or empty); otherwise, with
`e = getEducationLevel(education)`, which lies in 1..5, and
`j = getJobLevel(title)`, which lies in 2..4, it returns 70 if `|e - j| <= 1`,
30 if `|e - j| > 2` and 50 if `|e - j| = 2`; the result is always one of 30, 50,
70. -/
theorem calculateCulturalFit_spec (candidate : Option Candidate) (job : Option Job) :
    ((candidate.bind (fun c => c.education) = none ∨
        (∃ e, candidate.bind (fun c => c.education) = some e ∧ educationTruthy e = false) ∨
        job.bind (fun j => j.title) = none ∨ job.bind (fun j => j.title) = some []) →
      calculateCulturalFit candidate job = 50) ∧
    (∀ e t, candidate.bind (fun c => c.education) = some e →
      job.bind (fun j => j.title) = some t → educationTruthy e = true → t ≠ [] →
      1 ≤ getEducationLevel e ∧ getEducationLevel e ≤ 5 ∧
      2 ≤ getJobLevel t ∧ getJobLevel t ≤ 4 ∧
      (|(getEducationLevel e : ℤ) - (getJobLevel t : ℤ)| ≤ 1 →
        calculateCulturalFit candidate job = 70) ∧
      (|(getEducationLevel e : ℤ) - (getJobLevel t : ℤ)| > 2 →
        calculateCulturalFit candidate job = 30) ∧
      (|(getEducationLevel e : ℤ) - (getJobLevel t : ℤ)| = 2 →
        calculateCulturalFit candidate job = 50)) ∧
    (calculateCulturalFit candidate job = 30 ∨ calculateCulturalFit candidate job = 50 ∨
      calculateCulturalFit candidate job = 70) := by
  refine ⟨calculateCulturalFit_missing candidate job, ?_, ?_⟩
  · intro e t he ht hte htt
    have hfit := calculateCulturalFit_present candidate job e t he ht hte htt
    refine ⟨(getEducationLevel_range e).1, (getEducationLevel_range e).2,
      (getJobLevel_range t).1, (getJobLevel_range t).2, ?_, ?_, ?_⟩
    · intro h
      rw [hfit, if_pos h]
    · intro h
      have h1 : ¬ |(getEducationLevel e : ℤ) - (getJobLevel t : ℤ)| ≤ 1 := by omega
      rw [hfit, if_neg h1, if_pos h]
    · intro h
      have h1 : ¬ |(getEducationLevel e : ℤ) - (getJobLevel t : ℤ)| ≤ 1 := by omega
      have h2 : ¬ |(getEducationLevel e : ℤ) - (getJobLevel t : ℤ)| > 2 := by omega
      rw [hfit, if_neg h1, if_neg h2]
  · cases he : candidate.bind (fun c => c.education) with
    | none => exact Or.inr (Or.inl (calculateCulturalFit_missing candidate job (Or.inl he)))
    | some e =>
      cases ht : job.bind (fun j => j.title) with
      | none =>
        exact Or.inr (Or.inl (calculateCulturalFit_missing candidate job (Or.inr (Or.inr (Or.inl ht)))))
      | some t =>
        by_cases hte : educationTruthy e = true
        · by_cases htt : t = []
          · rw [htt] at ht
            exact Or.inr (Or.inl
              (calculateCulturalFit_missing candidate job (Or.inr (Or.inr (Or.inr ht)))))
          · rw [calculateCulturalFit_present candidate job e t he ht hte htt]
            split
            · exact Or.inr (Or.inr rfl)
            · split
              · exact Or.inl rfl
              · exact Or.inr (Or.inl rfl)
        · have hf : educationTruthy e = false := by
            cases h : educationTruthy e with
            | true => exact absurd h hte
            | false => rfl
          exact Or.inr (Or.inl
            (calculateCulturalFit_missing candidate job (Or.inr (Or.inl ⟨e, he, hf⟩))))

/-- C13: `analyzeBias("")` returns `biasScore` 100, no findings,
`inclusiveLanguage` and `genderNeutral` true, `diversityScore` 100 and
`riskLevel` "Low Risk". -/
theorem analyzeBias_empty :
    ∃ r, analyzeBias (JsVal.str []) = some r ∧ r.biasScore = 100 ∧ r.foundBiases = [] ∧
      r.inclusiveLanguage = true ∧ r.genderNeutral = true ∧ r.diversityScore = 100 ∧
      r.riskLevel = lit "Low Risk" :=
  ⟨analyzeBiasText [], rfl, by decide, by decide, by decide, by decide, by decide, by decide⟩

/-- C14 (as stated, refuted): for an absent text, `undefined` or `null`,
`analyzeBias` returns no result; `text.toLowerCase()` raises a `TypeError`. -/
theorem analyzeBias_absent_throws :
    analyzeBias JsVal.undefined = none ∧ analyzeBias JsVal.null = none :=
  ⟨rfl, rfl⟩

/-- C14 (amended): `analyzeBias` returns a result for every string; for the empty
string the result has the maximal `biasScore` 100 and no findings; for every
argument that is not a string, an absent text included, it raises a
`TypeError`. -/
theorem analyzeBias_total_on_strings :
    (∀ s, ∃ r, analyzeBias (JsVal.str s) = some r) ∧
      (∃ r, analyzeBias (JsVal.str []) = some r ∧ r.biasScore = 100 ∧ r.foundBiases = []) ∧
      (∀ v, (∀ s, v ≠ JsVal.str s) → analyzeBias v = none) := by
  refine ⟨fun s => ⟨analyzeBiasText s, rfl⟩, ⟨analyzeBiasText [], rfl, by decide, by decide⟩, ?_⟩
  intro v hv
  cases v with
  | str s => exact absurd rfl (hv s)
  | undefined => rfl
  | null => rfl
  | num q => rfl
  | obj => rfl

/-- C15: appending white space and further text, in particular further
white-space-separated bias terms, to a text never raises the `biasScore` of
`analyzeBias`; the score is `max(0, 100 - sum of weight * count over the
findings)`. -/
theorem analyzeBias_biasScore_antitone (t u : JsString) (ws : Nat)
    (hws : isWhiteSpace ws = true) :
    ∃ r r2, analyzeBias (JsVal.str t) = some r ∧
      analyzeBias (JsVal.str (t ++ ws :: u)) = some r2 ∧
      r2.biasScore ≤ r.biasScore ∧
      r.biasScore =
        max 0 (100 - (r.foundBiases.map (fun f => f.weight * (f.count : ℤ))).sum) := by
  refine ⟨analyzeBiasText t, analyzeBiasText (t ++ ws :: u), rfl, rfl, ?_, ?_⟩
  · have h := scanBiases_fst_antitone t (t ++ ws :: u)
      (fun term => matchCount_append_le term t u ws (isWordUnit_of_isWhiteSpace ws hws))
    simp only [analyzeBiasText]
    exact max_le_max h (le_refl 0)
  · simp only [analyzeBiasText]
    rw [← scanBiases_inv, max_comm]

/-- C15, instance: the text `"he"` extended by a space and `"she"`. -/
theorem analyzeBias_biasScore_antitone_witness :
    isWhiteSpace 32 = true ∧
      ∃ r r2, analyzeBias (JsVal.str (lit "he")) = some r ∧
        analyzeBias (JsVal.str (lit "he" ++ 32 :: lit "she")) = some r2 ∧
        r2.biasScore ≤ r.biasScore ∧
        r.biasScore =
          max 0 (100 - (r.foundBiases.map (fun f => f.weight * (f.count : ℤ))).sum) :=
  ⟨by decide, analyzeBias_biasScore_antitone (lit "he") (lit "she") 32 (by decide)⟩

/-- C16: for every text the `riskLevel` of `analyzeBias` is the mapping of the
returned `biasScore` ("Low Risk" from 80, "Medium Risk" from 60, "High Risk"
from 40, else "Critical Risk"), and `compliance.eeocCompliant` holds exactly
when the returned `biasScore` is at least 70. -/
theorem analyzeBias_riskLevel (text : JsString) :
    ∃ r, analyzeBias (JsVal.str text) = some r ∧
      (r.riskLevel = lit "Low Risk" ↔ r.biasScore ≥ 80) ∧
      (r.riskLevel = lit "Medium Risk" ↔ 60 ≤ r.biasScore ∧ r.biasScore < 80) ∧
      (r.riskLevel = lit "High Risk" ↔ 40 ≤ r.biasScore ∧ r.biasScore < 60) ∧
      (r.riskLevel = lit "Critical Risk" ↔ r.biasScore < 40) ∧
      (r.compliance.eeocCompliant = true ↔ r.biasScore ≥ 70) := by
  obtain ⟨h1, h2, h3, h4⟩ := riskLevelOf_iff (scanBiases text).1
  refine ⟨analyzeBiasText text, rfl, h1, h2, h3, h4, ?_⟩
  simp only [analyzeBiasText, decide_eq_true_eq]
  omega

/-- C17 (as stated, refuted): for the text `"he she diverse diverse"` and its two
findings the code returns 93, while 100 - 5 * 2 + 3 * 2 = 96 counts the bonus
per occurrence. -/
theorem calculateDiversityScore_not_per_occurrence :
    calculateDiversityScore diverseText (scanBiases diverseText).2 = 93 ∧
      specDiversityScore diverseText (scanBiases diverseText).2 = 96 ∧
      calculateDiversityScore diverseText (scanBiases diverseText).2 ≠
        specDiversityScore diverseText (scanBiases diverseText).2 := by
  decide

/-- C17 (amended): `calculateDiversityScore` equals `clamp(100 - 5 * (number of
findings) + 3 * (number of the six terms diverse, inclusion, equity, belonging,
multicultural, diversity that occur in the lower-cased text), 0, 100)`: the bonus
is 3 for each term that is present, however often. -/
theorem calculateDiversityScore_spec (text : JsString) (foundBiases : List BiasFinding) :
    calculateDiversityScore text foundBiases =
        max 0 (min 100 (100 - 5 * (foundBiases.length : ℤ) +
          3 * ((diversityTerms.filter
            (fun term => includes (toLowerCase text) term)).length : ℤ))) ∧
      diversityTerms =
        [lit "diverse", lit "inclusion", lit "equity", lit "belonging", lit "multicultural",
          lit "diversity"] :=
  ⟨calculateDiversityScore_eq text foundBiases, rfl⟩

/-- C18: `generateRecommendations` returns a list without duplicates, of at most
5 entries, each a suggestion of some finding or one of the four generic
strings, ordered by first occurrence in the collected recommendations. -/
theorem generateRecommendations_spec (foundBiases : List BiasFinding)
    (languageAnalysis : LanguageAnalysis) :
    (generateRecommendations foundBiases languageAnalysis).Nodup ∧
      (generateRecommendations foundBiases languageAnalysis).length ≤ 5 ∧
      (∀ r ∈ generateRecommendations foundBiases languageAnalysis,
        (∃ bias ∈ foundBiases, r ∈ bias.suggestions) ∨
        r ∈ [lit "Consider updating language to be more modern and inclusive",
          lit "Replace outdated terms with contemporary equivalents",
          lit "Simplify complex sentences for better readability",
          lit "Use shorter paragraphs and clearer language"]) ∧
      (generateRecommendations foundBiases languageAnalysis).Pairwise
        (fun x y =>
          firstIndex x (allRecommendations foundBiases languageAnalysis) <
            firstIndex y (allRecommendations foundBiases languageAnalysis)) ∧
      (generateRecommendations foundBiases languageAnalysis).Sublist
        (allRecommendations foundBiases languageAnalysis) := by
  unfold generateRecommendations
  refine ⟨(jsUnique_nodup _).sublist (List.take_sublist _ _), List.length_take_le _ _, ?_,
    (jsUnique_firstOccurrence _).sublist (List.take_sublist _ _),
    (List.take_sublist _ _).trans (jsUnique_sublist _)⟩
  intro r hr
  have hall : r ∈ allRecommendations foundBiases languageAnalysis :=
    (mem_jsUnique _ r).mp (List.mem_of_mem_take hr)
  unfold allRecommendations at hall
  simp only at hall
  have hbase : ∀ x, x ∈ foundBiases.foldl (fun acc bias => acc ++ bias.suggestions) [] →
      ∃ bias ∈ foundBiases, x ∈ bias.suggestions := by
    intro x hx
    rcases (mem_suggestions_foldl foundBiases [] x).mp hx with h | h
    · exact absurd h (List.not_mem_nil x)
    · exact h
  by_cases hm : languageAnalysis.modernScore < 60 <;>
    by_cases hread : languageAnalysis.readability < 60 <;>
    simp only [hm, hread, if_true, if_false, List.mem_append, List.mem_cons,
      List.mem_singleton, List.not_mem_nil, or_false] at hall ⊢
  · rcases hall with (h | h | h) | h | h
    · exact Or.inl (hbase r h)
    · exact Or.inr (Or.inl h)
    · exact Or.inr (Or.inr (Or.inl h))
    · exact Or.inr (Or.inr (Or.inr (Or.inl h)))
    · exact Or.inr (Or.inr (Or.inr (Or.inr h)))
  · rcases hall with h | h | h
    · exact Or.inl (hbase r h)
    · exact Or.inr (Or.inl h)
    · exact Or.inr (Or.inr (Or.inl h))
  · rcases hall with h | h | h
    · exact Or.inl (hbase r h)
    · exact Or.inr (Or.inr (Or.inr (Or.inl h)))
    · exact Or.inr (Or.inr (Or.inr (Or.inr h)))
  · exact Or.inl (hbase r hall)

/-- C19 (refuted as stated): the weights stored for 12.1, 37.9, 25, 25 are
accepted although their sum is not 100 (the double sum rounds to 100), and the
weights stored for 33.3, 33.3, 33.3, 0.1, decimals that sum to 100, are
rejected (the double sum is below 100). -/
theorem validateConfiguration_decimal_weights :
    ((∀ numberToString, validateConfiguration numberToString decimalWeights = []) ∧
      decimalWeights.weights.candidateVolume + decimalWeights.weights.applicationRate +
        decimalWeights.weights.timeToFill + decimalWeights.weights.diversityRatio ≠ 100) ∧
    ((∀ numberToString, validateConfiguration numberToString thirdsWeights ≠ []) ∧
      thirdsWeights.weights.candidateVolume = roundDouble (333 / 10) ∧
      thirdsWeights.weights.applicationRate = roundDouble (333 / 10) ∧
      thirdsWeights.weights.timeToFill = roundDouble (333 / 10) ∧
      thirdsWeights.weights.diversityRatio = roundDouble (1 / 10) ∧
      (333 / 10 + 333 / 10 + 333 / 10 + 1 / 10 : ℚ) = 100) := by
  refine ⟨⟨?_, ?_⟩, ?_, ?_, ?_, ?_, ?_, ?_⟩
  · intro numberToString
    rw [validateConfiguration_eq_nil_iff, totalWeight_decimalWeights]
    simp only [decimalWeights, getDefaults]
    norm_num
  · simp only [decimalWeights]
    norm_num
  · intro numberToString h
    rw [validateConfiguration_eq_nil_iff, totalWeight_thirdsWeights] at h
    norm_num at h
  · rw [roundDouble_decimal_333]
    rfl
  · rw [roundDouble_decimal_333]
    rfl
  · rw [roundDouble_decimal_333]
    rfl
  · rw [roundDouble_decimal_01]
    rfl
  · norm_num

/-- C19 (amended): `validateConfiguration` returns the empty list exactly when
the sum of the four weights as the code computes it, in double precision from
the left, is 100, `warningScoreMin < healthyScoreMin` and
`criticalDiversityRatio < minDiversityRatio`; otherwise it returns one message
per failed condition, in that order.  For weights that are natural numbers the
computed sum is the exact sum, so with the other fields at their defaults the
weights `{40, 30, 20, 9}` give one violation, which contains "must sum to 100",
and the default weights `{40, 30, 20, 10}` give none. -/
theorem validateConfiguration_spec (numberToString : ℚ → JsString) :
    (∀ t : HealthThresholds,
      (validateConfiguration numberToString t = [] ↔
        totalWeight t.weights = 100 ∧ t.warningScoreMin < t.healthyScoreMin ∧
          t.criticalDiversityRatio < t.minDiversityRatio) ∧
      validateConfiguration numberToString t =
        (if totalWeight t.weights = 100 then []
          else [lit "Metric weights must sum to 100, currently sum to " ++
            numberToString (totalWeight t.weights)]) ++
        (if t.warningScoreMin < t.healthyScoreMin then []
          else [lit "Warning score minimum must be less than healthy score minimum"]) ++
        (if t.criticalDiversityRatio < t.minDiversityRatio then []
          else [lit "Critical diversity ratio must be less than minimum diversity ratio"])) ∧
    (∀ (w : Weights) (a b c d : ℕ), w.candidateVolume = a → w.applicationRate = b →
      w.timeToFill = c → w.diversityRatio = d → a + b + c + d < 2 ^ 53 →
      totalWeight w = ((a + b + c + d : ℕ) : ℚ) ∧
        (totalWeight w = 100 ↔ a + b + c + d = 100)) ∧
    (∃ msg, validateConfiguration numberToString weights99 = [msg] ∧
      includes msg (lit "must sum to 100") = true) ∧
    validateConfiguration numberToString getDefaults = [] := by
  refine ⟨?_, ?_, ?_, validateConfiguration_defaults numberToString⟩
  · intro t
    exact ⟨validateConfiguration_eq_nil_iff numberToString t,
      validateConfiguration_cases numberToString t⟩
  · intro w a b c d ha hb hc hd h
    have hw := totalWeight_natCast w a b c d ha hb hc hd h
    refine ⟨hw, ?_⟩
    rw [hw]
    exact_mod_cast Iff.rfl
  · refine ⟨_, validateConfiguration_99 numberToString, ?_⟩
    apply includes_append
    decide

/-- C20: for thresholds with `warningScoreMin < healthyScoreMin`,
`getStatusFromScore` returns 'healthy' exactly for scores from `healthyScoreMin`,
'warning' exactly for scores from `warningScoreMin` below `healthyScoreMin`, and
'critical' exactly for scores below `warningScoreMin`; with the defaults (80, 60)
the scores 80, 60 and 59 map to healthy, warning and critical. -/
theorem getStatusFromScore_spec :
    (∀ (score : ℚ) (t : HealthThresholds), t.warningScoreMin < t.healthyScoreMin →
      (getStatusFromScore score t = lit "healthy" ↔ score ≥ t.healthyScoreMin) ∧
      (getStatusFromScore score t = lit "warning" ↔
        t.warningScoreMin ≤ score ∧ score < t.healthyScoreMin) ∧
      (getStatusFromScore score t = lit "critical" ↔ score < t.warningScoreMin)) ∧
    getStatusFromScore 80 getDefaults = lit "healthy" ∧
    getStatusFromScore 60 getDefaults = lit "warning" ∧
    getStatusFromScore 59 getDefaults = lit "critical" := by
  have hd : getDefaults.warningScoreMin < getDefaults.healthyScoreMin := by
    simp only [getDefaults]
    norm_num
  refine ⟨getStatusFromScore_iff, ?_, ?_, ?_⟩
  · rw [(getStatusFromScore_iff 80 getDefaults hd).1]
    simp only [getDefaults]
    norm_num
  · rw [(getStatusFromScore_iff 60 getDefaults hd).2.1]
    simp only [getDefaults]
    norm_num
  · rw [(getStatusFromScore_iff 59 getDefaults hd).2.2]
    simp only [getDefaults]
    norm_num

/-! ## The claims on the pipeline health -/

/-- C21: for every snapshot and every thresholds record whose four targets are
positive and whose weights are not negative and sum to 100, each of the four
sub-scores of `PipelineHealthCalculator` is an integer between 0 and 100, and
`calculateOverallHealthScore` of the four, which is not clamped, is an integer
between 0 and 100 as well. -/
theorem pipeline_scores_bounded (candidates : List SnapshotCandidate) (jobs : List SnapshotJob)
    (applications recentApplications : List SnapshotApplication) (t : HealthThresholds)
    (h1 : 0 < t.minCandidatesPerJob) (h2 : 0 < t.minWeeklyApplications)
    (_h3 : 0 < t.maxTimeToFill) (h4 : 0 < t.minDiversityRatio)
    (w1 : 0 ≤ t.weights.candidateVolume) (w2 : 0 ≤ t.weights.applicationRate)
    (w3 : 0 ≤ t.weights.timeToFill) (w4 : 0 ≤ t.weights.diversityRatio)
    (hsum : t.weights.candidateVolume + t.weights.applicationRate + t.weights.timeToFill +
      t.weights.diversityRatio = 100) :
    (0 ≤ calculateCandidateVolumeHealth candidates jobs t ∧
      calculateCandidateVolumeHealth candidates jobs t ≤ 100) ∧
    (0 ≤ calculateApplicationRateHealth recentApplications t ∧
      calculateApplicationRateHealth recentApplications t ≤ 100) ∧
    (0 ≤ calculateTimeToFillHealth jobs applications t ∧
      calculateTimeToFillHealth jobs applications t ≤ 100) ∧
    (0 ≤ calculateDiversityHealth candidates t ∧ calculateDiversityHealth candidates t ≤ 100) ∧
    (0 ≤ calculateOverallHealthScore
        (snapshotMetrics candidates jobs applications recentApplications t) t ∧
      calculateOverallHealthScore
        (snapshotMetrics candidates jobs applications recentApplications t) t ≤ 100) := by
  have b1 := calculateCandidateVolumeHealth_bounds candidates jobs t h1
  have b2 := calculateApplicationRateHealth_bounds recentApplications t h2
  have b3 := calculateTimeToFillHealth_bounds jobs applications t
  have b4 := calculateDiversityHealth_bounds candidates t h4
  refine ⟨b1, b2, b3, b4, ?_⟩
  have c1 : (0 : ℚ) ≤ (calculateCandidateVolumeHealth candidates jobs t : ℤ) ∧
      ((calculateCandidateVolumeHealth candidates jobs t : ℤ) : ℚ) ≤ 100 :=
    ⟨by exact_mod_cast b1.1, by exact_mod_cast b1.2⟩
  have c2 : (0 : ℚ) ≤ (calculateApplicationRateHealth recentApplications t : ℤ) ∧
      ((calculateApplicationRateHealth recentApplications t : ℤ) : ℚ) ≤ 100 :=
    ⟨by exact_mod_cast b2.1, by exact_mod_cast b2.2⟩
  have c3 : (0 : ℚ) ≤ (calculateTimeToFillHealth jobs applications t : ℤ) ∧
      ((calculateTimeToFillHealth jobs applications t : ℤ) : ℚ) ≤ 100 :=
    ⟨by exact_mod_cast b3.1, by exact_mod_cast b3.2⟩
  have c4 : (0 : ℚ) ≤ (calculateDiversityHealth candidates t : ℤ) ∧
      ((calculateDiversityHealth candidates t : ℤ) : ℚ) ≤ 100 :=
    ⟨by exact_mod_cast b4.1, by exact_mod_cast b4.2⟩
  exact calculateOverallHealthScore_bounds
    (snapshotMetrics candidates jobs applications recentApplications t) t c1 c2 c3 c4
    w1 w2 w3 w4 hsum

/-- C21, instance: the sample snapshot under the default thresholds. -/
theorem pipeline_scores_bounded_witness :
    (0 < getDefaults.minCandidatesPerJob ∧ 0 < getDefaults.minWeeklyApplications ∧
      0 < getDefaults.maxTimeToFill ∧ 0 < getDefaults.minDiversityRatio) ∧
    (0 ≤ calculateOverallHealthScore
        (snapshotMetrics sampleCandidates sampleJobs sampleApplications sampleApplications
          getDefaults) getDefaults ∧
      calculateOverallHealthScore
        (snapshotMetrics sampleCandidates sampleJobs sampleApplications sampleApplications
          getDefaults) getDefaults ≤ 100) :=
  ⟨⟨by norm_num [getDefaults], by norm_num [getDefaults], by norm_num [getDefaults],
      by norm_num [getDefaults]⟩,
    (pipeline_scores_bounded sampleCandidates sampleJobs sampleApplications sampleApplications
      getDefaults (by norm_num [getDefaults]) (by norm_num [getDefaults])
      (by norm_num [getDefaults]) (by norm_num [getDefaults]) (by norm_num [getDefaults])
      (by norm_num [getDefaults]) (by norm_num [getDefaults]) (by norm_num [getDefaults])
      (by norm_num [getDefaults])).2.2.2.2⟩

/-- C22: with the sub-scores 20, 90, 90, 90 and the default thresholds,
`calculateOverallHealthScore` returns 62, `getStatusFromScore` of it returns
`"warning"`, and the list of `identifyTriggers` includes `"LOW_CANDIDATE_VOLUME"`. -/
theorem pipeline_worked_example :
    calculateOverallHealthScore exampleMetrics getDefaults = 62 ∧
      getStatusFromScore ((calculateOverallHealthScore exampleMetrics getDefaults : ℤ) : ℚ)
        getDefaults = lit "warning" ∧
      lit "LOW_CANDIDATE_VOLUME" ∈ identifyTriggers exampleMetrics getDefaults := by
  refine ⟨calculateOverallHealthScore_example, ?_, ?_⟩
  · rw [calculateOverallHealthScore_example]
    exact_mod_cast getStatusFromScore_example
  · rw [identifyTriggers_example]
    exact List.mem_singleton.mpr rfl

/-- C23 (refuted as stated): with only the time-to-fill health below 30, the one
alert emitted has the type `"HIGH_TIME_TO_FILL"` and the severity `"warning"`, so
no alert of that type has the severity `"critical"`. -/
theorem generateAlerts_timeToFill_not_critical :
    slowFillMetrics.timeToFillHealth < 30 ∧
      generateAlerts slowFillMetrics getDefaults = [timeToFillAlert] ∧
      ¬ ∃ a ∈ generateAlerts slowFillMetrics getDefaults,
        a.type = lit "HIGH_TIME_TO_FILL" ∧ a.severity = lit "critical" := by
  refine ⟨by norm_num [slowFillMetrics], generateAlerts_slowFill, ?_⟩
  rw [generateAlerts_slowFill]
  decide

/-- C23 (amended): for every metrics record `generateAlerts` emits, for each
sub-score below 30, an alert of the corresponding type; its severity is
`"critical"` for the candidate volume and the application rate, and `"warning"`
for the time-to-fill and the diversity. -/
theorem generateAlerts_below_30 (m : HealthMetrics) (t : HealthThresholds) :
    (m.candidateVolumeHealth < 30 → ∃ a ∈ generateAlerts m t,
        a.type = lit "LOW_CANDIDATE_VOLUME" ∧ a.severity = lit "critical") ∧
      (m.applicationRateHealth < 30 → ∃ a ∈ generateAlerts m t,
        a.type = lit "LOW_APPLICATION_RATE" ∧ a.severity = lit "critical") ∧
      (m.timeToFillHealth < 30 → ∃ a ∈ generateAlerts m t,
        a.type = lit "HIGH_TIME_TO_FILL" ∧ a.severity = lit "warning") ∧
      (m.diversityHealth < 30 → ∃ a ∈ generateAlerts m t,
        a.type = lit "LOW_DIVERSITY_RATIO" ∧ a.severity = lit "warning") :=
  alerts_below_30 m t

/-- C24 (code defect): `MetricsService.calculatePipelineHealth` raises a
`TypeError` on every metrics record, the record with four sub-scores 50 included,
and `MetricsService.getHealthStatus` raises one on every score: the calculation
methods are called on `CALCULATION_METHODS`, which has neither `WEIGHTS` nor
`HEALTH_THRESHOLDS`; with `METRICS_CONFIG` as the receiver `HEALTH_SCORE` returns
the weighted sum. -/
theorem metricsService_throws :
    MetricsService.calculatePipelineHealth fiftyMetrics = none ∧
      (∀ metrics, MetricsService.calculatePipelineHealth metrics = none) ∧
      (∀ score, MetricsService.getHealthStatus score = none) ∧
      (∀ metrics, HEALTH_SCORE ConfigObject.metricsConfig metrics =
        some (metrics.candidateVolume * (2 / 5) + metrics.applicationRate * (3 / 10) +
          metrics.timeToFill * (1 / 5) + metrics.diversityRatio * (1 / 10))) :=
  ⟨calculatePipelineHealth_throws fiftyMetrics, calculatePipelineHealth_throws,
    getHealthStatus_throws, HEALTH_SCORE_metricsConfig⟩

/-! ## The claims on skill matching and the score range -/

/-- C25 (refuted as stated): the lower-cased labels `"java"` and `"jave"` differ
by one substitution, and `isSkillMatch("java", "jave")` is `false`: the
similarity `(4 - 1) / 4` is not above 0.8. -/
theorem isSkillMatch_java_jave :
    editDistance (toLowerCase (lit "java")) (toLowerCase (lit "jave")) = 1 ∧
      isSkillMatch (JsVal.str (lit "java")) (JsVal.str (lit "jave")) = some false := by
  constructor
  · decide
  · rw [isSkillMatch_str]
    decide

/-- C25 (amended): for every pair of non-empty labels of ASCII characters whose
lower-cased forms are at Levenshtein distance 1 and neither of which lower-cases
to a property name inherited from `Object.prototype`, `isSkillMatch` returns a
boolean, which is `true` exactly when one label is listed as a synonym of the
other or the longer label has more than 5 characters; so it is `true` for one
edit in a label of more than 5 characters, and `false` for one edit between
labels of at most 5 characters that are not synonyms. -/
theorem isSkillMatch_one_edit (c j : JsString) (hc : c ≠ []) (hj : j ≠ [])
    (_hca : ∀ u ∈ c, u < 128) (_hja : ∀ u ∈ j, u < 128)
    (hd : editDistance (toLowerCase c) (toLowerCase j) = 1)
    (hsc : SafeKey c) (hsj : SafeKey j) :
    isSkillMatch (JsVal.str c) (JsVal.str j) =
      some (decide (optionalIncludes (skillMappings (toLowerCase j)) (toLowerCase c) =
            some true) ||
          decide (optionalIncludes (skillMappings (toLowerCase c)) (toLowerCase j) =
            some true) ||
          decide (5 < max c.length j.length)) ∧
    (5 < max c.length j.length →
      isSkillMatch (JsVal.str c) (JsVal.str j) = some true) ∧
    (max c.length j.length ≤ 5 →
      optionalIncludes (skillMappings (toLowerCase j)) (toLowerCase c) ≠ some true →
      optionalIncludes (skillMappings (toLowerCase c)) (toLowerCase j) ≠ some true →
      isSkillMatch (JsVal.str c) (JsVal.str j) = some false) := by
  have h := isSkillMatchStr_one_edit_eq c j hc hj hd hsc hsj
  rw [isSkillMatch_str]
  refine ⟨h, ?_, ?_⟩
  · intro hlen
    rw [h]
    simp [hlen]
  · intro hlen ha hb
    rw [h]
    have hl : ¬ 5 < max c.length j.length := by omega
    simp [ha, hb, hl]

/-- C25 (amended), instances: `"Kubernetes"` and `"kubernets"` match; `"react"`
and `"reach"`, one edit apart with 5 characters, do not. -/
theorem isSkillMatch_one_edit_witness :
    (editDistance (toLowerCase (lit "Kubernetes")) (toLowerCase (lit "kubernets")) = 1 ∧
      isSkillMatch (JsVal.str (lit "Kubernetes")) (JsVal.str (lit "kubernets")) = some true) ∧
    (editDistance (toLowerCase (lit "react")) (toLowerCase (lit "reach")) = 1 ∧
      isSkillMatch (JsVal.str (lit "react")) (JsVal.str (lit "reach")) = some false) :=
  ⟨⟨by decide,
      (isSkillMatch_one_edit (lit "Kubernetes") (lit "kubernets") (by decide) (by decide)
        (by decide) (by decide) (by decide) (by unfold SafeKey; decide)
        (by unfold SafeKey; decide)).2.1 (by decide)⟩,
    ⟨by decide,
      (isSkillMatch_one_edit (lit "react") (lit "reach") (by decide) (by decide)
        (by decide) (by decide) (by decide) (by unfold SafeKey; decide)
        (by unfold SafeKey; decide)).2.2 (by decide) (by decide) (by decide)⟩⟩

/-- C26 (code defect): for the candidate skills `["js", "javascript", "react"]`
and the required skills `["javascript"]` the skill-match ratio is 3, so the
skill-alignment factor shifts the probability by 75 points, not by at most 15,
and the probability is 100. -/
theorem skillAlignment_above_15 :
    skillAlignment (some synonymCandidate) (some synonymJob) = some ((3 - 1 / 2) * 30) ∧
      skillAlignment (some synonymCandidate) (some synonymJob) = some 75 ∧
      calculateSuccessProbability (some synonymCandidate) (some synonymJob) = some 100 := by
  refine ⟨?_, skillAlignment_synonym, calculateSuccessProbability_synonym⟩
  rw [skillAlignment_synonym]
  norm_num

/-- C27: `isSkillMatch` is symmetric on strings: `isSkillMatch(a, b)` and
`isSkillMatch(b, a)` return the same boolean, or both raise. -/
theorem isSkillMatch_symm (a b : JsString) :
    isSkillMatch (JsVal.str a) (JsVal.str b) = isSkillMatch (JsVal.str b) (JsVal.str a) := by
  rw [isSkillMatch_str, isSkillMatch_str]
  exact isSkillMatchStr_symm a b

/-- C28 (refuted as stated): with 19 years of experience against 20 required the
experience sub-score is 97.5, above 90, and with the candidate skills
`["js", "javascript", "react"]` the match score is 95, above 94. -/
theorem calculateMatchScore_reaches_95 :
    calculateExperienceMatch (some synonymCandidate) (some synonymJob) = 195 / 2 ∧
      90 < calculateExperienceMatch (some synonymCandidate) (some synonymJob) ∧
      calculateMatchScore
        [JsVal.str (lit "js"), JsVal.str (lit "javascript"), JsVal.str (lit "react")]
        [JsVal.str (lit "javascript")] [JsVal.str (lit "react")]
        (some synonymCandidate) (some synonymJob) = some 95 := by
  refine ⟨calculateExperienceMatch_synonym, ?_, calculateMatchScore_synonym⟩
  rw [calculateExperienceMatch_synonym]
  norm_num

/-- C28 (amended): for skill lists of ASCII strings none of which lower-cases to
an inherited property name (the entries of `candidate.skills` after trimming),
experience values that are not negative, and a skill-alignment shift of at most
15, `calculateMatchScore` returns an integer between 18 and 93; the sub-scores
lie in the ranges technical `[0, 100]`, experience `[50, 100)`, cultural
`[30, 70]` and success `[25, 95]`, their weighted sum lies in `[18.25, 93.25]`,
and every number closer than 0.25 to that sum is rounded, the clamp to 100
included, to an integer between 18 and 93. -/
theorem calculateMatchScore_range (cs rs ns : List JsVal) (candidate : Option Candidate)
    (job : Option Job)
    (hc : ∀ v ∈ cs, ∃ s, v = JsVal.str s ∧ AsciiLabel s ∧ SafeKey s)
    (hr : ∀ v ∈ rs, ∃ s, v = JsVal.str s ∧ AsciiLabel s ∧ SafeKey s)
    (hn : ∀ v ∈ ns, ∃ s, v = JsVal.str s ∧ AsciiLabel s ∧ SafeKey s)
    (hcand : ∀ c sk s, candidate = some c → c.skills = some sk → JsVal.str s ∈ sk →
      AsciiLabel s ∧ SafeKey (trim s))
    (hjob : ∀ j rq s, job = some j → j.requiredSkills = some rq → JsVal.str s ∈ rq →
      AsciiLabel s ∧ SafeKey s)
    (hjexp : ∀ j r, job = some j → j.experience = some r → 0 ≤ r)
    (hcexp : ∀ c x, candidate = some c → c.experience = some x → 0 ≤ x)
    (hratio : ∀ shift, skillAlignment candidate job = some shift → shift ≤ 15) :
    ∃ n t p, calculateMatchScore cs rs ns candidate job = some n ∧
      calculateTechnicalMatch cs rs ns = some t ∧
      calculateSuccessProbability candidate job = some p ∧
      18 ≤ n ∧ n ≤ 93 ∧ 0 ≤ t ∧ t ≤ 100 ∧
      50 ≤ calculateExperienceMatch candidate job ∧
      calculateExperienceMatch candidate job < 100 ∧
      30 ≤ calculateCulturalFit candidate job ∧ calculateCulturalFit candidate job ≤ 70 ∧
      25 ≤ p ∧ p ≤ 95 ∧
      73 / 4 ≤ 0 + t * (1 / 2) + calculateExperienceMatch candidate job * (1 / 5) +
        calculateCulturalFit candidate job * (3 / 20) + p * (3 / 20) ∧
      0 + t * (1 / 2) + calculateExperienceMatch candidate job * (1 / 5) +
        calculateCulturalFit candidate job * (3 / 20) + p * (3 / 20) ≤ 373 / 4 ∧
      ∀ y : ℚ, |y - (0 + t * (1 / 2) + calculateExperienceMatch candidate job * (1 / 5) +
          calculateCulturalFit candidate job * (3 / 20) + p * (3 / 20))| < 1 / 4 →
        18 ≤ min (mathRound y) 100 ∧ min (mathRound y) 100 ≤ 93 := by
  obtain ⟨n, hn1, _, _⟩ := calculateMatchScore_isSome cs rs ns candidate job
    (safeEntry_of_plain cs hc) (safeEntry_of_plain rs hr) (safeEntry_of_plain ns hn)
    (fun c sk s h1 h2 h3 => (hcand c sk s h1 h2 h3).2)
    (fun j rq s h1 h2 h3 => (hjob j rq s h1 h2 h3).2) hjexp hcexp
  obtain ⟨t, p, ht, hp, _, h18, _, h93⟩ :=
    calculateMatchScore_range_aux cs rs ns candidate job n hjexp hcexp hn1
  obtain ⟨_, ht0, ht100, _⟩ := calculateTechnicalMatch_formula cs rs ns t ht
  obtain ⟨he50, he100, _⟩ := calculateExperienceMatch_range candidate job hjexp hcexp
  obtain ⟨hc30, hc70⟩ := calculateCulturalFit_range candidate job
  have hp25 := calculateSuccessProbability_ge candidate job p hp
  have hx := experience_terms_le candidate job hjexp hcexp p hp hratio
  have hlo : 73 / 4 ≤ 0 + t * (1 / 2) + calculateExperienceMatch candidate job * (1 / 5) +
      calculateCulturalFit candidate job * (3 / 20) + p * (3 / 20) := by linarith
  have hhi : 0 + t * (1 / 2) + calculateExperienceMatch candidate job * (1 / 5) +
      calculateCulturalFit candidate job * (3 / 20) + p * (3 / 20) ≤ 373 / 4 := by linarith
  exact ⟨n, t, p, hn1, ht, hp, h18, h93 hratio, ht0, ht100, he50, he100, hc30, hc70, hp25,
    calculateSuccessProbability_le candidate job p hp hratio, hlo, hhi,
    fun y hy => mathRound_near _ y hlo hhi hy⟩

/-- C28 (amended), instance: the worked example, whose score is 86. -/
theorem calculateMatchScore_range_witness :
    skillAlignment (some exampleCandidate) (some exampleJob) = some 0 ∧
    ∃ n t p, calculateMatchScore [JsVal.str (lit "javascript"), JsVal.str (lit "css")]
        [JsVal.str (lit "javascript"), JsVal.str (lit "react")] [JsVal.str (lit "css")]
        (some exampleCandidate) (some exampleJob) = some n ∧
      calculateTechnicalMatch [JsVal.str (lit "javascript"), JsVal.str (lit "css")]
        [JsVal.str (lit "javascript"), JsVal.str (lit "react")] [JsVal.str (lit "css")] =
        some t ∧
      calculateSuccessProbability (some exampleCandidate) (some exampleJob) = some p ∧
      18 ≤ n ∧ n ≤ 93 ∧ 0 ≤ t ∧ t ≤ 100 ∧
      50 ≤ calculateExperienceMatch (some exampleCandidate) (some exampleJob) ∧
      calculateExperienceMatch (some exampleCandidate) (some exampleJob) < 100 ∧
      30 ≤ calculateCulturalFit (some exampleCandidate) (some exampleJob) ∧
      calculateCulturalFit (some exampleCandidate) (some exampleJob) ≤ 70 ∧
      25 ≤ p ∧ p ≤ 95 ∧
      73 / 4 ≤ 0 + t * (1 / 2) +
        calculateExperienceMatch (some exampleCandidate) (some exampleJob) * (1 / 5) +
        calculateCulturalFit (some exampleCandidate) (some exampleJob) * (3 / 20) +
        p * (3 / 20) ∧
      0 + t * (1 / 2) +
        calculateExperienceMatch (some exampleCandidate) (some exampleJob) * (1 / 5) +
        calculateCulturalFit (some exampleCandidate) (some exampleJob) * (3 / 20) +
        p * (3 / 20) ≤ 373 / 4 ∧
      ∀ y : ℚ, |y - (0 + t * (1 / 2) +
          calculateExperienceMatch (some exampleCandidate) (some exampleJob) * (1 / 5) +
          calculateCulturalFit (some exampleCandidate) (some exampleJob) * (3 / 20) +
          p * (3 / 20))| < 1 / 4 →
        18 ≤ min (mathRound y) 100 ∧ min (mathRound y) 100 ≤ 93 :=
  ⟨skillAlignment_example,
    calculateMatchScore_range [JsVal.str (lit "javascript"), JsVal.str (lit "css")]
      [JsVal.str (lit "javascript"), JsVal.str (lit "react")] [JsVal.str (lit "css")]
      (some exampleCandidate) (some exampleJob) example_candidateSkills_plain
      example_requiredSkills_plain example_niceToHaveSkills_plain exampleCandidate_plain
      exampleJob_plain exampleJob_experience exampleCandidate_experience
      skillAlignment_example_le⟩

/-- C29: `calculateReadability` returns 60, 80 or 100 for every text, so the
readability of `analyzeLanguagePatterns` is never below 60, and for every text
the `recommendations` of `analyzeBias` contain neither "Simplify complex
sentences for better readability" nor "Use shorter paragraphs and clearer
language". -/
theorem readability_advice_never_given (text : JsString) :
    (calculateReadability text = 60 ∨ calculateReadability text = 80 ∨
      calculateReadability text = 100) ∧
    ¬ (analyzeLanguagePatterns text).readability < 60 ∧
    ∃ r, analyzeBias (JsVal.str text) = some r ∧
      lit "Simplify complex sentences for better readability" ∉ r.recommendations ∧
      lit "Use shorter paragraphs and clearer language" ∉ r.recommendations := by
  refine ⟨calculateReadability_values text, ?_,
    analyzeBiasText text, rfl, simplify_advice_absent text, shorter_advice_absent text⟩
  have hr : (analyzeLanguagePatterns text).readability = calculateReadability text := rfl
  rw [hr]
  rcases calculateReadability_values text with h | h | h <;> rw [h] <;> decide

/-- C30: for every metrics record the type of every alert of `generateAlerts` is
one of the triggers of `identifyTriggers`, no two alerts share a type, there are
at most 4 alerts, an alert of type `"LOW_CANDIDATE_VOLUME"` exists exactly when
that trigger is returned, and `generateRecommendations` of the triggers has no
duplicates and 4 entries for every trigger. -/
theorem alerts_consistent_with_triggers (m : HealthMetrics) (t : HealthThresholds) :
    (∀ a ∈ generateAlerts m t, a.type ∈ identifyTriggers m t) ∧
      ((generateAlerts m t).map (fun a => a.type)).Nodup ∧
      (generateAlerts m t).length ≤ 4 ∧
      ((∃ a ∈ generateAlerts m t, a.type = lit "LOW_CANDIDATE_VOLUME") ↔
        lit "LOW_CANDIDATE_VOLUME" ∈ identifyTriggers m t) ∧
      (PipelineHealthCalculator.generateRecommendations (identifyTriggers m t)).Nodup ∧
      (PipelineHealthCalculator.generateRecommendations (identifyTriggers m t)).length =
        4 * (identifyTriggers m t).length := by
  obtain ⟨h1, h2, h3, h4⟩ := alerts_within_triggers m t
  obtain ⟨h5, h6⟩ := recommendations_of_triggers m t
  exact ⟨h1, h2, h3, h4, h5, h6⟩

end HireSphere
